import Mathlib

set_option linter.unusedSectionVars false

/-!
# WalrusDelay: a verification development

A shallow embedding of the DSP core of the WalrusDelay plugin
(`src/PluginProcessor.h`, `src/OLDVERSION/PluginProcessor.cpp`,
`src/Source/PluginProcessor.h`, `src/Source/PluginProcessor.cpp`).

Samples (`float` in the source) are elements of an arbitrary linearly ordered
field with a floor function, so every statement holds over exact real
arithmetic and the definitions evaluate over the rationals.  Machine integers
are naturals or integers, with the reduction modulo `2 ^ 32` written out where
the source computes on `unsigned int`.  Functions of the C++ maths library
(`exp`, `sin`, `cos`, `tanh`) are passed in a `MathFns` record; `realMath` is
the record of the real functions.  Where the rounding of `float` decides what
the code does, the function is given a second time with a rounding function
applied to every float operation (`readBufferRounded`, with `binary32` the
rounding of the format).
-/

namespace WalrusDelay

/-! ## Library primitives used by the source -/

/-- JUCE `jlimit (lowerLimit, upperLimit, valueToConstrain)`. -/
def jlimit {α : Type} [LinearOrder α] (lowerLimit upperLimit valueToConstrain : α) : α :=
  if valueToConstrain < lowerLimit then lowerLimit
  else if upperLimit < valueToConstrain then upperLimit
  else valueToConstrain

/-- Conversion of an integer value to `unsigned int` (32 bits): reduction modulo `2 ^ 32`. -/
def u32 (z : Int) : Nat :=
  (z % 2 ^ 32).toNat

/-- The C conversion `(int) x` of a floating value: truncation toward zero. -/
def truncToInt {α : Type} [LinearOrderedField α] [FloorRing α] (x : α) : Int :=
  if 0 ≤ x then ⌊x⌋ else ⌈x⌉

/-! ## `CircularBuffer` (src/PluginProcessor.h, lines 66-113) -/

/-- The fields of `CircularBuffer<T>`.  The heap array is a list; the empty
list stands for the null pointer of a buffer that was never created (every
access to it is out of bounds). -/
structure CircularBuffer (α : Type) where
  buffer : List α := []
  writeIndex : Nat := 0
  bufferLength : Nat := 1024
  wrapMask : Nat := 1023

namespace CircularBuffer

variable {α : Type} [LinearOrderedField α] [FloorRing α]

/-- Function `flushBuffer`: zero `bufferLength` samples of an allocated buffer; nothing on a null one. -/
def flushBuffer (cb : CircularBuffer α) : CircularBuffer α :=
  if cb.buffer.isEmpty then cb
  else { cb with buffer := List.replicate cb.bufferLength 0 }

/-- Function `createCircularBufferPowerOfTwo`. -/
def createCircularBufferPowerOfTwo (_cb : CircularBuffer α) (bufferLengthPowerOfTwo : Nat) :
    CircularBuffer α :=
  flushBuffer
    { buffer := List.replicate bufferLengthPowerOfTwo 0
      writeIndex := 0
      bufferLength := bufferLengthPowerOfTwo
      wrapMask := u32 ((bufferLengthPowerOfTwo : Int) - 1) }

/-- The value of `(unsigned int)(pow(2, ceil(log(n) / log(2))))` with `pow`,
`log` and `ceil` exact: `log(0)` is minus infinity and `pow(2, -inf)` is `0`;
for `n ≥ 1` the ceiling of the binary logarithm is `Nat.clog 2 n`, and the
power is converted to `unsigned int`.  For `n > 2 ^ 31` the power is `2 ^ 32`,
which no `unsigned int` holds: C++ leaves that conversion undefined, and the
model takes the reduction modulo `2 ^ 32`, which is 0. -/
def nextPowerOfTwo (n : Nat) : Nat :=
  if n = 0 then 0 else u32 (2 ^ Nat.clog 2 n)

/-- Function `createCircularBuffer`. -/
def createCircularBuffer (cb : CircularBuffer α) (bufferLength : Nat) : CircularBuffer α :=
  createCircularBufferPowerOfTwo cb (nextPowerOfTwo bufferLength)

/-- Function `writeBuffer`: `buffer[writeIndex++] = input; writeIndex &= wrapMask;`.
The result is `none` when the store is outside the array. -/
def writeBuffer (cb : CircularBuffer α) (input : α) : Option (CircularBuffer α) :=
  if cb.writeIndex < cb.buffer.length then
    some { cb with
      buffer := cb.buffer.set cb.writeIndex input
      writeIndex := u32 ((cb.writeIndex : Int) + 1) &&& cb.wrapMask }
  else none

/-- First line of `readBuffer`: the delay after `jlimit(0, bufferLength - 1, delayInSamples)`. -/
def clampedDelay (cb : CircularBuffer α) (delayInSamples : α) : α :=
  jlimit 0 ((u32 ((cb.bufferLength : Int) - 1) : Nat) : α) delayInSamples

/-- The float `readIndex` of `readBuffer` after the wrap `if (readIndex < 0) readIndex += bufferLength`. -/
def readIndex (cb : CircularBuffer α) (delayInSamples : α) : α :=
  let r := (cb.writeIndex : α) - clampedDelay cb delayInSamples
  if r < 0 then r + (cb.bufferLength : α) else r

/-- The line `int readIndexInt = (int) readIndex`. -/
def readIndexInt (cb : CircularBuffer α) (delayInSamples : α) : Int :=
  truncToInt (readIndex cb delayInSamples)

/-- The line `float frac = readIndex - readIndexInt`. -/
def frac (cb : CircularBuffer α) (delayInSamples : α) : α :=
  readIndex cb delayInSamples - (readIndexInt cb delayInSamples : α)

/-- The line `int readIndexNext = (readIndexInt + 1) & wrapMask`. -/
def readIndexNext (cb : CircularBuffer α) (delayInSamples : α) : Nat :=
  u32 (readIndexInt cb delayInSamples + 1) &&& cb.wrapMask

/-- Function `readBuffer`: linear interpolation between the two indexed samples.  The
result is `none` when either load is outside the array. -/
def readBuffer (cb : CircularBuffer α) (delayInSamples : α) : Option α :=
  if 0 ≤ readIndexInt cb delayInSamples then
    match cb.buffer[(readIndexInt cb delayInSamples).toNat]?,
        cb.buffer[readIndexNext cb delayInSamples]? with
    | some a, some b =>
        some (a * (1 - frac cb delayInSamples) + b * frac cb delayInSamples)
    | _, _ => none
  else none

/-- Function `getBufferLength`. -/
def getBufferLength (cb : CircularBuffer α) : Nat :=
  cb.bufferLength

/-- Class invariant of a created buffer of length `2 ^ k`: the length fits an
`unsigned int`, the mask is the length minus one, the write index is inside
the array and the array has the recorded length. -/
def WellFormed (cb : CircularBuffer α) (k : Nat) : Prop :=
  k < 32 ∧ cb.bufferLength = 2 ^ k ∧ cb.wrapMask = 2 ^ k - 1 ∧
    cb.writeIndex < 2 ^ k ∧ cb.buffer.length = 2 ^ k

instance (cb : CircularBuffer α) (k : Nat) : Decidable (cb.WellFormed k) := by
  unfold WellFormed; infer_instance

/-- One sample slot in read-before-write order: `readBuffer(d)`, then `writeBuffer(x)`. -/
def readThenWrite (cb : CircularBuffer α) (d x : α) : Option (α × CircularBuffer α) :=
  match cb.readBuffer d with
  | none => none
  | some y =>
    match cb.writeBuffer x with
    | none => none
    | some cb1 => some (y, cb1)

/-- Drive the buffer with the samples `xs`, one slot each, at the fixed delay
`d`; the result is the list of values read and the final buffer. -/
def drive (d : α) : CircularBuffer α → List α → Option (List α × CircularBuffer α)
  | cb, [] => some ([], cb)
  | cb, x :: xs =>
    match readThenWrite cb d x with
    | none => none
    | some (y, cb1) =>
      match drive d cb1 xs with
      | none => none
      | some (ys, cb2) => some (y :: ys, cb2)

/-- State of a buffer that started all zero with write index `w0` and has
since taken the first `n` samples of the unit impulse. -/
def ImpulseState (w0 k n : Nat) (cb : CircularBuffer α) : Prop :=
  cb.WellFormed k ∧ w0 < 2 ^ k ∧ cb.writeIndex = (w0 + n) % 2 ^ k ∧
    ∀ j, j < 2 ^ k → cb.buffer[j]? = some (if 1 ≤ n ∧ n ≤ 2 ^ k ∧ j = w0 then 1 else 0)

end CircularBuffer

/-- The samples `x_start, ..., x_(start+len-1)` of the unit impulse `x_0 = 1`, `x_n = 0` for `n ≥ 1`. -/
def unitImpulseFrom {α : Type} [LinearOrderedField α] (start len : Nat) : List α :=
  (List.range' start len).map (fun n => if n = 0 then 1 else 0)

/-- The functions of the C++ maths library that the source calls, as a record:
`std::exp`, `std::sin`, `std::cos`, `std::tanh`, `std::isfinite` and the
constant `MathConstants<float>::pi`. -/
structure MathFns (α : Type) where
  exp : α → α
  sin : α → α
  cos : α → α
  tanh : α → α
  isfinite : α → Bool
  pi : α

/-- The real functions; every real number is finite. -/
noncomputable def realMath : MathFns ℝ where
  exp := Real.exp
  sin := Real.sin
  cos := Real.cos
  tanh := Real.tanh
  isfinite := fun _ => true
  pi := Real.pi

/-! ## JUCE `LinearSmoothedValue<float>` (library class used by every variant) -/

/-- The fields of `juce::SmoothedValue<float, ValueSmoothingTypes::Linear>`. -/
structure LinearSmoothedValue (α : Type) where
  currentValue : α
  target : α
  step : α
  countdown : Int
  stepsToTarget : Int

namespace LinearSmoothedValue

variable {α : Type} [LinearOrderedField α] [FloorRing α]

/-- The constructor `SmoothedValue (initialValue)`. -/
def init (initialValue : α) : LinearSmoothedValue α :=
  { currentValue := initialValue, target := initialValue, step := 0, countdown := 0,
    stepsToTarget := 0 }

/-- JUCE `setCurrentAndTargetValue`. -/
def setCurrentAndTargetValue (s : LinearSmoothedValue α) (newValue : α) :
    LinearSmoothedValue α :=
  { s with target := newValue, currentValue := newValue, countdown := 0 }

/-- JUCE `reset (sampleRate, rampLengthInSeconds)`: the ramp has
`floor (rampLengthInSeconds * sampleRate)` steps, and the value jumps to the target. -/
def reset (s : LinearSmoothedValue α) (sampleRate rampLengthInSeconds : α) :
    LinearSmoothedValue α :=
  setCurrentAndTargetValue { s with stepsToTarget := ⌊rampLengthInSeconds * sampleRate⌋ }
    s.target

/-- JUCE `isSmoothing`. -/
def isSmoothing (s : LinearSmoothedValue α) : Bool :=
  decide (0 < s.countdown)

/-- JUCE `getTargetValue`. -/
def getTargetValue (s : LinearSmoothedValue α) : α :=
  s.target

/-- JUCE `setTargetValue`: nothing when the target is unchanged, a jump when the
ramp has no steps, else a new ramp from the current value. -/
def setTargetValue (s : LinearSmoothedValue α) (newValue : α) : LinearSmoothedValue α :=
  if newValue = s.target then s
  else if s.stepsToTarget ≤ 0 then setCurrentAndTargetValue s newValue
  else
    { s with
      target := newValue
      countdown := s.stepsToTarget
      step := (newValue - s.currentValue) / (s.stepsToTarget : α) }

/-- JUCE `getNextValue`: the value returned and the smoother after the call. -/
def getNextValue (s : LinearSmoothedValue α) : α × LinearSmoothedValue α :=
  if ¬ 0 < s.countdown then (s.target, s)
  else if 0 < s.countdown - 1 then
    (s.currentValue + s.step,
      { s with countdown := s.countdown - 1, currentValue := s.currentValue + s.step })
  else (s.target, { s with countdown := s.countdown - 1, currentValue := s.target })

/-- A smoother at rest on the value `v`. -/
def Steady (v : α) (s : LinearSmoothedValue α) : Prop :=
  s.countdown = 0 ∧ s.target = v

end LinearSmoothedValue

/-! ## JUCE DSP objects that the Source variant owns

`juce::dsp::DelayLine` and `juce::dsp::Oscillator` are library classes; the
model takes their operations as a record over an abstract state. -/

/-- Operations of `juce::dsp::DelayLine<float, Linear>` on its state `δ`. -/
structure DelayLineOps (δ α : Type) where
  prepare : δ → (sampleRate : α) → (maximumBlockSize : Nat) → (numChannels : Nat) → δ
  setMaximumDelayInSamples : δ → Int → δ
  getMaximumDelayInSamples : δ → Int
  reset : δ → δ
  popSample : δ → (channel : Nat) → (delayInSamples : α) → (updateReadPointer : Bool) → α × δ
  pushSample : δ → (channel : Nat) → (sample : α) → δ

/-- Operations of `juce::dsp::Oscillator<float>` on its state `ω`. -/
structure OscillatorOps (ω α : Type) where
  prepare : ω → (sampleRate : α) → (maximumBlockSize : Nat) → (numChannels : Nat) → ω
  setFrequency : ω → α → ω
  reset : ω → ω
  processSample : ω → α → α × ω

/-- The element of a two-element `std::array` at index `c`. -/
def get2 {β : Type} (p : β × β) (c : Nat) : β :=
  if c = 0 then p.1 else p.2

/-- A two-element `std::array` with the element at index `c` replaced. -/
def set2 {β : Type} (p : β × β) (c : Nat) (x : β) : β × β :=
  if c = 0 then (x, p.2) else (p.1, x)

/-! ## The Source variant (src/Source/PluginProcessor.h, src/Source/PluginProcessor.cpp) -/

namespace Source

variable {α δ ω : Type} [LinearOrderedField α] [FloorRing α]

/-- Function `TapeSaturation::softClip`. -/
def softClip (M : MathFns α) (x : α) : α :=
  if x > 0 then 1 - M.exp (-x) else -1 + M.exp x

/-- Function `TapeSaturation::tubeWarmth`. -/
def tubeWarmth (M : MathFns α) (x drive : α) : α :=
  (if x < 0 then -1 else 1) * (1 - M.exp (-|x| * (1 + drive)))

/-- The fields of `SimpleLowPassFilter`. -/
structure SimpleLowPassFilter (α : Type) where
  sr : α
  a : α
  b : α
  z1 : α

/-- Function `SimpleLowPassFilter::prepare`. -/
def SimpleLowPassFilter.prepare (f : SimpleLowPassFilter α) (sampleRate : α) :
    SimpleLowPassFilter α :=
  { f with sr := sampleRate, z1 := 0 }

/-- Function `SimpleLowPassFilter::setCutoff`. -/
def SimpleLowPassFilter.setCutoff (M : MathFns α) (f : SimpleLowPassFilter α) (freq : α) :
    SimpleLowPassFilter α :=
  { f with
    a := M.exp (-(2 * M.pi * jlimit 20 20000 freq / f.sr))
    b := 1 - M.exp (-(2 * M.pi * jlimit 20 20000 freq / f.sr)) }

/-- Function `SimpleLowPassFilter::process`. -/
def SimpleLowPassFilter.process (f : SimpleLowPassFilter α) (input : α) :
    α × SimpleLowPassFilter α :=
  (f.b * input + f.a * f.z1, { f with z1 := f.b * input + f.a * f.z1 })

/-- The fields of `TapeDelayLine`. -/
structure TapeDelayLine (δ α : Type) where
  delayLine : δ
  currentDelay : α

/-- Function `TapeDelayLine::prepare`. -/
def TapeDelayLine.prepare (DL : DelayLineOps δ α) (t : TapeDelayLine δ α) (sampleRate : α)
    (maximumDelaySamples : Int) : TapeDelayLine δ α :=
  { t with
    delayLine :=
      DL.reset (DL.setMaximumDelayInSamples (DL.prepare t.delayLine sampleRate 512 2)
        maximumDelaySamples) }

/-- Function `TapeDelayLine::setDelay`. -/
def TapeDelayLine.setDelay (DL : DelayLineOps δ α) (t : TapeDelayLine δ α)
    (delayInSamples : α) : TapeDelayLine δ α :=
  { t with
    currentDelay := jlimit 1 ((DL.getMaximumDelayInSamples t.delayLine : Int) : α) delayInSamples }

/-- Function `TapeDelayLine::process`. -/
def TapeDelayLine.process (DL : DelayLineOps δ α) (t : TapeDelayLine δ α) (input feedback : α)
    (saturationFunc : α → α) : α × TapeDelayLine δ α :=
  let popped := DL.popSample t.delayLine 0 t.currentDelay true
  let delayed := saturationFunc popped.1
  (delayed, { t with delayLine := DL.pushSample popped.2 0 (input + delayed * feedback) })

/-- Function `TapeDelayLine::reset`. -/
def TapeDelayLine.reset (DL : DelayLineOps δ α) (t : TapeDelayLine δ α) : TapeDelayLine δ α :=
  { t with delayLine := DL.reset t.delayLine }

/-- The control snapshot: the values of the thirteen parameters of `createParameterLayout`. -/
structure Params (α : Type) where
  delayTime : α
  feedback : α
  wowRate : α
  wowDepth : α
  flutterRate : α
  flutterDepth : α
  dryWet : α
  reverbLevel : α
  filterFreq : α
  saturation : α
  tapeDelayOnOff : Bool
  reverbOnOff : Bool
  psychedelicMode : Bool

/-- Upper end, in milliseconds, of the `DelayTime` range of `createParameterLayout`. -/
def delayTimeMaxMs : α := 3000

/-- Length in seconds of the delay lines that `prepareToPlay` sizes (`sampleRate * 3.0`). -/
def maxDelaySeconds : α := 3

/-- Function `getTailLengthSeconds`. -/
def getTailLengthSeconds : α := 2

/-- The ranges that `createParameterLayout` gives the parameters. -/
def Params.InRange (P : Params α) : Prop :=
  (50 ≤ P.delayTime ∧ P.delayTime ≤ delayTimeMaxMs) ∧ (0 ≤ P.feedback ∧ P.feedback ≤ 95 / 100) ∧
  (1 / 10 ≤ P.wowRate ∧ P.wowRate ≤ 2) ∧ (0 ≤ P.wowDepth ∧ P.wowDepth ≤ 1) ∧
  (5 ≤ P.flutterRate ∧ P.flutterRate ≤ 50) ∧ (0 ≤ P.flutterDepth ∧ P.flutterDepth ≤ 1 / 2) ∧
  (0 ≤ P.dryWet ∧ P.dryWet ≤ 1) ∧ (0 ≤ P.reverbLevel ∧ P.reverbLevel ≤ 1) ∧
  (100 ≤ P.filterFreq ∧ P.filterFreq ≤ 16000) ∧ (0 ≤ P.saturation ∧ P.saturation ≤ 1)


/-- The DSP members of `WalrusDelay1AudioProcessor`, with the function-local
statics of `processBlock` (`reverbDelays`, `reverbInitialized`, `phase`) and the
number of draws taken so far from the system random generator.  The scratch
buffers `delayBuffer` and `wetBuffer` are cleared at the start of every call
and are not kept. -/
structure Processor (δ ω α : Type) where
  tapeDelays : TapeDelayLine δ α × TapeDelayLine δ α
  feedbackFilters : SimpleLowPassFilter α × SimpleLowPassFilter α
  wowLFO : ω
  flutterLFO : ω
  smoothedDelayTime : LinearSmoothedValue α
  smoothedFeedback : LinearSmoothedValue α
  smoothedDryWet : LinearSmoothedValue α
  smoothedReverbLevel : LinearSmoothedValue α
  smoothedFilterFreq : LinearSmoothedValue α
  currentSampleRate : α
  currentSamplesPerBlock : Nat
  reverbDelays : δ × δ
  reverbInitialized : Bool
  phase : α
  randomDraws : Nat

/-- The processor as its constructor leaves it, from freshly constructed JUCE objects. -/
def Processor.construct (dl0 : δ) (osc0 : ω) : Processor δ ω α where
  tapeDelays := (⟨dl0, 1000⟩, ⟨dl0, 1000⟩)
  feedbackFilters := (⟨44100, 0, 1, 0⟩, ⟨44100, 0, 1, 0⟩)
  wowLFO := osc0
  flutterLFO := osc0
  smoothedDelayTime := (LinearSmoothedValue.init 100).reset 44100 (5 / 1000)
  smoothedFeedback := (LinearSmoothedValue.init (1 / 2)).reset 44100 (5 / 100)
  smoothedDryWet := (LinearSmoothedValue.init (1 / 2)).reset 44100 (5 / 1000)
  smoothedReverbLevel := (LinearSmoothedValue.init 0).reset 44100 (5 / 100)
  smoothedFilterFreq := (LinearSmoothedValue.init 4000).reset 44100 (5 / 100)
  currentSampleRate := 44100
  currentSamplesPerBlock := 512
  reverbDelays := (dl0, dl0)
  reverbInitialized := false
  phase := 0
  randomDraws := 0

/-- Function `prepareToPlay`. -/
def prepareToPlay (M : MathFns α) (DL : DelayLineOps δ α) (O : OscillatorOps ω α)
    (P : Params α) (st : Processor δ ω α) (sampleRate : α) (samplesPerBlock : Nat) :
    Processor δ ω α :=
  { st with
    currentSampleRate := sampleRate
    currentSamplesPerBlock := samplesPerBlock
    tapeDelays :=
      ((st.tapeDelays.1).prepare DL sampleRate (truncToInt (sampleRate * maxDelaySeconds)),
        (st.tapeDelays.2).prepare DL sampleRate (truncToInt (sampleRate * maxDelaySeconds)))
    wowLFO := O.setFrequency (O.prepare st.wowLFO sampleRate samplesPerBlock 2) P.wowRate
    flutterLFO :=
      O.setFrequency (O.prepare st.flutterLFO sampleRate samplesPerBlock 2) P.flutterRate
    feedbackFilters :=
      (((st.feedbackFilters.1).prepare sampleRate).setCutoff M P.filterFreq,
        ((st.feedbackFilters.2).prepare sampleRate).setCutoff M P.filterFreq)
    smoothedDelayTime :=
      (st.smoothedDelayTime.reset sampleRate (5 / 1000)).setCurrentAndTargetValue P.delayTime
    smoothedFeedback :=
      (st.smoothedFeedback.reset sampleRate (5 / 100)).setCurrentAndTargetValue P.feedback
    smoothedDryWet :=
      (st.smoothedDryWet.reset sampleRate (5 / 1000)).setCurrentAndTargetValue P.dryWet
    smoothedReverbLevel :=
      (st.smoothedReverbLevel.reset sampleRate (5 / 100)).setCurrentAndTargetValue P.reverbLevel
    smoothedFilterFreq :=
      (st.smoothedFilterFreq.reset sampleRate (5 / 100)).setCurrentAndTargetValue P.filterFreq }

/-- The loop that fills one channel of an LFO buffer: `n` calls of `processSample (0)`. -/
def lfoFill (O : OscillatorOps ω α) : ω → Nat → ω × List α
  | osc, 0 => (osc, [])
  | osc, n + 1 =>
    let r := O.processSample osc 0
    let rest := lfoFill O r.2 n
    (rest.1, r.1 :: rest.2)

/-- The `saturationFunc` lambda of the tape loop. -/
def saturationFunc (M : MathFns α) (P : Params α) (x : α) : α :=
  if P.psychedelicMode then tubeWarmth M x (P.saturation * (3 / 2))
  else softClip M (x * (1 + P.saturation * (1 / 2)))

/-- Body of the per-sample tape loop for channel `c` (lines 207-243): the
processor after the sample and the value stored in `wetBuffer`. -/
def tapeSample (M : MathFns α) (DL : DelayLineOps δ α) (P : Params α) (c : Nat)
    (st : Processor δ ω α) (input wow flutter : α) : Processor δ ω α × α :=
  let baseDelayMs := st.smoothedDelayTime.getNextValue
  let wowMod := wow * P.wowDepth * (1 / 10)
  let flutterMod := flutter * P.flutterDepth * (5 / 100)
  let modulatedDelayMs := baseDelayMs.1 * (1 + wowMod + flutterMod)
  let modulatedDelaySamples := modulatedDelayMs / 1000 * st.currentSampleRate
  let tape := (get2 st.tapeDelays c).setDelay DL modulatedDelaySamples
  let fb := st.smoothedFeedback.getNextValue
  let delayed := tape.process DL input fb.1 (saturationFunc M P)
  let filtered := (get2 st.feedbackFilters c).process delayed.1
  let dry := st.smoothedDryWet.getNextValue
  let wet := dry.2.getNextValue
  ({ st with
      smoothedDelayTime := baseDelayMs.2
      smoothedFeedback := fb.2
      smoothedDryWet := wet.2
      tapeDelays := set2 st.tapeDelays c delayed.2
      feedbackFilters := set2 st.feedbackFilters c filtered.2 },
    input * (1 - dry.1) + filtered.1 * wet.1)

/-- The per-sample tape loop over one channel: inputs, wow samples and flutter samples in step. -/
def tapeLoop (M : MathFns α) (DL : DelayLineOps δ α) (P : Params α) (c : Nat) :
    Processor δ ω α → List α → List α → List α → Processor δ ω α × List α
  | st, x :: xs, w :: ws, f :: fs =>
    let r := tapeSample M DL P c st x w f
    let rest := tapeLoop M DL P c r.1 xs ws fs
    (rest.1, r.2 :: rest.2)
  | st, _, _, _ => (st, [])

/-- The tape-delay section (lines 176-251) on a stereo block. -/
def tapeSection (M : MathFns α) (DL : DelayLineOps δ α) (O : OscillatorOps ω α)
    (P : Params α) (st : Processor δ ω α) (buffer : List α × List α) :
    Processor δ ω α × (List α × List α) :=
  let wowL := lfoFill O (O.reset st.wowLFO) buffer.1.length
  let flutterL := lfoFill O (O.reset st.flutterLFO) buffer.1.length
  let wowR := lfoFill O (O.reset wowL.1) buffer.2.length
  let flutterR := lfoFill O (O.reset flutterL.1) buffer.2.length
  let st1 := { st with wowLFO := wowR.1, flutterLFO := flutterR.1 }
  let left := tapeLoop M DL P 0 st1 buffer.1 wowL.2 flutterL.2
  let right := tapeLoop M DL P 1 left.1 buffer.2 wowR.2 flutterR.2
  (right.1, (left.2, right.2))

/-- The per-sample reverb loop over one channel (lines 283-289). -/
def reverbLoop (DL : DelayLineOps δ α) (c : Nat) (reverbMix : α) : δ → List α → δ × List α
  | d, [] => (d, [])
  | d, input :: xs =>
    let popped := DL.popSample d c 80 true
    let d1 := DL.pushSample popped.2 c (input + popped.1 * (6 / 10))
    let rest := reverbLoop DL c reverbMix d1 xs
    (rest.1, (input * (1 - reverbMix) + popped.1 * reverbMix) :: rest.2)

/-- The lazy initialisation of one static reverb delay line (lines 267-276). -/
def reverbInit (DL : DelayLineOps δ α) (st : Processor δ ω α) (d : δ) : δ :=
  DL.reset
    (DL.setMaximumDelayInSamples (DL.prepare d st.currentSampleRate st.currentSamplesPerBlock 2)
      (truncToInt (st.currentSampleRate * (1 / 10))))

/-- The reverb section (lines 257-290) on a stereo block. -/
def reverbSection (DL : DelayLineOps δ α) (P : Params α) (st : Processor δ ω α)
    (buffer : List α × List α) : Processor δ ω α × (List α × List α) :=
  let level := st.smoothedReverbLevel.getNextValue
  let reverbMix := if P.psychedelicMode then level.1 * (12 / 10) else level.1
  let delays :=
    if st.reverbInitialized then st.reverbDelays
    else (reverbInit DL st st.reverbDelays.1, reverbInit DL st st.reverbDelays.2)
  let left := reverbLoop DL 0 reverbMix delays.1 buffer.1
  let right := reverbLoop DL 1 reverbMix delays.2 buffer.2
  ({ st with
      smoothedReverbLevel := level.2
      reverbDelays := (left.1, right.1)
      reverbInitialized := true },
    (left.2, right.2))

/-- Body of the psychedelic loop (lines 302-315) for one sample; `rnd k` is the
`k`-th value that `Random::nextFloat` returns. -/
def psychedelicSample (M : MathFns α) (rnd : Nat → α) (st : Processor δ ω α) (x : α) :
    Processor δ ω α × α :=
  let noise := (rnd st.randomDraws - 1 / 2) * (2 / 10000)
  let compressed := M.tanh ((x + noise) * (8 / 10)) / (8 / 10)
  let wobble := M.sin st.phase * (2 / 1000)
  let phase1 := st.phase + (1 / 2) * 2 * M.pi / st.currentSampleRate
  ({ st with
      randomDraws := st.randomDraws + 1
      phase := if phase1 > 2 * M.pi then phase1 - 2 * M.pi else phase1 },
    compressed * (1 + wobble))

/-- The psychedelic loop over one channel. -/
def psychedelicLoop (M : MathFns α) (rnd : Nat → α) :
    Processor δ ω α → List α → Processor δ ω α × List α
  | st, [] => (st, [])
  | st, x :: xs =>
    let r := psychedelicSample M rnd st x
    let rest := psychedelicLoop M rnd r.1 xs
    (rest.1, r.2 :: rest.2)

/-- Function `processBlock` on a stereo block (`buffer.1` is channel 0, `buffer.2` is
channel 1; two input and two output channels, so no channel is cleared). -/
def processBlock (M : MathFns α) (DL : DelayLineOps δ α) (O : OscillatorOps ω α)
    (rnd : Nat → α) (P : Params α) (st : Processor δ ω α) (buffer : List α × List α) :
    Processor δ ω α × (List α × List α) :=
  let cutoff := st.smoothedFilterFreq.getNextValue
  let filterCutoff := if P.psychedelicMode then cutoff.1 * (3 / 2) else cutoff.1
  let st1 : Processor δ ω α :=
    { st with
      wowLFO := O.setFrequency st.wowLFO P.wowRate
      flutterLFO := O.setFrequency st.flutterLFO P.flutterRate
      smoothedFilterFreq := cutoff.2
      feedbackFilters :=
        ((st.feedbackFilters.1).setCutoff M filterCutoff,
          (st.feedbackFilters.2).setCutoff M filterCutoff) }
  let tape := if P.tapeDelayOnOff then tapeSection M DL O P st1 buffer else (st1, buffer)
  let reverb := if P.reverbOnOff then reverbSection DL P tape.1 tape.2 else tape
  if P.psychedelicMode then
    let left := psychedelicLoop M rnd reverb.1 reverb.2.1
    let right := psychedelicLoop M rnd left.1 reverb.2.2
    (right.1, (left.2, right.2))
  else reverb

/-- The five smoother targets, in the order delay time, feedback, dry/wet, reverb level, filter cutoff. -/
def Processor.targets (st : Processor δ ω α) : α × α × α × α × α :=
  (st.smoothedDelayTime.target, st.smoothedFeedback.target, st.smoothedDryWet.target,
    st.smoothedReverbLevel.target, st.smoothedFilterFreq.target)

/-- The five control values that `prepareToPlay` hands to the smoothers, in the same order. -/
def Params.smoothed (P : Params α) : α × α × α × α × α :=
  (P.delayTime, P.feedback, P.dryWet, P.reverbLevel, P.filterFreq)

/-- Every sample of a stereo block lies in `[-1, 1]`. -/
def InUnitRange (buffer : List α × List α) : Prop :=
  (∀ x ∈ buffer.1, -1 ≤ x ∧ x ≤ 1) ∧ (∀ x ∈ buffer.2, -1 ≤ x ∧ x ≤ 1)

end Source

/-- A delay line that stores nothing and reads 0, for the concrete runs in which
no delay line is reached or what it returns does not matter. -/
def idleDelayLine {α : Type} [LinearOrderedField α] : DelayLineOps Unit α where
  prepare := fun _ _ _ _ => ()
  setMaximumDelayInSamples := fun _ _ => ()
  getMaximumDelayInSamples := fun _ => 0
  reset := fun _ => ()
  popSample := fun _ _ _ _ => (0, ())
  pushSample := fun _ _ _ => ()

/-- An oscillator that outputs zero, for the concrete runs in which no oscillator output is used. -/
def idleOscillator {α : Type} [LinearOrderedField α] : OscillatorOps Unit α where
  prepare := fun _ _ _ _ => ()
  setFrequency := fun _ _ => ()
  reset := fun _ => ()
  processSample := fun _ _ => (0, ())

namespace Source

/-- The default values of `createParameterLayout`, with the three toggles as given. -/
def defaultParams {α : Type} [LinearOrderedField α] (tape reverb psychedelic : Bool) :
    Params α where
  delayTime := 500
  feedback := 1 / 2
  wowRate := 1 / 2
  wowDepth := 3 / 10
  flutterRate := 15
  flutterDepth := 15 / 100
  dryWet := 1 / 2
  reverbLevel := 3 / 10
  filterFreq := 4000
  saturation := 4 / 10
  tapeDelayOnOff := tape
  reverbOnOff := reverb
  psychedelicMode := psychedelic

/-- A constructed processor after `prepareToPlay (44100, 512)` with the parameters `P`. -/
noncomputable def preparedReal (P : Params ℝ) : Processor Unit Unit ℝ :=
  prepareToPlay realMath idleDelayLine idleOscillator P (Processor.construct () ()) 44100 512

end Source

/-! ## The biquad `LowPassFilter` (src/PluginProcessor.h, lines 116-171) -/

/-- The fields of `LowPassFilter`. -/
structure LowPassFilter (α : Type) where
  sampleRate : α
  x1 : α
  x2 : α
  y1 : α
  y2 : α
  a0 : α
  a1 : α
  b1 : α
  b2 : α
  alpha : α
  smoothedFreq : LinearSmoothedValue α

namespace LowPassFilter

variable {α : Type} [LinearOrderedField α] [FloorRing α]

/-- The member initialisers of `LowPassFilter`. -/
def init : LowPassFilter α where
  sampleRate := 44100
  x1 := 0
  x2 := 0
  y1 := 0
  y2 := 0
  a0 := 1
  a1 := 0
  b1 := 0
  b2 := 0
  alpha := 0
  smoothedFreq := LinearSmoothedValue.init 2000

/-- Function `LowPassFilter::reset`. -/
def reset (f : LowPassFilter α) : LowPassFilter α :=
  { f with x1 := 0, x2 := 0, y1 := 0, y2 := 0 }

/-- Function `LowPassFilter::prepare`. -/
def prepare (f : LowPassFilter α) (newSampleRate : α) : LowPassFilter α :=
  { reset { f with sampleRate := newSampleRate } with
    smoothedFreq := f.smoothedFreq.reset newSampleRate (5 / 100) }

/-- The coefficient computation inside `update`, from the smoothed frequency `freq`. -/
def setCoefficients (M : MathFns α) (f : LowPassFilter α) (freq : α) : LowPassFilter α :=
  let omega := 2 * M.pi * freq / f.sampleRate
  let alpha := M.sin omega / (2 * (1 / 2))
  let cosOmega := M.cos omega
  let b1 := -2 * cosOmega
  let b2 := 1 - alpha
  let a0 := (1 + cosOmega) * (1 / 2)
  let a1 := 1 - cosOmega
  let gain := a0 + a1 + a0
  { f with alpha := alpha, a0 := a0 / gain, a1 := a1 / gain, b1 := b1 / gain, b2 := b2 / gain }

/-- Function `LowPassFilter::update`: the coefficients are recomputed only in a call
whose clamped frequency differs from the smoother target. -/
def update (M : MathFns α) (f : LowPassFilter α) (frequency : α) : LowPassFilter α :=
  if jlimit 200 4000 frequency ≠ f.smoothedFreq.getTargetValue then
    let next := (f.smoothedFreq.setTargetValue (jlimit 200 4000 frequency)).getNextValue
    setCoefficients M { f with smoothedFreq := next.2 } next.1
  else f

/-- Function `LowPassFilter::process`: the value returned and the filter after the call. -/
def process (M : MathFns α) (f : LowPassFilter α) (input : α) : α × LowPassFilter α :=
  let output := f.a0 * input + f.a1 * f.x1 + f.a0 * f.x2 - f.b1 * f.y1 - f.b2 * f.y2
  let f1 := { f with x2 := f.x1, x1 := input, y2 := f.y1, y1 := output }
  if M.isfinite output then (jlimit (-1) 1 output, f1)
  else (jlimit (-1) 1 0, reset f1)

end LowPassFilter

namespace LowPassFilter

variable {α : Type} [LinearOrderedField α] [FloorRing α]

/-- The filter driven as the per-sample loops drive it: `update (frequency)`
and then `process (x)` for each sample; the values returned and the filter
after the last one. -/
def run (M : MathFns α) (frequency : α) : LowPassFilter α → List α → List α × LowPassFilter α
  | f, [] => ([], f)
  | f, x :: xs =>
    let r := (f.update M frequency).process M x
    let rest := run M frequency r.2 xs
    (r.1 :: rest.1, rest.2)

/-- A constructed filter after `prepare (sampleRate)` and
`smoothedFreq.setCurrentAndTargetValue (frequency)`, as `prepareToPlay` sets up
the feedback filters. -/
def prepared (sampleRate frequency : α) : LowPassFilter α :=
  { (init : LowPassFilter α).prepare sampleRate with
    smoothedFreq :=
      ((init : LowPassFilter α).prepare sampleRate).smoothedFreq.setCurrentAndTargetValue
        frequency }

end LowPassFilter

/-! ## The OLDVERSION variant (src/OLDVERSION/PluginProcessor.cpp with src/PluginProcessor.h) -/

namespace OldVersion

variable {α ω : Type} [LinearOrderedField α] [FloorRing α]

/-- The control snapshot: the values of the eleven parameters of `createParameterLayout`. -/
structure Params (α : Type) where
  delayTime : α
  feedback : α
  wowRate : α
  wowDepth : α
  flutterRate : α
  flutterDepth : α
  dryWet : α
  reverbLevel : α
  filterFreq : α
  tapeDelayOnOff : Bool
  reverbOnOff : Bool

/-- The per-channel members: element `c` of each of the arrays `delayBuffers`,
`feedbackFilters`, `smoothedDelayTime`, `feedbackFade`, `silenceCounter`,
`reverbBuffers`, `reverbFilters`, and the phases `wowPhaseLeft/Right`,
`flutterPhaseLeft/Right`. -/
structure Channel (α : Type) where
  delayBuffer : CircularBuffer α
  feedbackFilter : LowPassFilter α
  smoothedDelayTime : LinearSmoothedValue α
  feedbackFade : LinearSmoothedValue α
  silenceCounter : Int
  wowPhase : α
  flutterPhase : α
  reverbBuffer : CircularBuffer α
  reverbFilter : LowPassFilter α

/-- The DSP members of `WalrusDelay1AudioProcessor`; `sampleRate` is what
`getSampleRate ()` returns, the rate of the last `prepareToPlay`. -/
structure Processor (ω α : Type) where
  channels : Channel α × Channel α
  wowOscillator : ω
  flutterOscillator : ω
  smoothedFeedback : LinearSmoothedValue α
  smoothedDryWet : LinearSmoothedValue α
  smoothedReverbLevel : LinearSmoothedValue α
  maxDelaySamples : Int
  reverbDelayMs : α
  sampleRate : α

/-- A channel as the constructor leaves it. -/
def Channel.construct : Channel α where
  delayBuffer := {}
  feedbackFilter := LowPassFilter.init
  smoothedDelayTime := (LinearSmoothedValue.init 0).reset 44100 (5 / 1000)
  feedbackFade := (LinearSmoothedValue.init 0).reset 44100 (2 / 10)
  silenceCounter := 0
  wowPhase := 0
  flutterPhase := 0
  reverbBuffer := {}
  reverbFilter := LowPassFilter.init

/-- The processor as its constructor leaves it, from a freshly constructed oscillator. -/
def Processor.construct (osc0 : ω) : Processor ω α where
  channels := (Channel.construct, Channel.construct)
  wowOscillator := osc0
  flutterOscillator := osc0
  smoothedFeedback := (LinearSmoothedValue.init (1 / 2)).reset 44100 (5 / 100)
  smoothedDryWet := (LinearSmoothedValue.init (1 / 2)).reset 44100 (5 / 1000)
  smoothedReverbLevel := (LinearSmoothedValue.init 0).reset 44100 (5 / 100)
  maxDelaySamples := 0
  reverbDelayMs := 50
  sampleRate := 44100

/-- The per-channel part of `prepareToPlay`. -/
def Channel.prepare (P : Params α) (ch : Channel α) (sampleRate : α) : Channel α :=
  { ch with
    delayBuffer :=
      (ch.delayBuffer.createCircularBuffer (u32 (truncToInt (sampleRate * 2)))).flushBuffer
    reverbBuffer :=
      (ch.reverbBuffer.createCircularBuffer
        (u32 (truncToInt (sampleRate * (5 / 100))))).flushBuffer
    feedbackFilter :=
      { ch.feedbackFilter.prepare sampleRate with
        smoothedFreq :=
          (ch.feedbackFilter.prepare sampleRate).smoothedFreq.setCurrentAndTargetValue
            P.filterFreq }
    reverbFilter :=
      { ch.reverbFilter.prepare sampleRate with
        smoothedFreq :=
          (ch.reverbFilter.prepare sampleRate).smoothedFreq.setCurrentAndTargetValue 2000 }
    smoothedDelayTime :=
      (ch.smoothedDelayTime.reset sampleRate (5 / 1000)).setCurrentAndTargetValue P.delayTime
    feedbackFade := (ch.feedbackFade.reset sampleRate (2 / 10)).setCurrentAndTargetValue 1
    silenceCounter := 0 }

/-- Function `prepareToPlay`. -/
def prepareToPlay (O : OscillatorOps ω α) (P : Params α) (st : Processor ω α)
    (sampleRate : α) (samplesPerBlock : Nat) : Processor ω α :=
  { st with
    sampleRate := sampleRate
    maxDelaySamples := truncToInt (sampleRate * 2)
    channels := (st.channels.1.prepare P sampleRate, st.channels.2.prepare P sampleRate)
    wowOscillator :=
      O.setFrequency (O.prepare st.wowOscillator sampleRate samplesPerBlock 2) P.wowRate
    flutterOscillator :=
      O.setFrequency (O.prepare st.flutterOscillator sampleRate samplesPerBlock 2)
        P.flutterRate
    smoothedFeedback :=
      (st.smoothedFeedback.reset sampleRate (5 / 100)).setCurrentAndTargetValue P.feedback
    smoothedDryWet :=
      (st.smoothedDryWet.reset sampleRate (5 / 1000)).setCurrentAndTargetValue P.dryWet
    smoothedReverbLevel :=
      (st.smoothedReverbLevel.reset sampleRate (5 / 100)).setCurrentAndTargetValue
        P.reverbLevel }

/-- The silence detector (lines 193-204): the counter and the fade smoother after one input sample. -/
def silenceDetect (counter : Int) (fade : LinearSmoothedValue α) (input : α) :
    Int × LinearSmoothedValue α :=
  if |input| < 1 / 100000 then
    (counter + 1, if counter > 1000 then fade.setTargetValue 0 else fade)
  else (0, fade.setTargetValue 1)

/-- The hand-rolled phase accumulator (lines 208-210 and 213-215). -/
def advancePhase (M : MathFns α) (phase rate sampleRate : α) : α :=
  if phase + 2 * M.pi * rate / sampleRate > 2 * M.pi then
    phase + 2 * M.pi * rate / sampleRate - 2 * M.pi
  else phase + 2 * M.pi * rate / sampleRate

/-- The delay in samples that the loop asks of `readBuffer` (lines 217-219). -/
def delaySamples (P : Params α) (sampleRate smoothedDelayMs wowOut flutterOut : α) : α :=
  jlimit 1 2000
      (smoothedDelayMs
        * (1 + wowOut * P.wowDepth * (1 / 100) + flutterOut * P.flutterDepth * (1 / 100)))
    / 1000 * sampleRate

/-- The feedback gain (line 230) with the two smoothers after it: neither
smoother advances when the feedback parameter is exactly zero. -/
def feedbackGain (P : Params α) (smoothedFeedback fade : LinearSmoothedValue α) :
    α × LinearSmoothedValue α × LinearSmoothedValue α :=
  if P.feedback = 0 then (0, smoothedFeedback, fade)
  else
    (smoothedFeedback.getNextValue.1 * fade.getNextValue.1, smoothedFeedback.getNextValue.2,
      fade.getNextValue.2)

/-- Body of the per-sample tape loop (lines 187-255) on the members of one
channel: the channel and the shared feedback smoother after the sample, and
the value stored in `delayData`.  `wowOut` and `flutterOut` are what the two
oscillators returned for this sample. -/
def tapeSampleChannel (M : MathFns α) (P : Params α) (sampleRate wowOut flutterOut : α)
    (smoothedFeedback : LinearSmoothedValue α) (ch : Channel α) (input : α) :
    Option (Channel α × LinearSmoothedValue α × α) :=
  let filter1 := ch.feedbackFilter.update M P.filterFreq
  let silence := silenceDetect ch.silenceCounter ch.feedbackFade input
  let nextDelay := ch.smoothedDelayTime.getNextValue
  match ch.delayBuffer.readBuffer (delaySamples P sampleRate nextDelay.1 wowOut flutterOut) with
  | none => none
  | some delayedSample =>
    let filtered := filter1.process M delayedSample
    let gain := feedbackGain P smoothedFeedback silence.2
    match ch.delayBuffer.writeBuffer (jlimit (-1) 1 (input + filtered.1 * gain.1)) with
    | none => none
    | some buffer1 =>
      some
        ({ ch with
            delayBuffer := buffer1
            feedbackFilter := filtered.2
            smoothedDelayTime := nextDelay.2
            feedbackFade := gain.2.2
            silenceCounter := silence.1
            wowPhase := advancePhase M ch.wowPhase P.wowRate sampleRate
            flutterPhase := advancePhase M ch.flutterPhase P.flutterRate sampleRate },
          gain.2.1, delayedSample)

/-- Body of the per-sample tape loop for channel `c` on the whole processor. -/
def tapeSample (M : MathFns α) (O : OscillatorOps ω α) (P : Params α) (c : Nat)
    (st : Processor ω α) (input : α) : Option (Processor ω α × α) :=
  let wow := O.processSample st.wowOscillator 0
  let flutter := O.processSample st.flutterOscillator 0
  match tapeSampleChannel M P st.sampleRate wow.1 flutter.1 st.smoothedFeedback
      (get2 st.channels c) input with
  | none => none
  | some r =>
    some
      ({ st with
          channels := set2 st.channels c r.1
          smoothedFeedback := r.2.1
          wowOscillator := wow.2
          flutterOscillator := flutter.2 },
        r.2.2)

/-- The per-sample tape loop over the samples of channel `c`: the processor
after the loop and the channel of `delayOutput`. -/
def tapeLoop (M : MathFns α) (O : OscillatorOps ω α) (P : Params α) (c : Nat) :
    Processor ω α → List α → Option (Processor ω α × List α)
  | st, [] => some (st, [])
  | st, x :: xs =>
    match tapeSample M O P c st x with
    | none => none
    | some r =>
      match tapeLoop M O P c r.1 xs with
      | none => none
      | some rest => some (rest.1, r.2 :: rest.2)

/-- The mix loop over one channel (lines 269-274): two `getNextValue` calls per sample. -/
def mixLoop : LinearSmoothedValue α → List α → List α → LinearSmoothedValue α × List α
  | s, x :: xs, d :: ds =>
    let dry := s.getNextValue
    let wet := dry.2.getNextValue
    let rest := mixLoop wet.2 xs ds
    (rest.1, (x * (1 - dry.1) + d * wet.1) :: rest.2)
  | s, _, _ => (s, [])

/-- The tape-delay section when enabled (lines 172-275) on a stereo block. -/
def tapeSection (M : MathFns α) (O : OscillatorOps ω α) (P : Params α) (st : Processor ω α)
    (buffer : List α × List α) : Option (Processor ω α × (List α × List α)) :=
  match tapeLoop M O P 0 st buffer.1 with
  | none => none
  | some left =>
    match tapeLoop M O P 1 left.1 buffer.2 with
    | none => none
    | some right =>
      let mixL := mixLoop right.1.smoothedDryWet buffer.1 left.2
      let mixR := mixLoop mixL.1 buffer.2 right.2
      some ({ right.1 with smoothedDryWet := mixR.1 }, (mixL.2, mixR.2))

/-- Body of the per-sample reverb loop (lines 299-305) on the members of one channel. -/
def reverbSampleChannel (M : MathFns α) (reverbDelayMs sampleRate : α)
    (smoothedReverbLevel : LinearSmoothedValue α) (ch : Channel α) (x : α) :
    Option (Channel α × LinearSmoothedValue α × α) :=
  let filter1 := ch.reverbFilter.update M 2000
  match ch.reverbBuffer.readBuffer (reverbDelayMs * sampleRate / 1000) with
  | none => none
  | some reverbSample =>
    let filtered := filter1.process M reverbSample
    match ch.reverbBuffer.writeBuffer x with
    | none => none
    | some buffer1 =>
      let mix := smoothedReverbLevel.getNextValue
      some
        ({ ch with reverbBuffer := buffer1, reverbFilter := filtered.2 }, mix.2,
          x * (1 - mix.1) + filtered.1 * mix.1)

/-- The per-sample reverb loop over the samples of channel `c`. -/
def reverbLoop (M : MathFns α) (c : Nat) :
    Processor ω α → List α → Option (Processor ω α × List α)
  | st, [] => some (st, [])
  | st, x :: xs =>
    match reverbSampleChannel M st.reverbDelayMs st.sampleRate st.smoothedReverbLevel
        (get2 st.channels c) x with
    | none => none
    | some r =>
      match reverbLoop M c
          { st with channels := set2 st.channels c r.1, smoothedReverbLevel := r.2.1 } xs with
      | none => none
      | some rest => some (rest.1, r.2.2 :: rest.2)

/-- The reverb section when enabled (lines 292-310) on a stereo block. -/
def reverbSection (M : MathFns α) (st : Processor ω α) (buffer : List α × List α) :
    Option (Processor ω α × (List α × List α)) :=
  match reverbLoop M 0 st buffer.1 with
  | none => none
  | some left =>
    match reverbLoop M 1 left.1 buffer.2 with
    | none => none
    | some right => some (right.1, (left.2, right.2))

/-- Function `processBlock` on a stereo block (`buffer.1` is channel 0, `buffer.2` is
channel 1).  The result is `none` when a delay-buffer access is out of bounds. -/
def processBlock (M : MathFns α) (O : OscillatorOps ω α) (P : Params α) (st : Processor ω α)
    (buffer : List α × List α) : Option (Processor ω α × (List α × List α)) :=
  match (if P.tapeDelayOnOff then tapeSection M O P st buffer else some (st, buffer)) with
  | none => none
  | some tape => if P.reverbOnOff then reverbSection M tape.1 tape.2 else some tape

/-- Successive `processBlock` calls on a list of blocks: the final processor
and the output of channel 0 and of channel 1, each concatenated over the blocks. -/
def runBlocks (M : MathFns α) (O : OscillatorOps ω α) (P : Params α) :
    Processor ω α → List (List α × List α) → Option (Processor ω α × (List α × List α))
  | st, [] => some (st, ([], []))
  | st, b :: bs =>
    match processBlock M O P st b with
    | none => none
    | some r =>
      match runBlocks M O P r.1 bs with
      | none => none
      | some rest => some (rest.1, (r.2.1 ++ rest.2.1, r.2.2 ++ rest.2.2))

/-- The blocks `first, first + 1, ...` (`count` of them, `size` samples each)
of the unit impulse at sample 0 followed by silence, on both channels. -/
def impulseBlocks (size : Nat) : Nat → Nat → List (List α × List α)
  | _, 0 => []
  | first, count + 1 =>
    (unitImpulseFrom (first * size) size, unitImpulseFrom (first * size) size)
      :: impulseBlocks size (first + 1) count

/-- The control values of the end-to-end scenario: delay 100 ms, feedback 0.5,
full wet, wow and flutter depth 0, filter cutoff 20000 Hz, tape delay on, reverb off
(the rates are the defaults of `createParameterLayout`). -/
def scenarioParams : Params α where
  delayTime := 100
  feedback := 1 / 2
  wowRate := 1
  wowDepth := 0
  flutterRate := 10
  flutterDepth := 0
  dryWet := 1
  reverbLevel := 0
  filterFreq := 20000
  tapeDelayOnOff := true
  reverbOnOff := false

/-! ### The end-to-end impulse scenario at 44100 Hz: invariants of the run -/

/-- First value of the cutoff ramp from 20000 Hz toward 4000 Hz over 2205 steps. -/
def firstCutoff {α : Type} [LinearOrderedField α] : α := 20000 + (4000 - 20000) / 2205

/-- The coefficient `a0` that `update` computes from `firstCutoff` at 44100 Hz. -/
def scenarioA0 {α : Type} [LinearOrderedField α] (M : MathFns α) : α :=
  (1 + M.cos (2 * M.pi * firstCutoff / 44100)) * (1 / 2)
    / ((1 + M.cos (2 * M.pi * firstCutoff / 44100)) * (1 / 2)
        + (1 - M.cos (2 * M.pi * firstCutoff / 44100))
        + (1 + M.cos (2 * M.pi * firstCutoff / 44100)) * (1 / 2))

/-- The sample that the scenario stores at step 4410 and reads back at step 8820. -/
def secondEcho {α : Type} [LinearOrderedField α] (M : MathFns α) : α :=
  scenarioA0 M * (1 / 2 * (5411 / 8820))

/-- The delayed sample that the loop of the scenario reads at step `i` before
the second echo arrives: the impulse, 4410 steps late. -/
def echoInput {α : Type} [LinearOrderedField α] (i : Nat) : α :=
  if i = 4410 then 1 else 0

/-- The feedback filter of a channel of the scenario after `n` steps of the
loop, each `update (20000)` followed by `process` on the delayed sample, from
the filter that `prepareToPlay` leaves. -/
def echoFilterState {α : Type} [LinearOrderedField α] [FloorRing α] (M : MathFns α) :
    Nat → LowPassFilter α
  | 0 => LowPassFilter.prepared 44100 20000
  | n + 1 => (((echoFilterState M n).update M 20000).process M (echoInput n)).2

/-- The value `feedbackSample` that the feedback filter returns at step `n` of the scenario. -/
def echoFilterOut {α : Type} [LinearOrderedField α] [FloorRing α] (M : MathFns α) (n : Nat) : α :=
  (((echoFilterState M n).update M 20000).process M (echoInput n)).1

/-- The sample that the scenario stores at step `j` once the first echo has
been read (samples 4410 to 8819): the output of the feedback filter times the
feedback gain, which is the feedback 0.5 times the fade gain
`(9821 - j) / 8820`. -/
def echoWritten {α : Type} [LinearOrderedField α] [FloorRing α] (M : MathFns α) (j : Nat) : α :=
  echoFilterOut M j * (1 / 2 * ((9821 - (j : α)) / 8820))

/-- What the scenario must read at step `n`. -/
def Expected (n : Nat) (y : ℝ) : Prop :=
  (n < 4410 → y = 0) ∧ (n = 4410 → y = 1) ∧ (4410 < n → n < 8820 → y = 0) ∧
    (8820 ≤ n → n < 13230 → y = echoWritten realMath (n - 4410))

/-- The fade smoother of the scenario after `n` samples: at rest on 1 through
sample 1001, then `9822 - n` steps away from 0 on the ramp of 8820 steps. -/
def FadeInv (n : Nat) (fade : LinearSmoothedValue ℝ) : Prop :=
  fade.stepsToTarget = 8820 ∧
  (n ≤ 1002 → fade.countdown = 0 ∧ fade.target = 1 ∧ fade.currentValue = 1) ∧
  (1002 < n → fade.target = 0 ∧ fade.countdown = 9822 - (n : Int) ∧
    fade.currentValue = (9822 - (n : ℝ)) / 8820 ∧ fade.step = -1 / 8820)

/-- A channel of the scenario after `n ≥ 1` samples of the unit impulse. -/
def ChanInv (n : Nat) (ch : Channel ℝ) : Prop :=
  ch.delayBuffer.WellFormed 17 ∧ ch.delayBuffer.writeIndex = n ∧
  ch.delayBuffer.buffer[0]? = some 1 ∧
  (∀ j, 1 ≤ j → j < 2 ^ 17 → (j < 4410 ∨ n ≤ j) → ch.delayBuffer.buffer[j]? = some 0) ∧
  (∀ j, 4410 ≤ j → j < n → j < 8820 →
    ch.delayBuffer.buffer[j]? = some (echoWritten realMath j)) ∧
  LinearSmoothedValue.Steady 100 ch.smoothedDelayTime ∧
  ch.feedbackFilter.smoothedFreq.target = 4000 ∧
  (n ≤ 8820 → ch.feedbackFilter = echoFilterState realMath n ∧
    ch.silenceCounter = (n : Int) - 1 ∧ FadeInv n ch.feedbackFade)

/-- A channel of the scenario as `prepareToPlay` leaves it. -/
def ChanInit (ch : Channel ℝ) : Prop :=
  ch.delayBuffer.WellFormed 17 ∧ ch.delayBuffer.writeIndex = 0 ∧
  (∀ j, j < 2 ^ 17 → ch.delayBuffer.buffer[j]? = some 0) ∧
  LinearSmoothedValue.Steady 100 ch.smoothedDelayTime ∧
  ch.feedbackFilter.sampleRate = 44100 ∧
  ch.feedbackFilter.smoothedFreq.target = 20000 ∧
  ch.feedbackFilter.smoothedFreq.currentValue = 20000 ∧
  ch.feedbackFilter.smoothedFreq.stepsToTarget = 2205 ∧
  ch.feedbackFilter.x1 = 0 ∧ ch.feedbackFilter.x2 = 0 ∧
  ch.feedbackFilter.y1 = 0 ∧ ch.feedbackFilter.y2 = 0 ∧
  ch.silenceCounter = 0 ∧ FadeInv 0 ch.feedbackFade

/-- A channel of the scenario after `n` samples, fresh from `prepareToPlay` when `n = 0`. -/
def ChanState (n : Nat) (ch : Channel ℝ) : Prop :=
  (n = 0 ∧ ChanInit ch ∧ ch.feedbackFilter = LowPassFilter.prepared 44100 20000) ∨
    (1 ≤ n ∧ ChanInv n ch)

/-- Sample `n` of the unit impulse. -/
def impulseAt (n : Nat) : ℝ := if n = 0 then 1 else 0

/-- The processor of the scenario when channel 0 has taken `k.1` samples and channel 1 `k.2`. -/
def Good {ω : Type} (k : Nat × Nat) (st : Processor ω ℝ) : Prop :=
  st.sampleRate = 44100 ∧ LinearSmoothedValue.Steady (1 / 2) st.smoothedFeedback ∧ LinearSmoothedValue.Steady 1 st.smoothedDryWet ∧
    ∀ c, ChanState (get2 k c) (get2 st.channels c)

end OldVersion

/-! ## JUCE `dsp::Oscillator<float>` (library class): a concrete instance of `OscillatorOps` -/

/-- The fields of `juce::dsp::Oscillator<float>` that `processSample` uses: the
generator function given to the constructor, the smoothed frequency, the sample
rate and the value of `Phase<float>::phase`. -/
structure JuceOscillator (α : Type) where
  generator : α → α
  frequency : LinearSmoothedValue α
  sampleRate : α
  phase : α

namespace JuceOscillator

variable {α : Type} [LinearOrderedField α] [FloorRing α]

/-- The constructor `Oscillator (function)`: frequency 440, sample rate 48000, phase 0. -/
def construct (generator : α → α) : JuceOscillator α where
  generator := generator
  frequency := LinearSmoothedValue.init 440
  sampleRate := 48000
  phase := 0

/-- JUCE `Oscillator::reset`: `phase.reset ()`, and `frequency.reset (sampleRate, 0.05)`
when the sample rate is positive. -/
def reset (o : JuceOscillator α) : JuceOscillator α :=
  { o with
    phase := 0
    frequency := if 0 < o.sampleRate then o.frequency.reset o.sampleRate (5 / 100)
      else o.frequency }

/-- JUCE `Oscillator::prepare (spec)`: store the sample rate, then `reset ()`. -/
def prepare (o : JuceOscillator α) (sampleRate : α) (_maximumBlockSize _numChannels : Nat) :
    JuceOscillator α :=
  reset { o with sampleRate := sampleRate }

/-- JUCE `Oscillator::setFrequency (newFrequency)` with `force = false`. -/
def setFrequency (o : JuceOscillator α) (newFrequency : α) : JuceOscillator α :=
  { o with frequency := o.frequency.setTargetValue newFrequency }

/-- The phase that `Phase::advance (increment)` stores: `phase + increment` after
the loop `while (phase >= twoPi) phase -= twoPi`, in closed form (the loop
subtracts `twoPi` as many times as it fits). -/
def advance (M : MathFns α) (phase increment : α) : α :=
  phase + increment - 2 * M.pi * ((⌊(phase + increment) / (2 * M.pi)⌋ : Int) : α)

/-- JUCE `Oscillator::processSample (input)`: the generator is applied to the phase
before the advance, shifted by `-pi`. -/
def processSample (M : MathFns α) (o : JuceOscillator α) (input : α) : α × JuceOscillator α :=
  let next := o.frequency.getNextValue
  (input + o.generator (o.phase - M.pi),
    { o with frequency := next.2, phase := advance M o.phase (2 * M.pi * next.1 / o.sampleRate) })

/-- The JUCE oscillator as an instance of the operations record. -/
def ops (M : MathFns α) : OscillatorOps (JuceOscillator α) α where
  prepare := prepare
  setFrequency := setFrequency
  reset := reset
  processSample := processSample M

end JuceOscillator

namespace Source

variable {α δ ω : Type} [LinearOrderedField α] [FloorRing α]

/-- The member initialiser `wowLFO { [] (float x) { return std::sin (x); } }`. -/
def wowLFOInit (M : MathFns α) : JuceOscillator α :=
  JuceOscillator.construct (fun x => M.sin x)

/-- The member initialiser `flutterLFO { [] (float x) { return std::sin (x * 2.0f); } }`. -/
def flutterLFOInit (M : MathFns α) : JuceOscillator α :=
  JuceOscillator.construct (fun x => M.sin (x * 2))

/-- The constructed processor with its two JUCE oscillators. -/
def Processor.constructJuce (M : MathFns α) (dl0 : δ) : Processor δ (JuceOscillator α) α :=
  { (Processor.construct dl0 (wowLFOInit M) : Processor δ (JuceOscillator α) α) with
    flutterLFO := flutterLFOInit M }

/-- The processor `st` with the phases of its two oscillators replaced. -/
def Processor.withPhases (st : Processor δ (JuceOscillator α) α) (wowPhase flutterPhase : α) :
    Processor δ (JuceOscillator α) α :=
  { st with
    wowLFO := { st.wowLFO with phase := wowPhase }
    flutterLFO := { st.flutterLFO with phase := flutterPhase } }

end Source

/-! ## The OLDVERSION/broken variant (src/OLDVERSION/broken/PluginProcessor.cpp)

The header of this variant is not among the sources.  The members that its
.cpp file uses are those of OLDVERSION, so the model reuses the records
`OldVersion.Channel` and `OldVersion.Processor` (the value of `reverbDelayMs`
is a field of the state), with `CircularBuffer` and `LowPassFilter` as in
src/PluginProcessor.h. -/

namespace Broken

variable {α ω : Type} [LinearOrderedField α] [FloorRing α]

/-- The control snapshot: the values of the nine parameters of `createParameterLayout`. -/
structure Params (α : Type) where
  delayTime : α
  feedback : α
  wowRate : α
  wowDepth : α
  flutterRate : α
  flutterDepth : α
  dryWet : α
  reverbLevel : α
  filterFreq : α

/-- The per-channel part of `prepareToPlay` (lines 72-119). -/
def channelPrepare (P : Params α) (ch : OldVersion.Channel α) (sampleRate : α) :
    OldVersion.Channel α :=
  { ch with
    delayBuffer :=
      (ch.delayBuffer.createCircularBuffer (u32 (truncToInt (sampleRate * 2)))).flushBuffer
    reverbBuffer :=
      (ch.reverbBuffer.createCircularBuffer
        (u32 (truncToInt (sampleRate * (1 / 10))))).flushBuffer
    feedbackFilter :=
      { ch.feedbackFilter.prepare sampleRate with
        smoothedFreq :=
          (ch.feedbackFilter.prepare sampleRate).smoothedFreq.setCurrentAndTargetValue
            P.filterFreq }
    reverbFilter :=
      { ch.reverbFilter.prepare sampleRate with
        smoothedFreq :=
          (ch.reverbFilter.prepare sampleRate).smoothedFreq.setCurrentAndTargetValue 4000 }
    smoothedDelayTime :=
      (ch.smoothedDelayTime.reset sampleRate (5 / 1000)).setCurrentAndTargetValue P.delayTime
    feedbackFade := (ch.feedbackFade.reset sampleRate (2 / 10)).setCurrentAndTargetValue 1
    silenceCounter := 0 }

/-- Function `prepareToPlay`. -/
def prepareToPlay (O : OscillatorOps ω α) (P : Params α) (st : OldVersion.Processor ω α)
    (sampleRate : α) (samplesPerBlock : Nat) : OldVersion.Processor ω α :=
  { st with
    sampleRate := sampleRate
    maxDelaySamples := truncToInt (sampleRate * 2)
    channels := (channelPrepare P st.channels.1 sampleRate,
      channelPrepare P st.channels.2 sampleRate)
    wowOscillator :=
      O.setFrequency (O.prepare st.wowOscillator sampleRate samplesPerBlock 2) P.wowRate
    flutterOscillator :=
      O.setFrequency (O.prepare st.flutterOscillator sampleRate samplesPerBlock 2)
        P.flutterRate
    smoothedFeedback :=
      (st.smoothedFeedback.reset sampleRate (5 / 100)).setCurrentAndTargetValue P.feedback
    smoothedDryWet :=
      (st.smoothedDryWet.reset sampleRate (5 / 1000)).setCurrentAndTargetValue P.dryWet
    smoothedReverbLevel :=
      (st.smoothedReverbLevel.reset sampleRate (5 / 100)).setCurrentAndTargetValue
        P.reverbLevel }

/-- The silence detector (lines 177-179): the counter and the fade smoother after one input sample. -/
def silenceDetect (counter : Int) (fade : LinearSmoothedValue α) (input : α) :
    Int × LinearSmoothedValue α :=
  let counter1 := if |input| < 1 / 1000000 then counter + 1 else 0
  (counter1, fade.setTargetValue (if counter1 > 100 then 0 else 1))

/-- The delay in samples that the loop asks of `readBuffer` (lines 182-194). -/
def delaySamples (M : MathFns α) (P : Params α) (sampleRate smoothedDelayMs wowPhase
    flutterPhase : α) : α :=
  jlimit 1 2000
      (smoothedDelayMs * (1 + M.sin wowPhase * P.wowDepth + M.sin flutterPhase * P.flutterDepth))
    / 1000 * sampleRate

/-- The three smoothers that the two channel loops share. -/
structure Shared (α : Type) where
  smoothedFeedback : LinearSmoothedValue α
  smoothedDryWet : LinearSmoothedValue α
  smoothedReverbLevel : LinearSmoothedValue α

/-- Body of the per-sample loop (lines 175-216) on the members of one channel:
the channel and the shared smoothers after the sample, and the value stored in
`outputData`. -/
def sampleChannel (M : MathFns α) (P : Params α) (reverbDelayMs sampleRate : α)
    (sh : Shared α) (ch : OldVersion.Channel α) (input : α) :
    Option (OldVersion.Channel α × Shared α × α) :=
  let silence := silenceDetect ch.silenceCounter ch.feedbackFade input
  let nextDelay := ch.smoothedDelayTime.getNextValue
  match ch.delayBuffer.readBuffer
      (delaySamples M P sampleRate nextDelay.1 ch.wowPhase ch.flutterPhase) with
  | none => none
  | some delayedSample =>
    let filtered := ch.feedbackFilter.process M delayedSample
    let feedback := sh.smoothedFeedback.getNextValue
    let fade := silence.2.getNextValue
    let inputForDelay := jlimit (-1) 1 (input + filtered.1 * (feedback.1 * fade.1 * (9 / 10)))
    match ch.delayBuffer.writeBuffer inputForDelay with
    | none => none
    | some buffer1 =>
      match ch.reverbBuffer.readBuffer (reverbDelayMs * sampleRate / 1000) with
      | none => none
      | some reverbRead =>
        let reverb := ch.reverbFilter.process M reverbRead
        match ch.reverbBuffer.writeBuffer (inputForDelay * (2 / 10) + reverb.1 * (6 / 10)) with
        | none => none
        | some reverbBuffer1 =>
          let dry := sh.smoothedDryWet.getNextValue
          let wet := dry.2.getNextValue
          let level := sh.smoothedReverbLevel.getNextValue
          some
            ({ ch with
                delayBuffer := buffer1
                feedbackFilter := filtered.2
                smoothedDelayTime := nextDelay.2
                feedbackFade := fade.2
                silenceCounter := silence.1
                wowPhase := OldVersion.advancePhase M ch.wowPhase P.wowRate sampleRate
                flutterPhase := OldVersion.advancePhase M ch.flutterPhase P.flutterRate sampleRate
                reverbBuffer := reverbBuffer1
                reverbFilter := reverb.2 },
              { smoothedFeedback := feedback.2, smoothedDryWet := wet.2,
                smoothedReverbLevel := level.2 },
              jlimit (-1) 1 (input * (1 - dry.1) + delayedSample * wet.1 + reverb.1 * level.1))

/-- The per-sample loop over the samples of one channel. -/
def sampleLoop (M : MathFns α) (P : Params α) (reverbDelayMs sampleRate : α) :
    Shared α → OldVersion.Channel α → List α → Option (OldVersion.Channel α × Shared α × List α)
  | sh, ch, [] => some (ch, sh, [])
  | sh, ch, x :: xs =>
    match sampleChannel M P reverbDelayMs sampleRate sh ch x with
    | none => none
    | some r =>
      match sampleLoop M P reverbDelayMs sampleRate r.2.1 r.1 xs with
      | none => none
      | some rest => some (rest.1, rest.2.1, r.2.2 :: rest.2.2)

/-- The lines of the channel loop before its sample loop (lines 171-172). -/
def channelSetup (M : MathFns α) (P : Params α) (ch : OldVersion.Channel α) :
    OldVersion.Channel α :=
  { ch with
    smoothedDelayTime := ch.smoothedDelayTime.setTargetValue P.delayTime
    feedbackFilter := ch.feedbackFilter.update M P.filterFreq }

/-- The shared smoothers after lines 153-155: each target is the clamped control value. -/
def setTargets (P : Params α) (st : OldVersion.Processor ω α) : Shared α where
  smoothedFeedback := st.smoothedFeedback.setTargetValue (jlimit 0 (7 / 10) P.feedback)
  smoothedDryWet := st.smoothedDryWet.setTargetValue (jlimit 0 1 P.dryWet)
  smoothedReverbLevel := st.smoothedReverbLevel.setTargetValue (jlimit 0 (1 / 2) P.reverbLevel)

/-- Function `processBlock` on a stereo block, processed in place (`buffer.1` is
channel 0, `buffer.2` is channel 1).  The result is `none` when a delay-buffer
access is out of bounds; the debug logging after each channel is left out. -/
def processBlock (M : MathFns α) (O : OscillatorOps ω α) (P : Params α)
    (st : OldVersion.Processor ω α) (buffer : List α × List α) :
    Option (OldVersion.Processor ω α × (List α × List α)) :=
  match sampleLoop M P st.reverbDelayMs st.sampleRate (setTargets P st)
      (channelSetup M P st.channels.1) buffer.1 with
  | none => none
  | some left =>
    match sampleLoop M P st.reverbDelayMs st.sampleRate left.2.1
        (channelSetup M P st.channels.2) buffer.2 with
    | none => none
    | some right =>
      some
        ({ st with
            channels := (left.1, right.1)
            wowOscillator := O.setFrequency st.wowOscillator P.wowRate
            flutterOscillator := O.setFrequency st.flutterOscillator P.flutterRate
            smoothedFeedback := right.2.1.smoothedFeedback
            smoothedDryWet := right.2.1.smoothedDryWet
            smoothedReverbLevel := right.2.1.smoothedReverbLevel },
          (left.2.2, right.2.2))

/-- The values `fade.getNextValue ()` of line 201 over the samples `xs`, with
the counter and the fade smoother after the last of them: the two are touched
by lines 177-179 and 201 only. -/
def fadeGains : Int × LinearSmoothedValue α → List α → List α × (Int × LinearSmoothedValue α)
  | s, [] => ([], s)
  | s, x :: xs =>
    let silence := silenceDetect s.1 s.2 x
    let rest := fadeGains (silence.1, silence.2.getNextValue.2) xs
    (silence.2.getNextValue.1 :: rest.1, rest.2)

/-- The fade smoother of a freshly prepared channel after `n` silent samples,
for a ramp of `S` steps: at rest on 1 through sample 100, then on the ramp to 0
with `S - (n - 100)` steps to go, then at rest on 0. -/
def FadeRamp (S : Int) (n : Nat) (fade : LinearSmoothedValue α) : Prop :=
  fade.stepsToTarget = S ∧
  (n ≤ 100 → fade.target = 1 ∧ fade.countdown = 0 ∧ fade.currentValue = 1) ∧
  (100 < n → fade.target = 0 ∧
    ((n : Int) - 100 < S → fade.countdown = S - ((n : Int) - 100) ∧
      fade.currentValue = 1 - (((n : Int) - 100 : Int) : α) / (S : α) ∧
      fade.step = -1 / (S : α)) ∧
    (S ≤ (n : Int) - 100 → fade.countdown = 0))

/-- Both delay buffers of a channel satisfy the class invariant. -/
def BuffersWellFormed (ch : OldVersion.Channel α) : Prop :=
  ∃ k r, ch.delayBuffer.WellFormed k ∧ ch.reverbBuffer.WellFormed r

/-- The control defaults of `createParameterLayout`. -/
def defaultParams : Params α where
  delayTime := 100
  feedback := 1 / 2
  wowRate := 1
  wowDepth := 2 / 10
  flutterRate := 10
  flutterDepth := 1 / 10
  dryWet := 1 / 2
  reverbLevel := 0
  filterFreq := 2000

end Broken

/-! ## The Alpha2 variant: the tape loop (src/Alpha2/PluginProcessor.cpp, lines 183-240) -/

namespace Alpha2

variable {α : Type} [LinearOrderedField α] [FloorRing α]

/-- The controls that the tape loop reads. -/
structure Params (α : Type) where
  wowRate : α
  wowDepth : α
  flutterRate : α
  flutterDepth : α
  filterFreq : α

/-- The per-channel members that the tape loop uses. -/
structure Channel (α : Type) where
  delayBuffer : CircularBuffer α
  feedbackFilter : LowPassFilter α
  smoothedDelayTime : LinearSmoothedValue α
  feedbackFade : LinearSmoothedValue α
  silenceCounter : Int
  wowPhase : α
  flutterPhase : α

/-- The silence detector (lines 200-211): the counter and the fade smoother after one input sample. -/
def silenceDetect (counter : Int) (fade : LinearSmoothedValue α) (input : α) :
    Int × LinearSmoothedValue α :=
  if |input| < 1 / 100000 then
    (counter + 1, if counter > 100 then fade.setTargetValue 0 else fade)
  else (0, fade.setTargetValue 1)

/-- Body of the per-sample tape loop (lines 197-252) on the members of one
channel: the channel and the shared feedback smoother after the sample, and the
value stored in `delayData`.  `wowOut` and `flutterOut` are what the two
oscillators returned for this sample. -/
def tapeSampleChannel (M : MathFns α) (P : Params α) (sampleRate wowOut flutterOut : α)
    (smoothedFeedback : LinearSmoothedValue α) (ch : Channel α) (input : α) :
    Option (Channel α × LinearSmoothedValue α × α) :=
  let filter1 := ch.feedbackFilter.update M P.filterFreq
  let silence := silenceDetect ch.silenceCounter ch.feedbackFade input
  let nextDelay := ch.smoothedDelayTime.getNextValue
  match ch.delayBuffer.readBuffer
      (jlimit 1 2000
          (nextDelay.1
            * (1 + wowOut * P.wowDepth * (1 / 100) + flutterOut * P.flutterDepth * (1 / 100)))
        / 1000 * sampleRate) with
  | none => none
  | some delayedSample =>
    let filtered := filter1.process M delayedSample
    let feedback := smoothedFeedback.getNextValue
    let fade := silence.2.getNextValue
    match ch.delayBuffer.writeBuffer
        (jlimit (-1) 1 (input + filtered.1 * (feedback.1 * fade.1 * (9 / 10)))) with
    | none => none
    | some buffer1 =>
      some
        ({ ch with
            delayBuffer := buffer1
            feedbackFilter := filtered.2
            smoothedDelayTime := nextDelay.2
            feedbackFade := fade.2
            silenceCounter := silence.1
            wowPhase := OldVersion.advancePhase M ch.wowPhase P.wowRate sampleRate
            flutterPhase := OldVersion.advancePhase M ch.flutterPhase P.flutterRate sampleRate },
          feedback.2, delayedSample)

end Alpha2

/-! ## Auxiliary definitions for the statements -/

/-- The phase after `n` updates of the hand-rolled accumulator. -/
def OldVersion.phaseAfter {α : Type} [LinearOrderedField α] (M : MathFns α)
    (rate sampleRate : α) : Nat → α → α
  | 0, phase => phase
  | n + 1, phase => phaseAfter M rate sampleRate n (OldVersion.advancePhase M phase rate sampleRate)

/-- The fade gain of the broken variant at the 0-based silent sample `i` of a
freshly prepared channel whose ramp has `S` steps: 1 for the first 100 samples,
then the ramp `1 - (i - 99) / S`, then 0. -/
def Broken.expectedFadeGain {α : Type} [LinearOrderedField α] (S : Int) (i : Nat) : α :=
  if i < 100 then 1
  else if ((i : Int) - 99) < S then 1 - (((i : Int) - 99 : Int) : α) / (S : α)
  else 0

/-- The real functions with the finiteness test of a binary32 float: a value is
finite when its magnitude is below `2 ^ 128`. -/
noncomputable def floatRangeMath : MathFns ℝ :=
  { realMath with isfinite := fun v => decide (|v| < 2 ^ 128) }

/-! ## Sequences of calls on a `CircularBuffer`, and buffers of bounded content -/

namespace CircularBuffer

variable {α : Type} [LinearOrderedField α] [FloorRing α]

/-- One call of a client on a created buffer: `writeBuffer (x)`, `readBuffer (d)` or `flushBuffer ()`. -/
inductive Call (α : Type) where
  | write (x : α)
  | read (d : α)
  | flush

/-- The buffer after one call; `readBuffer` is a `const` member and returns the
buffer as it was.  The result is `none` when an access is outside the array. -/
def call (cb : CircularBuffer α) : Call α → Option (CircularBuffer α)
  | Call.write x => cb.writeBuffer x
  | Call.read d => (cb.readBuffer d).map (fun _ => cb)
  | Call.flush => some cb.flushBuffer

/-- The buffer after a sequence of calls. -/
def calls : CircularBuffer α → List (Call α) → Option (CircularBuffer α)
  | cb, [] => some cb
  | cb, c :: cs =>
    match cb.call c with
    | none => none
    | some cb1 => calls cb1 cs

/-- Every stored sample lies in `[-1, 1]`. -/
def InUnit (cb : CircularBuffer α) : Prop :=
  ∀ x ∈ cb.buffer, -1 ≤ x ∧ x ≤ 1

/-- Two buffers with the same write index, lengths and mask; the stored samples may differ. -/
def SameShape (a b : CircularBuffer α) : Prop :=
  a.writeIndex = b.writeIndex ∧ a.bufferLength = b.bufferLength ∧ a.wrapMask = b.wrapMask ∧
    a.buffer.length = b.buffer.length

end CircularBuffer

/-- Two fallible results that fail together, or succeed together with values related by `R`. -/
def BothOrNeither {β γ : Type} (R : β → γ → Prop) : Option β → Option γ → Prop
  | some a, some b => R a b
  | none, none => True
  | _, _ => False

namespace Source

variable {α δ ω : Type} [LinearOrderedField α] [FloorRing α]

/-- The wet sample of one step of the tape loop (lines 217-238): the value that
`feedbackFilters[channel].process` returns for what `tapeDelays[channel].process`
returned, the delay-line output after `saturationFunc`. -/
def wetSample (M : MathFns α) (DL : DelayLineOps δ α) (P : Params α) (c : Nat)
    (st : Processor δ ω α) (input wow flutter : α) : α :=
  let baseDelayMs := st.smoothedDelayTime.getNextValue
  let wowMod := wow * P.wowDepth * (1 / 10)
  let flutterMod := flutter * P.flutterDepth * (5 / 100)
  let modulatedDelayMs := baseDelayMs.1 * (1 + wowMod + flutterMod)
  let modulatedDelaySamples := modulatedDelayMs / 1000 * st.currentSampleRate
  let tape := (get2 st.tapeDelays c).setDelay DL modulatedDelaySamples
  let fb := st.smoothedFeedback.getNextValue
  let delayed := tape.process DL input fb.1 (saturationFunc M P)
  ((get2 st.feedbackFilters c).process delayed.1).1

/-- The wet samples of the tape loop over one channel, in step with `tapeLoop`. -/
def tapeWets (M : MathFns α) (DL : DelayLineOps δ α) (P : Params α) (c : Nat) :
    Processor δ ω α → List α → List α → List α → List α
  | st, x :: xs, w :: ws, f :: fs =>
    wetSample M DL P c st x w f :: tapeWets M DL P c (tapeSample M DL P c st x w f).1 xs ws fs
  | _, _, _, _ => []

/-- The value of the local `reverbMix` of the reverb section (lines 256-260):
the next value of the reverb-level smoother, times 1.2 in psychedelic mode. -/
def reverbMix (P : Params α) (st : Processor δ ω α) : α :=
  if P.psychedelicMode then st.smoothedReverbLevel.getNextValue.1 * (12 / 10)
  else st.smoothedReverbLevel.getNextValue.1

/-- A one-pole filter whose stored rate is positive and whose state lies in `[-1, 1]`. -/
def FilterReady (f : SimpleLowPassFilter α) : Prop :=
  0 < f.sr ∧ |f.z1| ≤ 1

end Source

namespace Broken

variable {α : Type} [LinearOrderedField α] [FloorRing α]

/-- The locals `dryMix` and `wetMix` of the mix (lines 212-213): two successive
`getNextValue` calls on the dry/wet smoother. -/
def mixWeights (s : LinearSmoothedValue α) : α × α :=
  (1 - s.getNextValue.1, s.getNextValue.2.getNextValue.1)

end Broken

namespace OldVersion

variable {α ω : Type} [LinearOrderedField α] [FloorRing α]

/-- Two channels whose buffers have the same shape and whose delay smoothers
are equal: they may differ in everything that the audio of the channel writes
(buffer contents, filters, silence counter, fade smoother, phases). -/
def ChannelShape (a b : Channel α) : Prop :=
  a.delayBuffer.SameShape b.delayBuffer ∧ a.reverbBuffer.SameShape b.reverbBuffer ∧
    a.smoothedDelayTime = b.smoothedDelayTime

/-- Two processors that agree on channel 1 and on every shared member, and whose
channels 0 have the same shape. -/
def AgreeOffFirst (s t : Processor ω α) : Prop :=
  s.channels.2 = t.channels.2 ∧ ChannelShape s.channels.1 t.channels.1 ∧
    s.wowOscillator = t.wowOscillator ∧ s.flutterOscillator = t.flutterOscillator ∧
    s.smoothedFeedback = t.smoothedFeedback ∧ s.smoothedDryWet = t.smoothedDryWet ∧
    s.smoothedReverbLevel = t.smoothedReverbLevel ∧ s.maxDelaySamples = t.maxDelaySamples ∧
    s.reverbDelayMs = t.reverbDelayMs ∧ s.sampleRate = t.sampleRate

end OldVersion

/-! ## `readBuffer` with the rounding of a floating format

The members of `CircularBuffer<float>::readBuffer` once more, with a rounding
function `fl` applied to the result of every conversion to `float` and of every
operation on `float`; `binary32` is the rounding of the format of `float`. -/

/-- The integer nearest to `x`, the even one of the two when `x` lies half way. -/
def roundHalfEven {α : Type} [LinearOrderedField α] [FloorRing α] (x : α) : Int :=
  if x - (⌊x⌋ : α) < 1 / 2 then ⌊x⌋
  else if 1 / 2 < x - (⌊x⌋ : α) then ⌊x⌋ + 1
  else if ⌊x⌋ % 2 = 0 then ⌊x⌋ else ⌊x⌋ + 1

/-- The value of the binary32 format nearest to `x` (24 significant bits, ties
to even), for `x` within the normal range of the format: `x` is scaled by the
power of two that puts its leading bit at position 23, rounded to an integer
and scaled back. -/
def binary32 {α : Type} [LinearOrderedField α] [FloorRing α] (x : α) : α :=
  if x = 0 then 0
  else (roundHalfEven (x / (2 : α) ^ (Int.log 2 |x| - 23)) : α) * (2 : α) ^ (Int.log 2 |x| - 23)

namespace CircularBuffer

variable {α : Type} [LinearOrderedField α] [FloorRing α]

/-- The float `readIndex` of `readBuffer` after the wrap, with the rounding `fl`
of every step: the conversions of `bufferLength - 1`, `writeIndex` and
`bufferLength` to `float`, the subtraction, and the sum of
`readIndex += bufferLength`. -/
def readIndexRounded (fl : α → α) (cb : CircularBuffer α) (delayInSamples : α) : α :=
  let delay := jlimit 0 (fl ((u32 ((cb.bufferLength : Int) - 1) : Nat) : α)) delayInSamples
  let r := fl (fl (cb.writeIndex : α) - delay)
  if r < 0 then fl (r + fl (cb.bufferLength : α)) else r

/-- Function `readBuffer` with the rounding `fl` of every float operation.  The
result is `none` when either load is outside the array. -/
def readBufferRounded (fl : α → α) (cb : CircularBuffer α) (delayInSamples : α) : Option α :=
  let readIndex := readIndexRounded fl cb delayInSamples
  let readIndexInt := truncToInt readIndex
  let frac := fl (readIndex - fl (readIndexInt : α))
  let readIndexNext := u32 (readIndexInt + 1) &&& cb.wrapMask
  if 0 ≤ readIndexInt then
    match cb.buffer[readIndexInt.toNat]?, cb.buffer[readIndexNext]? with
    | some a, some b => some (fl (fl (a * fl (1 - frac)) + fl (b * frac)))
    | _, _ => none
  else none

end CircularBuffer

/-! ## JUCE `dsp::DelayLine<float, Linear>` (library class): a concrete instance of `DelayLineOps` -/

/-- The members of `juce::dsp::DelayLine<float, DelayLineInterpolationTypes::Linear>`.
The sample memory `bufferData` is a function of the channel and the index, and
`writePos`, `readPos` are functions of the channel; `numChannels` is the number
of channels that `prepare` allocated. -/
structure JuceDelayLine (α : Type) where
  sampleRate : α
  numChannels : Nat
  bufferData : Nat → Int → α
  writePos : Nat → Int
  readPos : Nat → Int
  delay : α
  delayFrac : α
  delayInt : Int
  totalSize : Int

namespace JuceDelayLine

variable {α : Type} [LinearOrderedField α] [FloorRing α]

/-- Function `DelayLine::reset`: both positions of every channel and every stored sample become 0. -/
def reset (d : JuceDelayLine α) : JuceDelayLine α :=
  { d with
    writePos := fun _ => 0
    readPos := fun _ => 0
    bufferData := fun _ _ => 0 }

/-- Constructor `DelayLine ()`, which is `DelayLine (0)`: no channel yet, and
`setMaximumDelayInSamples (0)` leaves `totalSize = jmax (4, 0 + 2)`. -/
def init : JuceDelayLine α where
  sampleRate := 44100
  numChannels := 0
  bufferData := fun _ _ => 0
  writePos := fun _ => 0
  readPos := fun _ => 0
  delay := 0
  delayFrac := 0
  delayInt := 0
  totalSize := 4

/-- Function `DelayLine::prepare (spec)`: `spec.numChannels` channels of
`totalSize` samples, the sample rate of `spec`, then `reset ()`. -/
def prepare (d : JuceDelayLine α) (sampleRate : α) (_maximumBlockSize : Nat) (numChannels : Nat) :
    JuceDelayLine α :=
  reset { d with numChannels := numChannels, sampleRate := sampleRate }

/-- Function `DelayLine::setMaximumDelayInSamples`: `totalSize = jmax (4, maxDelayInSamples + 2)`,
the channels resized to it, then `reset ()`. -/
def setMaximumDelayInSamples (d : JuceDelayLine α) (maxDelayInSamples : Int) : JuceDelayLine α :=
  reset { d with totalSize := max 4 (maxDelayInSamples + 2) }

/-- Function `DelayLine::getMaximumDelayInSamples`. -/
def getMaximumDelayInSamples (d : JuceDelayLine α) : Int :=
  d.totalSize - 2

/-- Function `DelayLine::setDelay`. -/
def setDelay (d : JuceDelayLine α) (newDelayInSamples : α) : JuceDelayLine α :=
  { d with
    delay := jlimit 0 ((d.getMaximumDelayInSamples : Int) : α) newDelayInSamples
    delayInt := ⌊jlimit 0 ((d.getMaximumDelayInSamples : Int) : α) newDelayInSamples⌋
    delayFrac :=
      jlimit 0 ((d.getMaximumDelayInSamples : Int) : α) newDelayInSamples
        - ((⌊jlimit 0 ((d.getMaximumDelayInSamples : Int) : α) newDelayInSamples⌋ : Int) : α) }

/-- Function `DelayLine::interpolateSample` of the linear interpolation. -/
def interpolateSample (d : JuceDelayLine α) (channel : Nat) : α :=
  let index1 := d.readPos channel + d.delayInt
  let index2 := index1 + 1
  let value1 := d.bufferData channel (if index2 ≥ d.totalSize then index1 % d.totalSize else index1)
  let value2 := d.bufferData channel (if index2 ≥ d.totalSize then index2 % d.totalSize else index2)
  value1 + d.delayFrac * (value2 - value1)

/-- Function `DelayLine::pushSample`. -/
def pushSample (d : JuceDelayLine α) (channel : Nat) (sample : α) : JuceDelayLine α :=
  { d with
    bufferData := fun c i =>
      if c = channel ∧ i = d.writePos channel then sample else d.bufferData c i
    writePos := fun c =>
      if c = channel then (d.writePos channel + d.totalSize - 1) % d.totalSize else d.writePos c }

/-- Function `DelayLine::popSample`. -/
def popSample (d : JuceDelayLine α) (channel : Nat) (delayInSamples : α)
    (updateReadPointer : Bool) : α × JuceDelayLine α :=
  let d1 := if delayInSamples ≥ 0 then d.setDelay delayInSamples else d
  (d1.interpolateSample channel,
    if updateReadPointer then
      { d1 with
        readPos := fun c =>
          if c = channel then (d1.readPos channel + d1.totalSize - 1) % d1.totalSize
          else d1.readPos c }
    else d1)

end JuceDelayLine

/-- The operations of `juce::dsp::DelayLine<float, Linear>`, transcribed from the JUCE source. -/
def juceDelayLine {α : Type} [LinearOrderedField α] [FloorRing α] :
    DelayLineOps (JuceDelayLine α) α where
  prepare := JuceDelayLine.prepare
  setMaximumDelayInSamples := JuceDelayLine.setMaximumDelayInSamples
  getMaximumDelayInSamples := JuceDelayLine.getMaximumDelayInSamples
  reset := JuceDelayLine.reset
  popSample := JuceDelayLine.popSample
  pushSample := JuceDelayLine.pushSample

namespace Broken

variable {α ω : Type} [LinearOrderedField α] [FloorRing α]

end Broken

/-! ## Lemmas on the primitives -/

theorem jlimit_mem {α : Type} [LinearOrder α] (lo hi v : α) (h : lo ≤ hi) :
    lo ≤ jlimit lo hi v ∧ jlimit lo hi v ≤ hi := by
  unfold jlimit
  split_ifs with h1 h2
  · exact ⟨le_refl _, h⟩
  · exact ⟨h, le_refl _⟩
  · exact ⟨not_lt.mp h1, not_lt.mp h2⟩

theorem jlimit_of_mem {α : Type} [LinearOrder α] (lo hi v : α) (h1 : lo ≤ v) (h2 : v ≤ hi) :
    jlimit lo hi v = v := by
  unfold jlimit
  rw [if_neg (not_lt.mpr h1), if_neg (not_lt.mpr h2)]

theorem u32_natCast_of_lt (n : Nat) (h : n < 2 ^ 32) : u32 (n : Int) = n := by
  unfold u32
  omega

theorem truncToInt_of_nonneg {α : Type} [LinearOrderedField α] [FloorRing α] (x : α)
    (h : 0 ≤ x) : truncToInt x = ⌊x⌋ := by
  unfold truncToInt
  rw [if_pos h]

theorem u32_natCast_sub_one (n : Nat) (h0 : 0 < n) (h : n < 2 ^ 32) :
    u32 ((n : Int) - 1) = n - 1 := by
  unfold u32
  omega

theorem two_pow_lt_of_lt_32 (k : Nat) (h : k < 32) : 2 ^ k < 2 ^ 32 :=
  Nat.pow_lt_pow_right (by decide) h

namespace CircularBuffer

variable {α : Type} [LinearOrderedField α] [FloorRing α]

theorem WellFormed.length_pos {cb : CircularBuffer α} {k : Nat} (_h : cb.WellFormed k) :
    0 < 2 ^ k :=
  Nat.pos_pow_of_pos k (by decide)

theorem WellFormed.u32_length_sub_one {cb : CircularBuffer α} {k : Nat} (h : cb.WellFormed k) :
    u32 ((cb.bufferLength : Int) - 1) = 2 ^ k - 1 := by
  obtain ⟨hk, hlen, -, -, -⟩ := h
  have h1 := two_pow_lt_of_lt_32 k hk
  have h2 : 0 < 2 ^ k := Nat.pos_pow_of_pos k (by decide)
  rw [hlen]
  exact u32_natCast_sub_one _ h2 h1

theorem WellFormed.clampedDelay_eq {cb : CircularBuffer α} {k : Nat} (h : cb.WellFormed k)
    (d : α) : cb.clampedDelay d = jlimit 0 ((2 : α) ^ k - 1) d := by
  unfold clampedDelay
  rw [h.u32_length_sub_one]
  have h2 : 1 ≤ 2 ^ k := h.length_pos
  rw [Nat.cast_sub h2]
  push_cast
  rfl

theorem WellFormed.clampedDelay_mem {cb : CircularBuffer α} {k : Nat} (h : cb.WellFormed k)
    (d : α) : 0 ≤ cb.clampedDelay d ∧ cb.clampedDelay d ≤ (2 : α) ^ k - 1 := by
  rw [h.clampedDelay_eq]
  apply jlimit_mem
  have : (1 : α) ≤ 2 ^ k := one_le_pow₀ (by norm_num)
  linarith

theorem WellFormed.readIndex_mem {cb : CircularBuffer α} {k : Nat} (h : cb.WellFormed k)
    (d : α) : 0 ≤ cb.readIndex d ∧ cb.readIndex d < (2 : α) ^ k := by
  obtain ⟨hc0, hc1⟩ := h.clampedDelay_mem d
  obtain ⟨-, hlen, -, hw, -⟩ := h
  have hw1 : (cb.writeIndex : α) + 1 ≤ (2 : α) ^ k := by
    have : cb.writeIndex + 1 ≤ 2 ^ k := hw
    exact_mod_cast this
  have hw0 : (0 : α) ≤ cb.writeIndex := Nat.cast_nonneg _
  have hN : (cb.bufferLength : α) = (2 : α) ^ k := by rw [hlen]; push_cast; rfl
  unfold readIndex
  simp only
  split_ifs with hr
  · rw [hN]; constructor <;> linarith
  · constructor
    · exact not_lt.mp hr
    · linarith

theorem WellFormed.readIndexInt_eq {cb : CircularBuffer α} {k : Nat} (h : cb.WellFormed k)
    (d : α) : cb.readIndexInt d = ⌊cb.readIndex d⌋ :=
  truncToInt_of_nonneg _ (h.readIndex_mem d).1

theorem WellFormed.readIndexInt_mem {cb : CircularBuffer α} {k : Nat} (h : cb.WellFormed k)
    (d : α) : 0 ≤ cb.readIndexInt d ∧ cb.readIndexInt d < 2 ^ k := by
  rw [h.readIndexInt_eq]
  obtain ⟨h0, h1⟩ := h.readIndex_mem d
  constructor
  · exact Int.floor_nonneg.mpr h0
  · rw [Int.floor_lt]
    push_cast
    exact h1

theorem WellFormed.readIndexNext_eq {cb : CircularBuffer α} {k : Nat} (h : cb.WellFormed k)
    (d : α) : cb.readIndexNext d = ((cb.readIndexInt d).toNat + 1) % 2 ^ k := by
  obtain ⟨h0, h1⟩ := h.readIndexInt_mem d
  obtain ⟨hk, -, hmask, -, -⟩ := h
  have h2 := two_pow_lt_of_lt_32 k hk
  unfold readIndexNext
  rw [hmask, Nat.and_pow_two_sub_one_eq_mod]
  congr 1
  unfold u32
  have h3 : ((2 : Int) ^ k) < 2 ^ 32 := by exact_mod_cast h2
  omega

theorem WellFormed.readIndexNext_lt {cb : CircularBuffer α} {k : Nat} (h : cb.WellFormed k)
    (d : α) : cb.readIndexNext d < 2 ^ k := by
  rw [h.readIndexNext_eq]
  exact Nat.mod_lt _ h.length_pos

theorem clampedDelay_idem (cb : CircularBuffer α) (d : α) :
    cb.clampedDelay (cb.clampedDelay d) = cb.clampedDelay d := by
  have h0 : (0 : α) ≤ ((u32 ((cb.bufferLength : Int) - 1) : Nat) : α) := Nat.cast_nonneg _
  obtain ⟨h1, h2⟩ := jlimit_mem 0 ((u32 ((cb.bufferLength : Int) - 1) : Nat) : α) d h0
  exact jlimit_of_mem _ _ _ h1 h2

theorem readBuffer_clampedDelay (cb : CircularBuffer α) (d : α) :
    cb.readBuffer (cb.clampedDelay d) = cb.readBuffer d := by
  have h : cb.readIndex (cb.clampedDelay d) = cb.readIndex d := by
    unfold readIndex
    rw [clampedDelay_idem]
  simp only [readBuffer, readIndexInt, frac, readIndexNext, h]

theorem WellFormed.readBuffer_eq {cb : CircularBuffer α} {k : Nat} (h : cb.WellFormed k)
    (d : α) : ∃ a b, cb.buffer[(cb.readIndexInt d).toNat]? = some a ∧
      cb.buffer[cb.readIndexNext d]? = some b ∧
      cb.readBuffer d = some (a * (1 - cb.frac d) + b * cb.frac d) := by
  obtain ⟨h0, h1⟩ := h.readIndexInt_mem d
  have h2 := h.readIndexNext_lt d
  have hlen : cb.buffer.length = 2 ^ k := h.2.2.2.2
  have hi : (cb.readIndexInt d).toNat < cb.buffer.length := by
    rw [hlen]
    have : ((2 : Int) ^ k) = ((2 ^ k : Nat) : Int) := by push_cast; rfl
    omega
  have hn : cb.readIndexNext d < cb.buffer.length := by rw [hlen]; exact h2
  refine ⟨cb.buffer[(cb.readIndexInt d).toNat], cb.buffer[cb.readIndexNext d], ?_, ?_, ?_⟩
  · exact List.getElem?_eq_getElem hi
  · exact List.getElem?_eq_getElem hn
  · unfold readBuffer
    rw [if_pos h0, List.getElem?_eq_getElem hi, List.getElem?_eq_getElem hn]

/-- C4: for a well-formed buffer of power-of-two length (write index inside
the array) and every requested delay, `readBuffer` works on the delay clamped
to `[0, bufferLength - 1]`, both indices it loads from lie in
`[0, bufferLength)`, and the read succeeds (no load is out of bounds). -/
theorem readBuffer_in_bounds (cb : CircularBuffer α) (k : Nat) (h : cb.WellFormed k) (d : α) :
    cb.clampedDelay d = jlimit 0 ((cb.bufferLength : α) - 1) d ∧
    (0 ≤ cb.clampedDelay d ∧ cb.clampedDelay d ≤ (cb.bufferLength : α) - 1) ∧
    cb.readBuffer d = cb.readBuffer (cb.clampedDelay d) ∧
    (0 ≤ cb.readIndexInt d ∧ cb.readIndexInt d < cb.bufferLength) ∧
    cb.readIndexNext d < cb.bufferLength ∧
    (cb.readBuffer d).isSome = true := by
  have hN : (cb.bufferLength : α) = (2 : α) ^ k := by rw [h.2.1]; push_cast; rfl
  have hNi : (cb.bufferLength : Int) = (2 : Int) ^ k := by rw [h.2.1]; push_cast; rfl
  refine ⟨?_, ?_, ?_, ?_, ?_, ?_⟩
  · rw [hN]; exact h.clampedDelay_eq d
  · rw [hN]; exact h.clampedDelay_mem d
  · exact (readBuffer_clampedDelay cb d).symm
  · rw [hNi]; exact h.readIndexInt_mem d
  · rw [h.2.1]; exact h.readIndexNext_lt d
  · obtain ⟨a, b, -, -, hr⟩ := h.readBuffer_eq d
    rw [hr]; rfl

/-- The float read index for an integer delay `d ≤ bufferLength - 1`. -/
theorem WellFormed.readIndex_natCast {cb : CircularBuffer α} {k : Nat} (h : cb.WellFormed k)
    (d : Nat) (hd : d ≤ 2 ^ k - 1) :
    cb.readIndex (d : α) = (((cb.writeIndex + 2 ^ k - d) % 2 ^ k : Nat) : α) := by
  have hpos : 0 < 2 ^ k := h.length_pos
  have hw : cb.writeIndex < 2 ^ k := h.2.2.2.1
  have hN : (cb.bufferLength : α) = ((2 ^ k : Nat) : α) := by rw [h.2.1]
  have hc : cb.clampedDelay (d : α) = d := by
    rw [h.clampedDelay_eq]
    apply jlimit_of_mem
    · exact Nat.cast_nonneg _
    · have : ((d : Nat) : α) ≤ ((2 ^ k - 1 : Nat) : α) := Nat.cast_le.mpr hd
      rw [Nat.cast_sub hpos] at this
      push_cast at this
      exact this
  unfold readIndex
  simp only [hc]
  generalize 2 ^ k = N at *
  by_cases hwd : d ≤ cb.writeIndex
  · have h1 : ¬ ((cb.writeIndex : α) - (d : α) < 0) := by
      have : ((d : Nat) : α) ≤ cb.writeIndex := Nat.cast_le.mpr hwd
      linarith
    rw [if_neg h1]
    have h2 : (cb.writeIndex + N - d) % N = cb.writeIndex - d := by
      have : cb.writeIndex + N - d = (cb.writeIndex - d) + N := by omega
      rw [this, Nat.add_mod_right, Nat.mod_eq_of_lt (by omega)]
    rw [h2, Nat.cast_sub hwd]
  · have hlt : cb.writeIndex < d := not_le.mp hwd
    have h1 : (cb.writeIndex : α) - (d : α) < 0 := by
      have : ((cb.writeIndex : Nat) : α) < d := Nat.cast_lt.mpr hlt
      linarith
    rw [if_pos h1, hN]
    have h2 : (cb.writeIndex + N - d) % N = cb.writeIndex + N - d :=
      Nat.mod_eq_of_lt (by omega)
    rw [h2, Nat.cast_sub (by omega)]
    push_cast
    ring

/-- An integer delay reads one stored sample, with no interpolation. -/
theorem WellFormed.readBuffer_natCast {cb : CircularBuffer α} {k : Nat} (h : cb.WellFormed k)
    (d : Nat) (hd : d ≤ 2 ^ k - 1) :
    cb.readBuffer (d : α) = cb.buffer[(cb.writeIndex + 2 ^ k - d) % 2 ^ k]? := by
  obtain ⟨a, b, ha, -, hr⟩ := h.readBuffer_eq (d : α)
  have hidx : cb.readIndexInt (d : α) = (((cb.writeIndex + 2 ^ k - d) % 2 ^ k : Nat) : Int) := by
    rw [h.readIndexInt_eq, h.readIndex_natCast d hd, Int.floor_natCast]
  have hfrac : cb.frac (d : α) = 0 := by
    unfold frac
    rw [hidx, h.readIndex_natCast d hd, Int.cast_natCast]
    ring
  rw [hidx, Int.toNat_natCast] at ha
  rw [hr, hfrac, ha]
  congr 1
  ring

theorem mod_cases (x N : Nat) (hx : x < 2 * N) :
    (x < N ∧ x % N = x) ∨ (N ≤ x ∧ x % N = x - N) := by
  by_cases h : x < N
  · exact Or.inl ⟨h, Nat.mod_eq_of_lt h⟩
  · right
    refine ⟨not_lt.mp h, ?_⟩
    have h1 : x = (x - N) + N := by omega
    rw [h1, Nat.add_mod_right, Nat.mod_eq_of_lt (by omega)]
    omega

/-- The effect of `writeBuffer` on a well-formed buffer: the slot at the write
index is overwritten and the index advances modulo the length. -/
theorem WellFormed.writeBuffer_eq {cb : CircularBuffer α} {k : Nat} (h : cb.WellFormed k)
    (x : α) :
    cb.writeBuffer x = some
      { buffer := cb.buffer.set cb.writeIndex x
        writeIndex := (cb.writeIndex + 1) % 2 ^ k
        bufferLength := cb.bufferLength
        wrapMask := cb.wrapMask } := by
  obtain ⟨hk, hlen, hmask, hw, hbuf⟩ := h
  have h2 := two_pow_lt_of_lt_32 k hk
  unfold writeBuffer
  rw [if_pos (by rw [hbuf]; exact hw)]
  have h3 : u32 ((cb.writeIndex : Int) + 1) = cb.writeIndex + 1 := by
    have := u32_natCast_of_lt (cb.writeIndex + 1) (by omega)
    push_cast at this
    exact this
  rw [h3, hmask, Nat.and_pow_two_sub_one_eq_mod]

theorem WellFormed.after_write {cb : CircularBuffer α} {k : Nat} (h : cb.WellFormed k)
    (x : α) :
    WellFormed
      ({ buffer := cb.buffer.set cb.writeIndex x
         writeIndex := (cb.writeIndex + 1) % 2 ^ k
         bufferLength := cb.bufferLength
         wrapMask := cb.wrapMask } : CircularBuffer α) k := by
  obtain ⟨hk, hlen, hmask, hw, hbuf⟩ := h
  refine ⟨hk, hlen, hmask, Nat.mod_lt _ (Nat.pos_pow_of_pos k (by decide)), ?_⟩
  simp only [List.length_set]
  exact hbuf

theorem ImpulseState.read {w0 k n : Nat} {cb : CircularBuffer α}
    (h : ImpulseState w0 k n cb) (d : Nat) (hd1 : 1 ≤ d) (hd2 : d ≤ 2 ^ k - 1) :
    cb.readBuffer (d : α) = some (if n = d then 1 else 0) := by
  obtain ⟨hwf, hw0, hw, hbuf⟩ := h
  have hpos : 0 < 2 ^ k := hwf.length_pos
  rw [hwf.readBuffer_natCast d hd2, hbuf _ (Nat.mod_lt _ hpos), hw]
  congr 1
  generalize 2 ^ k = N at *
  by_cases hn : 1 ≤ n ∧ n ≤ N
  · have hlt : (w0 + n) % N < N := Nat.mod_lt _ hpos
    rcases mod_cases (w0 + n) N (by omega) with ⟨h1, h2⟩ | ⟨h1, h2⟩ <;>
    rcases mod_cases ((w0 + n) % N + N - d) N (by omega) with ⟨h3, h4⟩ | ⟨h3, h4⟩
    all_goals
      rw [h4, h2]
      rw [h2] at h3
      by_cases hnd : n = d
      · rw [if_pos hnd, if_pos ⟨hn.1, hn.2, by omega⟩]
      · rw [if_neg hnd, if_neg (by omega)]
  · have hnd : n ≠ d := by omega
    rw [if_neg hnd, if_neg (fun hc => hn ⟨hc.1, hc.2.1⟩)]

theorem ImpulseState.write {w0 k n : Nat} {cb : CircularBuffer α}
    (h : ImpulseState w0 k n cb) :
    ∃ cb1, cb.writeBuffer (if n = 0 then 1 else 0) = some cb1 ∧ ImpulseState w0 k (n + 1) cb1 := by
  obtain ⟨hwf, hw0, hw, hbuf⟩ := h
  have hpos : 0 < 2 ^ k := hwf.length_pos
  refine ⟨_, hwf.writeBuffer_eq _, hwf.after_write _, hw0, ?_, ?_⟩
  · simp only
    rw [hw, Nat.mod_add_mod, Nat.add_assoc]
  · intro j hj
    simp only
    rw [List.getElem?_set, hbuf j hj, hw]
    have hlen : cb.buffer.length = 2 ^ k := hwf.2.2.2.2
    have hwi : cb.writeIndex < 2 ^ k := hwf.2.2.2.1
    rw [hlen]
    generalize 2 ^ k = N at *
    by_cases hn0 : n = 0
    · subst hn0
      have hmod : (w0 + 0) % N = w0 := by rw [Nat.add_zero, Nat.mod_eq_of_lt hw0]
      rw [hmod]
      by_cases hjw : w0 = j
      · rw [if_pos hjw, if_pos hw0, if_pos rfl, if_pos ⟨by omega, by omega, hjw.symm⟩]
      · rw [if_neg hjw, if_neg (by omega), if_neg (by omega)]
    · rw [if_neg hn0]
      by_cases hjw : (w0 + n) % N = j
      · rw [if_pos hjw, if_pos (by omega)]
        congr 1
        rw [if_neg]
        rintro ⟨-, h2, h3⟩
        rcases mod_cases (w0 + n) N (by omega) with ⟨h4, h5⟩ | ⟨h4, h5⟩ <;> omega
      · rw [if_neg hjw]
        congr 1
        by_cases hc : 1 ≤ n ∧ n ≤ N ∧ j = w0
        · rw [if_pos hc]
          have hnN : n ≠ N := by
            intro hnN
            apply hjw
            rw [hnN, Nat.add_mod_right, Nat.mod_eq_of_lt hw0, hc.2.2]
          rw [if_pos ⟨by omega, by omega, hc.2.2⟩]
        · rw [if_neg hc, if_neg (by omega)]

theorem ImpulseState.drive {w0 k : Nat} (d : Nat) (hd1 : 1 ≤ d) (hd2 : d ≤ 2 ^ k - 1)
    (len : Nat) : ∀ (n : Nat) (cb : CircularBuffer α), ImpulseState w0 k n cb →
      ∃ ys cb1, CircularBuffer.drive (d : α) cb (unitImpulseFrom n len) = some (ys, cb1) ∧
        ys.length = len ∧ ∀ i, i < len → ys[i]? = some (if n + i = d then 1 else 0) := by
  induction len with
  | zero =>
    intro n cb _
    exact ⟨[], cb, rfl, rfl, fun i hi => absurd hi (Nat.not_lt_zero i)⟩
  | succ len ih =>
    intro n cb h
    obtain ⟨cb1, hwr, h1⟩ := h.write
    obtain ⟨ys, cb2, hdr, hlen, hys⟩ := ih (n + 1) cb1 h1
    refine ⟨(if n = d then 1 else 0) :: ys, cb2, ?_, ?_, ?_⟩
    · have hl : (unitImpulseFrom n (len + 1) : List α)
          = (if n = 0 then 1 else 0) :: unitImpulseFrom (n + 1) len := by
        simp [unitImpulseFrom, List.range'_succ]
      rw [hl]
      simp only [CircularBuffer.drive, readThenWrite, h.read d hd1 hd2, hwr, hdr]
    · simp [hlen]
    · intro i hi
      cases i with
      | zero => simp
      | succ i =>
        rw [List.getElem?_cons_succ, hys i (by omega),
          show n + 1 + i = n + (i + 1) by omega]

/-- C1: a buffer of power-of-two length whose content is all zero, driven in
read-before-write order with the unit impulse (`x_0 = 1`, `x_n = 0` after) at
an integer delay `d` with `1 ≤ d ≤ bufferLength - 1`, returns `1` at step
`n = d` and `0` at every other step, for runs of every length. -/
theorem impulse_round_trip (cb : CircularBuffer α) (k : Nat) (h : cb.WellFormed k)
    (hz : cb.buffer = List.replicate cb.bufferLength 0)
    (d : Nat) (hd1 : 1 ≤ d) (hd2 : d ≤ cb.bufferLength - 1) (len : Nat) :
    ∃ ys cb1, cb.drive (d : α) (unitImpulseFrom 0 len) = some (ys, cb1) ∧
      ys.length = len ∧ ∀ n, n < len → ys[n]? = some (if n = d then 1 else 0) := by
  rw [h.2.1] at hd2 hz
  have hst : ImpulseState cb.writeIndex k 0 cb := by
    refine ⟨h, h.2.2.2.1, ?_, ?_⟩
    · rw [Nat.add_zero, Nat.mod_eq_of_lt h.2.2.2.1]
    · intro j hj
      rw [hz, List.getElem?_replicate, if_pos hj, if_neg (by omega)]
  obtain ⟨ys, cb1, h1, h2, h3⟩ := ImpulseState.drive d hd1 hd2 len 0 cb hst
  refine ⟨ys, cb1, h1, h2, fun n hn => ?_⟩
  rw [h3 n hn, Nat.zero_add]

/-- C3 (amended): on a well-formed buffer `writeBuffer x` succeeds, and right
after it, for a length of at least two, `readBuffer 0` returns the sample that
was already stored at the new write index (the oldest one, untouched by the
write) while `readBuffer 1` returns `x`; `readBuffer 0` returns `x` when the
length is one. -/
theorem readBuffer_after_write (cb : CircularBuffer α) (k : Nat) (h : cb.WellFormed k)
    (x : α) :
    ∃ cb1, cb.writeBuffer x = some cb1 ∧
      (1 ≤ k → cb1.readBuffer 0 = cb.buffer[(cb.writeIndex + 1) % 2 ^ k]? ∧
        cb1.readBuffer 1 = some x) ∧
      (k = 0 → cb1.readBuffer 0 = some x) := by
  have hpos : 0 < 2 ^ k := h.length_pos
  have hw : cb.writeIndex < 2 ^ k := h.2.2.2.1
  have hlen : cb.buffer.length = 2 ^ k := h.2.2.2.2
  have h1 := h.after_write x
  refine ⟨_, h.writeBuffer_eq x, ?_, ?_⟩
  · intro hk
    have hN : 2 ≤ 2 ^ k := by
      calc 2 = 2 ^ 1 := rfl
        _ ≤ 2 ^ k := Nat.pow_le_pow_right (by decide) hk
    have hr0 := h1.readBuffer_natCast 0 (Nat.zero_le _)
    have hr1 := h1.readBuffer_natCast 1 (by omega)
    rw [Nat.cast_zero] at hr0
    rw [Nat.cast_one] at hr1
    rw [hr0, hr1]
    simp only [Nat.sub_zero, Nat.add_mod_right, Nat.mod_mod, List.getElem?_set, hlen]
    generalize 2 ^ k = N at *
    rcases mod_cases (cb.writeIndex + 1) N (by omega) with ⟨h2, h3⟩ | ⟨h2, h3⟩
    · rw [h3, if_neg (by omega)]
      refine ⟨rfl, ?_⟩
      have h4 : (cb.writeIndex + 1 + N - 1) % N = cb.writeIndex := by
        rw [show cb.writeIndex + 1 + N - 1 = cb.writeIndex + N by omega, Nat.add_mod_right,
          Nat.mod_eq_of_lt hw]
      rw [h4, if_pos rfl, if_pos hw]
    · rw [h3, if_neg (by omega)]
      refine ⟨rfl, ?_⟩
      have h4 : (cb.writeIndex + 1 - N + N - 1) % N = cb.writeIndex := by
        rw [show cb.writeIndex + 1 - N + N - 1 = cb.writeIndex by omega, Nat.mod_eq_of_lt hw]
      rw [h4, if_pos rfl, if_pos hw]
  · intro hk
    subst hk
    have hr0 := h1.readBuffer_natCast 0 (Nat.zero_le _)
    rw [Nat.cast_zero] at hr0
    rw [hr0]
    have hw0 : cb.writeIndex = 0 := by simpa using hw
    simp only [List.getElem?_set, hlen, hw0]
    simp

end CircularBuffer

/-! ## The Source variant -/

theorem real_tanh_lt_one (x : ℝ) : Real.tanh x < 1 := by
  rw [Real.tanh_eq_sinh_div_cosh, div_lt_one (Real.cosh_pos x)]
  exact Real.sinh_lt_cosh x

namespace LinearSmoothedValue

variable {α : Type} [LinearOrderedField α] [FloorRing α]

theorem getNextValue_target (s : LinearSmoothedValue α) :
    s.getNextValue.2.target = s.target := by
  unfold getNextValue
  split_ifs <;> rfl

end LinearSmoothedValue

namespace Source

variable {α δ ω : Type} [LinearOrderedField α] [FloorRing α]

theorem tapeSample_targets (M : MathFns α) (DL : DelayLineOps δ α) (P : Params α) (c : Nat)
    (st : Processor δ ω α) (x w f : α) :
    (tapeSample M DL P c st x w f).1.targets = st.targets := by
  simp only [tapeSample, Processor.targets, LinearSmoothedValue.getNextValue_target]

theorem tapeLoop_targets (M : MathFns α) (DL : DelayLineOps δ α) (P : Params α) (c : Nat)
    (xs : List α) : ∀ (st : Processor δ ω α) (ws fs : List α),
      (tapeLoop M DL P c st xs ws fs).1.targets = st.targets := by
  induction xs with
  | nil => intro st ws fs; simp only [tapeLoop]
  | cons x xs ih =>
    intro st ws fs
    cases ws with
    | nil => simp only [tapeLoop]
    | cons w ws =>
      cases fs with
      | nil => simp only [tapeLoop]
      | cons f fs =>
        simp only [tapeLoop]
        rw [ih, tapeSample_targets]

theorem tapeSection_targets (M : MathFns α) (DL : DelayLineOps δ α) (O : OscillatorOps ω α)
    (P : Params α) (st : Processor δ ω α) (buffer : List α × List α) :
    (tapeSection M DL O P st buffer).1.targets = st.targets := by
  simp only [tapeSection]
  rw [tapeLoop_targets, tapeLoop_targets]
  rfl

theorem reverbSection_targets (DL : DelayLineOps δ α) (P : Params α) (st : Processor δ ω α)
    (buffer : List α × List α) :
    (reverbSection DL P st buffer).1.targets = st.targets := by
  simp only [reverbSection, Processor.targets, LinearSmoothedValue.getNextValue_target]

theorem psychedelicLoop_targets (M : MathFns α) (rnd : Nat → α) (xs : List α) :
    ∀ st : Processor δ ω α, (psychedelicLoop M rnd st xs).1.targets = st.targets := by
  induction xs with
  | nil => intro st; rfl
  | cons x xs ih =>
    intro st
    simp only [psychedelicLoop]
    rw [ih]
    rfl

/-- No call of `processBlock` moves a smoother target. -/
theorem processBlock_targets (M : MathFns α) (DL : DelayLineOps δ α) (O : OscillatorOps ω α)
    (rnd : Nat → α) (P : Params α) (st : Processor δ ω α) (buffer : List α × List α) :
    (processBlock M DL O rnd P st buffer).1.targets = st.targets := by
  cases hT : P.tapeDelayOnOff <;> cases hR : P.reverbOnOff <;> cases hP : P.psychedelicMode <;>
    simp only [processBlock, hT, hR, hP, if_true, if_false, Bool.false_eq_true,
      psychedelicLoop_targets, reverbSection_targets, tapeSection_targets] <;>
    simp only [Processor.targets, LinearSmoothedValue.getNextValue_target]

theorem prepareToPlay_targets (M : MathFns α) (DL : DelayLineOps δ α) (O : OscillatorOps ω α)
    (P : Params α) (st : Processor δ ω α) (sampleRate : α) (samplesPerBlock : Nat) :
    (prepareToPlay M DL O P st sampleRate samplesPerBlock).targets = P.smoothed := by
  rfl

/-- With the three toggles off `processBlock` returns the block it was given. -/
theorem processBlock_all_off (M : MathFns α) (DL : DelayLineOps δ α) (O : OscillatorOps ω α)
    (rnd : Nat → α) (P : Params α) (st : Processor δ ω α) (buffer : List α × List α)
    (h1 : P.tapeDelayOnOff = false) (h2 : P.reverbOnOff = false)
    (h3 : P.psychedelicMode = false) :
    (processBlock M DL O rnd P st buffer).2 = buffer := by
  simp [processBlock, h1, h2, h3]

/-- C6 (amended): with tape delay and reverb off and psychedelic mode off as
well, `processBlock` leaves every sample of both channels equal to its input value. -/
theorem processBlock_bypass (M : MathFns α) (DL : DelayLineOps δ α) (O : OscillatorOps ω α)
    (rnd : Nat → α) (P : Params α) (st : Processor δ ω α) (buffer : List α × List α)
    (h1 : P.tapeDelayOnOff = false) (h2 : P.reverbOnOff = false)
    (h3 : P.psychedelicMode = false) :
    (processBlock M DL O rnd P st buffer).2.1 = buffer.1 ∧
    (processBlock M DL O rnd P st buffer).2.2 = buffer.2 := by
  rw [processBlock_all_off M DL O rnd P st buffer h1 h2 h3]
  exact ⟨rfl, rfl⟩

/-- C7 (the code at the failing input, for every input): after `prepareToPlay`
with the control values `P0`, a `processBlock` call under any other control
snapshot `P1` leaves the five smoother targets at the values of `P0`. -/
theorem processBlock_ignores_control_change (M : MathFns α) (DL : DelayLineOps δ α)
    (O : OscillatorOps ω α) (rnd : Nat → α) (P0 P1 : Params α) (st : Processor δ ω α)
    (sampleRate : α) (samplesPerBlock : Nat) (buffer : List α × List α) :
    (processBlock M DL O rnd P1 (prepareToPlay M DL O P0 st sampleRate samplesPerBlock)
      buffer).1.targets = P0.smoothed := by
  rw [processBlock_targets, prepareToPlay_targets]

/-- C8 (the code): the tail that `getTailLengthSeconds` reports, 2 seconds, is
below the 3 seconds of delay that `prepareToPlay` sizes the buffers for and
that the `DelayTime` range reaches. -/
theorem tail_below_max_delay :
    (getTailLengthSeconds : ℚ) < maxDelaySeconds ∧
    (getTailLengthSeconds : ℚ) < delayTimeMaxMs / 1000 := by
  unfold getTailLengthSeconds maxDelaySeconds delayTimeMaxMs
  constructor <;> norm_num

/-- C10: both saturation shapes are odd over the reals: `softClip (-x) = -softClip x`
and `tubeWarmth (-x, drive) = -tubeWarmth (x, drive)` for all real `x` and `drive`. -/
theorem saturation_odd (x drive : ℝ) :
    softClip realMath (-x) = -softClip realMath x ∧
    tubeWarmth realMath (-x) drive = -tubeWarmth realMath x drive := by
  constructor
  · unfold softClip
    simp only [realMath, neg_neg]
    rcases lt_trichotomy x 0 with h | h | h
    · rw [if_pos (by linarith : -x > 0), if_neg (by linarith : ¬ x > 0)]
      ring
    · subst h
      simp
    · rw [if_neg (by linarith : ¬ -x > 0), if_pos h]
      ring
  · unfold tubeWarmth
    simp only [realMath, abs_neg]
    rcases lt_trichotomy x 0 with h | h | h
    · rw [if_neg (by linarith : ¬ -x < 0), if_pos h]
      ring
    · subst h
      simp
    · rw [if_pos (by linarith : -x < 0), if_neg (by linarith : ¬ x < 0)]
      ring

end Source

/-! ## The OLDVERSION variant: the impulse scenario -/

namespace LinearSmoothedValue
variable {α : Type} [LinearOrderedField α] [FloorRing α]

theorem Steady.getNextValue {v : α} {s : LinearSmoothedValue α} (h : Steady v s) :
    s.getNextValue = (v, s) := by
  unfold LinearSmoothedValue.getNextValue
  rw [if_pos (by rw [h.1]; decide), h.2]

theorem steady_setCurrentAndTargetValue (s : LinearSmoothedValue α) (v : α) :
    Steady v (s.setCurrentAndTargetValue v) :=
  ⟨rfl, rfl⟩

end LinearSmoothedValue

namespace OldVersion
open LinearSmoothedValue

theorem scenarioA0_eq : scenarioA0 realMath
    = (1 + Real.cos (2 * Real.pi * firstCutoff / 44100)) / 4 := by
  unfold scenarioA0
  simp only [realMath]
  have : (1 + Real.cos (2 * Real.pi * firstCutoff / 44100)) * (1 / 2)
        + (1 - Real.cos (2 * Real.pi * firstCutoff / 44100))
        + (1 + Real.cos (2 * Real.pi * firstCutoff / 44100)) * (1 / 2) = 2 := by ring
  rw [this]
  ring

theorem scenarioA0_mem : 0 ≤ scenarioA0 realMath ∧ scenarioA0 realMath ≤ 1 / 2 := by
  rw [scenarioA0_eq]
  have h1 := Real.neg_one_le_cos (2 * Real.pi * firstCutoff / 44100)
  have h2 := Real.cos_le_one (2 * Real.pi * firstCutoff / 44100)
  constructor <;> linarith

theorem secondEcho_mem : 0 ≤ secondEcho realMath ∧ secondEcho realMath ≤ 5411 / 35280 := by
  unfold secondEcho
  obtain ⟨h1, h2⟩ := scenarioA0_mem
  constructor
  · positivity
  · nlinarith

/-- The cosine of the filter angle `2 * pi * firstCutoff / 44100` (about 0.907 of `pi`). -/
theorem scenario_cos_le : Real.cos (2 * Real.pi * firstCutoff / 44100) ≤ -(19 / 20) := by
  have hω : 2 * Real.pi * (firstCutoff : ℝ) / 44100
      = Real.pi - Real.pi * (18145 / 194481) := by
    unfold firstCutoff
    ring
  rw [hω, Real.cos_pi_sub]
  have h1 := Real.one_sub_sq_div_two_le_cos (x := Real.pi * (18145 / 194481))
  have h2 := Real.pi_lt_d2
  have h3 := Real.pi_pos
  have h4 : (Real.pi * (18145 / 194481)) ^ 2 ≤ 1 / 10 := by nlinarith
  linarith

theorem secondEcho_le : secondEcho realMath ≤ 1 / 250 := by
  have h := scenario_cos_le
  unfold secondEcho
  rw [scenarioA0_eq]
  nlinarith

theorem delaySamples_scenario (w f : ℝ) :
    delaySamples scenarioParams 44100 100 w f = ((4410 : Nat) : ℝ) := by
  unfold delaySamples
  simp only [scenarioParams, mul_zero, zero_mul, add_zero, mul_one]
  rw [jlimit_of_mem _ _ _ (by norm_num) (by norm_num)]
  norm_num

theorem update_noop (f : LowPassFilter ℝ) (h : f.smoothedFreq.target = 4000) :
    f.update realMath 20000 = f := by
  unfold LowPassFilter.update
  have h1 : jlimit (200 : ℝ) 4000 20000 = 4000 := by
    unfold jlimit
    norm_num
  rw [h1, LinearSmoothedValue.getTargetValue, h]
  simp

theorem silenceDetect_zero (counter : Int) (fade : LinearSmoothedValue ℝ) :
    silenceDetect counter fade 0
      = (counter + 1, if counter > 1000 then fade.setTargetValue 0 else fade) := by
  unfold silenceDetect
  rw [if_pos (by norm_num)]

theorem feedbackGain_scenario (sf fade : LinearSmoothedValue ℝ) (h : Steady (1 / 2) sf) :
    feedbackGain scenarioParams sf fade
      = (1 / 2 * fade.getNextValue.1, sf, fade.getNextValue.2) := by
  unfold feedbackGain
  rw [if_neg (by simp [scenarioParams]), h.getNextValue]

/-- The loop body on a silent sample, for a channel whose delay smoother is at
rest on 100 ms and whose filter target is already 4000 Hz. -/
theorem tapeSampleChannel_silent (w f : ℝ) (sf : LinearSmoothedValue ℝ) (ch : Channel ℝ)
    (hsf : Steady (1 / 2) sf) (hwf : ch.delayBuffer.WellFormed 17)
    (hd : Steady 100 ch.smoothedDelayTime) (hf : ch.feedbackFilter.smoothedFreq.target = 4000)
    (y : ℝ) (hy : ch.delayBuffer.buffer[(ch.delayBuffer.writeIndex + 2 ^ 17 - 4410) % 2 ^ 17]?
      = some y) :
    tapeSampleChannel realMath scenarioParams 44100 w f sf ch 0 = some
      ({ ch with
          delayBuffer :=
            { buffer := ch.delayBuffer.buffer.set ch.delayBuffer.writeIndex
                (jlimit (-1) 1 (0 + (ch.feedbackFilter.process realMath y).1
                  * (1 / 2 * (if ch.silenceCounter > 1000 then ch.feedbackFade.setTargetValue 0
                      else ch.feedbackFade).getNextValue.1)))
              writeIndex := (ch.delayBuffer.writeIndex + 1) % 2 ^ 17
              bufferLength := ch.delayBuffer.bufferLength
              wrapMask := ch.delayBuffer.wrapMask }
          feedbackFilter := (ch.feedbackFilter.process realMath y).2
          feedbackFade := (if ch.silenceCounter > 1000 then ch.feedbackFade.setTargetValue 0
              else ch.feedbackFade).getNextValue.2
          silenceCounter := ch.silenceCounter + 1
          wowPhase := advancePhase realMath ch.wowPhase scenarioParams.wowRate 44100
          flutterPhase := advancePhase realMath ch.flutterPhase scenarioParams.flutterRate 44100 },
        sf, y) := by
  have hread : ch.delayBuffer.readBuffer ((4410 : Nat) : ℝ) = some y := by
    rw [hwf.readBuffer_natCast 4410 (by norm_num), hy]
  have hu : ch.feedbackFilter.update realMath scenarioParams.filterFreq = ch.feedbackFilter :=
    update_noop _ hf
  unfold tapeSampleChannel
  simp only [hd.getNextValue, delaySamples_scenario, hread, hu,
    silenceDetect_zero, feedbackGain_scenario _ _ hsf, hwf.writeBuffer_eq]

theorem realMath_isfinite (x : ℝ) : realMath.isfinite x = true := rfl

theorem process_zero_state (f : LowPassFilter ℝ) (h1 : f.x1 = 0) (h2 : f.x2 = 0)
    (h3 : f.y1 = 0) (h4 : f.y2 = 0) :
    f.process realMath 0 = (0, f) := by
  unfold LowPassFilter.process
  simp only [realMath_isfinite, h1, h2, h3, h4, mul_zero, add_zero, sub_zero, if_true]
  rw [jlimit_of_mem _ _ _ (by norm_num) (by norm_num)]
  congr 1
  cases f
  simp_all

theorem process_one_zero_state (f : LowPassFilter ℝ) (h0 : f.a0 = scenarioA0 realMath)
    (h1 : f.x1 = 0) (h2 : f.x2 = 0) (h3 : f.y1 = 0) (h4 : f.y2 = 0) :
    (f.process realMath 1).1 = scenarioA0 realMath := by
  unfold LowPassFilter.process
  simp only [realMath_isfinite, h0, h1, h2, h3, h4, mul_zero, add_zero, sub_zero, if_true,
    mul_one]
  obtain ⟨ha, hb⟩ := scenarioA0_mem
  exact jlimit_of_mem _ _ _ (by linarith) (by linarith)

theorem process_smoothedFreq (f : LowPassFilter ℝ) (x : ℝ) :
    (f.process realMath x).2.smoothedFreq = f.smoothedFreq := by
  simp only [LowPassFilter.process, realMath_isfinite, if_true]

/-- The first call of `update` in the scenario: the one recomputation of the coefficients. -/
theorem update_first (f : LowPassFilter ℝ) (hsr : f.sampleRate = 44100)
    (ht : f.smoothedFreq.target = 20000) (hc : f.smoothedFreq.currentValue = 20000)
    (hs : f.smoothedFreq.stepsToTarget = 2205) :
    (f.update realMath 20000).a0 = scenarioA0 realMath ∧
    (f.update realMath 20000).smoothedFreq.target = 4000 ∧
    (f.update realMath 20000).x1 = f.x1 ∧ (f.update realMath 20000).x2 = f.x2 ∧
    (f.update realMath 20000).y1 = f.y1 ∧ (f.update realMath 20000).y2 = f.y2 := by
  have h1 : jlimit (200 : ℝ) 4000 20000 = 4000 := by
    unfold jlimit
    norm_num
  have e : f.smoothedFreq.setTargetValue 4000
      = { f.smoothedFreq with
          target := 4000, countdown := f.smoothedFreq.stepsToTarget
          step := (4000 - f.smoothedFreq.currentValue) / (f.smoothedFreq.stepsToTarget : ℝ) } := by
    unfold LinearSmoothedValue.setTargetValue
    rw [if_neg (by rw [ht]; norm_num), if_neg (by rw [hs]; norm_num)]
  have key : f.update realMath 20000
      = LowPassFilter.setCoefficients realMath
          { f with
            smoothedFreq :=
              { f.smoothedFreq with
                target := 4000, countdown := 2205 - 1
                step := (4000 - 20000) / ((2205 : Int) : ℝ)
                currentValue := 20000 + (4000 - 20000) / ((2205 : Int) : ℝ) } }
          (20000 + (4000 - 20000) / ((2205 : Int) : ℝ)) := by
    unfold LowPassFilter.update
    rw [h1, LinearSmoothedValue.getTargetValue, ht, if_pos (by norm_num), e]
    unfold LinearSmoothedValue.getNextValue
    simp only [hs, hc]
    rw [if_neg (by norm_num), if_pos (by norm_num)]
  rw [key]
  refine ⟨?_, rfl, rfl, rfl, rfl, rfl⟩
  simp only [LowPassFilter.setCoefficients, hsr]
  unfold scenarioA0 firstCutoff
  norm_num

theorem echoInput_of_ne {n : Nat} (h : n ≠ 4410) : (echoInput n : ℝ) = 0 := by
  unfold echoInput
  rw [if_neg h]

/-- The filter of the scenario after its first step: the one recomputation of
the coefficients has taken place, and the registers are still zero. -/
theorem echoFilterState_one :
    echoFilterState realMath 1 = (LowPassFilter.prepared 44100 20000).update realMath 20000 := by
  have hs : (LowPassFilter.prepared (44100 : ℝ) 20000).smoothedFreq.stepsToTarget = 2205 := by
    show ⌊(5 / 100 : ℝ) * 44100⌋ = 2205
    rw [Int.floor_eq_iff]; norm_num
  obtain ⟨-, -, hx1, hx2, hy1, hy2⟩ :=
    update_first (LowPassFilter.prepared (44100 : ℝ) 20000) rfl rfl rfl hs
  show (((LowPassFilter.prepared (44100 : ℝ) 20000).update realMath 20000).process realMath
    (echoInput 0)).2 = _
  rw [echoInput_of_ne (by norm_num),
    process_zero_state _ (hx1.trans rfl) (hx2.trans rfl) (hy1.trans rfl) (hy2.trans rfl)]

/-- From the first step on the filter target is 4000 Hz, and until the first
echo is read the registers stay zero and `a0` is the coefficient of the one
recomputation. -/
theorem echoFilterState_quiet (n : Nat) (hn : 1 ≤ n) :
    (echoFilterState realMath n).smoothedFreq.target = 4000 ∧
      (n ≤ 4410 → (echoFilterState realMath n).a0 = scenarioA0 realMath ∧
        (echoFilterState realMath n).x1 = 0 ∧ (echoFilterState realMath n).x2 = 0 ∧
        (echoFilterState realMath n).y1 = 0 ∧ (echoFilterState realMath n).y2 = 0) := by
  induction n with
  | zero => omega
  | succ n ih =>
    by_cases h0 : n = 0
    · subst h0
      have hs : (LowPassFilter.prepared (44100 : ℝ) 20000).smoothedFreq.stepsToTarget = 2205 := by
        show ⌊(5 / 100 : ℝ) * 44100⌋ = 2205
        rw [Int.floor_eq_iff]; norm_num
      obtain ⟨ha, ht, hx1, hx2, hy1, hy2⟩ :=
        update_first (LowPassFilter.prepared (44100 : ℝ) 20000) rfl rfl rfl hs
      rw [echoFilterState_one]
      exact ⟨ht, fun _ => ⟨ha, hx1.trans rfl, hx2.trans rfl, hy1.trans rfl, hy2.trans rfl⟩⟩
    · obtain ⟨ht, hq⟩ := ih (by omega)
      have hstep : echoFilterState realMath (n + 1)
          = ((echoFilterState realMath n).process realMath (echoInput n)).2 := by
        show (((echoFilterState realMath n).update realMath 20000).process realMath
          (echoInput n)).2 = _
        rw [update_noop _ ht]
      rw [hstep]
      refine ⟨by rw [process_smoothedFreq]; exact ht, ?_⟩
      intro hle
      obtain ⟨ha, hx1, hx2, hy1, hy2⟩ := hq (by omega)
      rw [echoInput_of_ne (by omega), process_zero_state _ hx1 hx2 hy1 hy2]
      exact ⟨ha, hx1, hx2, hy1, hy2⟩

/-- From the first step on `update (20000)` changes nothing, so a step of the
filter is `process` alone. -/
theorem echoFilter_step (n : Nat) (hn : 1 ≤ n) :
    echoFilterState realMath (n + 1)
        = ((echoFilterState realMath n).process realMath (echoInput n)).2 ∧
      echoFilterOut realMath n
        = ((echoFilterState realMath n).process realMath (echoInput n)).1 := by
  have ht := (echoFilterState_quiet n hn).1
  constructor
  · show (((echoFilterState realMath n).update realMath 20000).process realMath
      (echoInput n)).2 = _
    rw [update_noop _ ht]
  · show (((echoFilterState realMath n).update realMath 20000).process realMath
      (echoInput n)).1 = _
    rw [update_noop _ ht]

/-- The filter output is clamped to `[-1, 1]`. -/
theorem echoFilterOut_abs_le (n : Nat) : |echoFilterOut realMath n| ≤ 1 := by
  unfold echoFilterOut LowPassFilter.process
  simp only [realMath_isfinite, if_true]
  rw [abs_le]
  exact jlimit_mem _ _ _ (by norm_num)

/-- Before the first echo is read the filter returns 0. -/
theorem echoFilterOut_quiet (n : Nat) (h1 : 1 ≤ n) (h2 : n < 4410) :
    echoFilterOut realMath n = 0 := by
  obtain ⟨-, hx1, hx2, hy1, hy2⟩ := (echoFilterState_quiet n h1).2 (by omega)
  rw [(echoFilter_step n h1).2, echoInput_of_ne (by omega),
    process_zero_state _ hx1 hx2 hy1 hy2]

/-- The first sample of the second echo: the first filter tap. -/
theorem echoFilterOut_first : echoFilterOut realMath 4410 = scenarioA0 realMath := by
  obtain ⟨ha, hx1, hx2, hy1, hy2⟩ := (echoFilterState_quiet 4410 (by norm_num)).2 le_rfl
  rw [(echoFilter_step 4410 (by norm_num)).2]
  have : (echoInput 4410 : ℝ) = 1 := by unfold echoInput; rw [if_pos rfl]
  rw [this]
  exact process_one_zero_state _ ha hx1 hx2 hy1 hy2

/-- The stored sample is within the feedback gain of the step. -/
theorem echoWritten_abs_le (j : Nat) (h1 : 4410 ≤ j) (h2 : j < 8820) :
    |echoWritten realMath j| ≤ 5411 / 17640 := by
  unfold echoWritten
  have h := echoFilterOut_abs_le j
  have hj1 : (4410 : ℝ) ≤ (j : ℝ) := by exact_mod_cast h1
  have hj2 : (j : ℝ) < 8820 := by exact_mod_cast h2
  have hg0 : (0 : ℝ) ≤ 1 / 2 * ((9821 - (j : ℝ)) / 8820) := by
    apply mul_nonneg (by norm_num)
    apply div_nonneg _ (by norm_num)
    linarith
  have hg1 : 1 / 2 * ((9821 - (j : ℝ)) / 8820) ≤ 5411 / 17640 := by
    rw [show (5411 / 17640 : ℝ) = 1 / 2 * (5411 / 8820) by norm_num]
    apply mul_le_mul_of_nonneg_left _ (by norm_num)
    apply div_le_div_of_nonneg_right _ (by norm_num)
    linarith
  rw [abs_mul, abs_of_nonneg hg0]
  calc |echoFilterOut realMath j| * (1 / 2 * ((9821 - (j : ℝ)) / 8820))
      ≤ 1 * (1 / 2 * ((9821 - (j : ℝ)) / 8820)) := mul_le_mul_of_nonneg_right h hg0
    _ ≤ 5411 / 17640 := by rw [one_mul]; exact hg1

/-- The value that the fade smoother returns at sample `n` of the scenario, and the smoother after it. -/
theorem FadeInv.fade_step {n : Nat} {fade : LinearSmoothedValue ℝ} (h : FadeInv n fade)
    (hn1 : 1 ≤ n) (hn2 : n ≤ 9000) :
    FadeInv (n + 1)
      (if ((n : Int) - 1) > 1000 then fade.setTargetValue 0 else fade).getNextValue.2 ∧
    (1002 ≤ n → (if ((n : Int) - 1) > 1000 then fade.setTargetValue 0
      else fade).getNextValue.1 = (9821 - (n : ℝ)) / 8820) := by
  obtain ⟨hs, ha, hb⟩ := h
  by_cases hc : n ≤ 1001
  · obtain ⟨h1, h2, h3⟩ := ha (by omega)
    rw [if_neg (by omega)]
    have hst : Steady 1 fade := ⟨h1, h2⟩
    rw [hst.getNextValue]
    refine ⟨⟨hs, fun _ => ⟨h1, h2, h3⟩, fun hlt => absurd hlt (by omega)⟩, fun h => by omega⟩
  · by_cases hc2 : n = 1002
    · subst hc2
      obtain ⟨h1, h2, h3⟩ := ha (le_refl _)
      rw [if_pos (by norm_num)]
      have e : fade.setTargetValue 0
          = { fade with target := 0, countdown := 8820, step := (0 - 1) / ((8820 : Int) : ℝ) } := by
        unfold LinearSmoothedValue.setTargetValue
        rw [if_neg (by rw [h2]; norm_num), if_neg (by rw [hs]; norm_num), hs, h3]
      rw [e]
      unfold LinearSmoothedValue.getNextValue
      simp only
      rw [if_neg (by norm_num), if_pos (by norm_num)]
      refine ⟨⟨hs, fun hle => absurd hle (by norm_num), fun _ => ⟨rfl, by norm_num, ?_, by norm_num⟩⟩,
        fun _ => ?_⟩
      · simp only [h3]
        norm_num
      · simp only [h3]
        norm_num
    · obtain ⟨h1, h2, h3, h4⟩ := hb (by omega)
      have e : (if ((n : Int) - 1) > 1000 then fade.setTargetValue 0 else fade) = fade := by
        rw [if_pos (by omega)]
        unfold LinearSmoothedValue.setTargetValue
        rw [if_pos h1.symm]
      rw [e]
      unfold LinearSmoothedValue.getNextValue
      rw [if_neg (by rw [h2]; omega), if_pos (by rw [h2]; omega)]
      simp only
      refine ⟨⟨hs, fun hle => absurd hle (by omega), fun _ => ⟨h1, ?_, ?_, h4⟩⟩, ?_⟩
      · show fade.countdown - 1 = 9822 - ((n + 1 : Nat) : Int)
        rw [h2]
        push_cast
        omega
      · rw [h3, h4]
        push_cast
        ring
      · intro _
        rw [h3, h4]
        ring

/-- One silent sample of the scenario on a channel that has taken `n ≥ 1` samples. -/
theorem ChanInv.silent_step {n : Nat} {ch : Channel ℝ} (h : ChanInv n ch) (hn1 : 1 ≤ n)
    (hn2 : n + 1 < 2 ^ 17) (w f : ℝ) (sf : LinearSmoothedValue ℝ) (hsf : Steady (1 / 2) sf) :
    ∃ ch1 y, tapeSampleChannel realMath scenarioParams 44100 w f sf ch 0 = some (ch1, sf, y) ∧
      ChanInv (n + 1) ch1 ∧ Expected n y := by
  obtain ⟨hwf, hw, hb1, hb2, hb3, hd, hft, hlow⟩ := h
  have hlen : ch.delayBuffer.buffer.length = 2 ^ 17 := hwf.2.2.2.2
  have hidx : (n + 2 ^ 17 - 4410) % 2 ^ 17 < ch.delayBuffer.buffer.length := by
    rw [hlen]; omega
  obtain ⟨y, hy⟩ : ∃ y, ch.delayBuffer.buffer[(n + 2 ^ 17 - 4410) % 2 ^ 17]? = some y :=
    ⟨_, List.getElem?_eq_getElem hidx⟩
  have hy0 : n < 4410 → y = 0 := by
    intro hlt
    have := hb2 ((n + 2 ^ 17 - 4410) % 2 ^ 17) (by omega) (by omega) (Or.inr (by omega))
    rw [this] at hy
    exact (Option.some.inj hy).symm
  have hy1 : n = 4410 → y = 1 := by
    intro he
    have e : (n + 2 ^ 17 - 4410) % 2 ^ 17 = 0 := by omega
    rw [e, hb1] at hy
    exact (Option.some.inj hy).symm
  have hy2 : 4410 < n → n < 8820 → y = 0 := by
    intro hgt hlt
    have := hb2 ((n + 2 ^ 17 - 4410) % 2 ^ 17) (by omega) (by omega) (Or.inl (by omega))
    rw [this] at hy
    exact (Option.some.inj hy).symm
  have hy3 : 8820 ≤ n → n < 13230 → y = echoWritten realMath (n - 4410) := by
    intro hge hlt
    have e : (n + 2 ^ 17 - 4410) % 2 ^ 17 = n - 4410 := by omega
    rw [e, hb3 (n - 4410) (by omega) (by omega) (by omega)] at hy
    exact (Option.some.inj hy).symm
  have hyin : n < 8820 → y = echoInput n := by
    intro hlt
    unfold echoInput
    by_cases he : n = 4410
    · rw [if_pos he]; exact hy1 he
    · rw [if_neg he]
      rcases Nat.lt_or_gt_of_ne he with h1 | h1
      · exact hy0 h1
      · exact hy2 h1 hlt
  have hstep := tapeSampleChannel_silent w f sf ch hsf hwf hd hft y (by rw [hw]; exact hy)
  refine ⟨_, y, hstep, ?_, ⟨hy0, hy1, hy2, hy3⟩⟩
  have hwf1 := hwf.after_write (jlimit (-1) 1 (0 + (ch.feedbackFilter.process realMath y).1
    * (1 / 2 * (if ch.silenceCounter > 1000 then ch.feedbackFade.setTargetValue 0
        else ch.feedbackFade).getNextValue.1)))
  -- what the step stores while the filter and the fade are tracked
  have hstore : n < 8820 →
      jlimit (-1) 1 (0 + (ch.feedbackFilter.process realMath y).1
        * (1 / 2 * (if ch.silenceCounter > 1000 then ch.feedbackFade.setTargetValue 0
            else ch.feedbackFade).getNextValue.1))
        = if n < 4410 then 0 else echoWritten realMath n := by
    intro hlt
    obtain ⟨hfil, hc, hfade⟩ := hlow (by omega)
    rw [hfil, hyin hlt, ← (echoFilter_step n hn1).2, hc]
    by_cases hq : n < 4410
    · rw [if_pos hq, echoFilterOut_quiet n hn1 hq]
      simp only [zero_mul, add_zero]
      exact jlimit_of_mem _ _ _ (by norm_num) (by norm_num)
    · rw [if_neg hq, (hfade.fade_step hn1 (by omega)).2 (by omega), zero_add]
      have hb := echoWritten_abs_le n (by omega) hlt
      have hb2 := abs_le.mp hb
      show jlimit (-1) 1 (echoWritten realMath n) = echoWritten realMath n
      exact jlimit_of_mem _ _ _ (by linarith [hb2.1]) (by linarith [hb2.2])
  refine ⟨hwf1, ?_, ?_, ?_, ?_, hd, ?_, ?_⟩
  · show (ch.delayBuffer.writeIndex + 1) % 2 ^ 17 = n + 1
    rw [hw]; omega
  · show (ch.delayBuffer.buffer.set ch.delayBuffer.writeIndex _)[0]? = some 1
    rw [List.getElem?_set, hw, if_neg (by omega)]
    exact hb1
  · intro j hj1 hj2 hj3
    show (ch.delayBuffer.buffer.set ch.delayBuffer.writeIndex _)[j]? = some 0
    rw [List.getElem?_set, hw, hlen]
    by_cases hjn : n = j
    · rw [if_pos hjn, if_pos (by omega)]
      have hn : n < 4410 := by omega
      rw [hstore (by omega), if_pos hn]
    · rw [if_neg hjn]
      exact hb2 j hj1 hj2 (by omega)
  · intro j hj1 hj2 hj3
    show (ch.delayBuffer.buffer.set ch.delayBuffer.writeIndex _)[j]? = some _
    rw [List.getElem?_set, hw, hlen]
    by_cases hjn : n = j
    · rw [if_pos hjn, if_pos (by omega)]
      rw [hstore (by omega), if_neg (by omega), hjn]
    · rw [if_neg hjn]
      exact hb3 j hj1 (by omega) hj3
  · show (ch.feedbackFilter.process realMath y).2.smoothedFreq.target = 4000
    rw [process_smoothedFreq]
    exact hft
  · intro hle
    obtain ⟨hfil, hc, hfade⟩ := hlow (by omega)
    show (ch.feedbackFilter.process realMath y).2 = echoFilterState realMath (n + 1) ∧
      ch.silenceCounter + 1 = ((n + 1 : Nat) : Int) - 1 ∧
      FadeInv (n + 1) (if ch.silenceCounter > 1000 then ch.feedbackFade.setTargetValue 0
        else ch.feedbackFade).getNextValue.2
    rw [hfil, hyin (by omega), ← (echoFilter_step n hn1).1, hc]
    exact ⟨rfl, by push_cast; ring, (hfade.fade_step hn1 (by omega)).1⟩

theorem silenceDetect_one (counter : Int) (fade : LinearSmoothedValue ℝ) (h : fade.target = 1) :
    silenceDetect counter fade 1 = (0, fade) := by
  unfold silenceDetect
  rw [if_neg (by norm_num)]
  unfold LinearSmoothedValue.setTargetValue
  rw [if_pos h.symm]

/-- The first sample of the scenario (the impulse) on a freshly prepared channel. -/
theorem ChanInit.first_step {ch : Channel ℝ} (h : ChanInit ch)
    (hfil : ch.feedbackFilter = LowPassFilter.prepared 44100 20000) (w f : ℝ)
    (sf : LinearSmoothedValue ℝ) (hsf : Steady (1 / 2) sf) :
    ∃ ch1, tapeSampleChannel realMath scenarioParams 44100 w f sf ch 1 = some (ch1, sf, 0) ∧
      ChanInv 1 ch1 := by
  obtain ⟨hwf, hw, hz, hd, hsr, hft, hfc, hfs, hx1, hx2, hx3, hx4, hc, hfade⟩ := h
  have hlen : ch.delayBuffer.buffer.length = 2 ^ 17 := hwf.2.2.2.2
  have hread : ch.delayBuffer.readBuffer ((4410 : Nat) : ℝ) = some 0 := by
    rw [hwf.readBuffer_natCast 4410 (by norm_num), hz _ (by omega)]
  obtain ⟨hf1, hf2, hf3⟩ := hfade
  obtain ⟨hfa, hfb, hfcur⟩ := hf2 (by norm_num)
  have hfst : Steady 1 ch.feedbackFade := ⟨hfa, hfb⟩
  obtain ⟨hu0, hut, hux1, hux2, hux3, hux4⟩ := update_first ch.feedbackFilter hsr hft hfc hfs
  have hproc := process_zero_state (ch.feedbackFilter.update realMath 20000)
    (hux1.trans hx1) (hux2.trans hx2) (hux3.trans hx3) (hux4.trans hx4)
  have hu : ch.feedbackFilter.update realMath scenarioParams.filterFreq
      = ch.feedbackFilter.update realMath 20000 := rfl
  have hval : jlimit (-1 : ℝ) 1 (1 + 0 * (1 / 2 * 1)) = 1 := by
    rw [jlimit_of_mem _ _ _ (by norm_num) (by norm_num)]
    norm_num
  have hstep : tapeSampleChannel realMath scenarioParams 44100 w f sf ch 1 = some
      ({ ch with
          delayBuffer :=
            { buffer := ch.delayBuffer.buffer.set ch.delayBuffer.writeIndex 1
              writeIndex := (ch.delayBuffer.writeIndex + 1) % 2 ^ 17
              bufferLength := ch.delayBuffer.bufferLength
              wrapMask := ch.delayBuffer.wrapMask }
          feedbackFilter := ch.feedbackFilter.update realMath 20000
          silenceCounter := 0
          wowPhase := advancePhase realMath ch.wowPhase scenarioParams.wowRate 44100
          flutterPhase := advancePhase realMath ch.flutterPhase scenarioParams.flutterRate 44100 },
        sf, 0) := by
    unfold tapeSampleChannel
    simp only [hd.getNextValue, delaySamples_scenario, hread, hu, hproc,
      silenceDetect_one _ _ hfb, feedbackGain_scenario _ _ hsf, hfst.getNextValue, hval,
      hwf.writeBuffer_eq]
  refine ⟨_, hstep, ?_⟩
  have hwf1 := hwf.after_write (1 : ℝ)
  refine ⟨hwf1, ?_, ?_, ?_, ?_, hd, hut, ?_⟩
  · show (ch.delayBuffer.writeIndex + 1) % 2 ^ 17 = 1
    rw [hw]
    norm_num
  · show (ch.delayBuffer.buffer.set ch.delayBuffer.writeIndex 1)[0]? = some 1
    rw [List.getElem?_set, hw, if_pos rfl, if_pos (by omega)]
  · intro j hj1 hj2 _
    show (ch.delayBuffer.buffer.set ch.delayBuffer.writeIndex 1)[j]? = some 0
    rw [List.getElem?_set, hw, if_neg (by omega)]
    exact hz j hj2
  · intro j hj1 hj2 _
    omega
  · intro _
    refine ⟨?_, by show (0 : Int) = ((1 : Nat) : Int) - 1; norm_num, hf1,
      fun _ => ⟨hfa, hfb, hfcur⟩, fun hlt => absurd hlt (by norm_num)⟩
    show ch.feedbackFilter.update realMath 20000 = echoFilterState realMath 1
    rw [echoFilterState_one, hfil]

theorem ChanState.sample_step {n : Nat} {ch : Channel ℝ} (h : ChanState n ch)
    (hn2 : n + 1 < 2 ^ 17) (w f : ℝ) (sf : LinearSmoothedValue ℝ) (hsf : Steady (1 / 2) sf) :
    ∃ ch1 y, tapeSampleChannel realMath scenarioParams 44100 w f sf ch (impulseAt n)
        = some (ch1, sf, y) ∧ ChanState (n + 1) ch1 ∧ Expected n y := by
  rcases h with ⟨h0, hinit, hfil⟩ | ⟨h1, hinv⟩
  · subst h0
    obtain ⟨ch1, he, hi⟩ := hinit.first_step hfil w f sf hsf
    refine ⟨ch1, 0, he, Or.inr ⟨le_refl _, hi⟩, fun _ => rfl, fun h => by omega,
      fun h => by omega, fun h => by omega⟩
  · obtain ⟨ch1, y, he, hi, hy⟩ := hinv.silent_step h1 hn2 w f sf hsf
    refine ⟨ch1, y, ?_, Or.inr ⟨by omega, hi⟩, hy⟩
    rw [impulseAt, if_neg (by omega)]
    exact he

theorem get2_set2 {β : Type} (p : β × β) (c : Nat) (x : β) : get2 (set2 p c x) c = x := by
  unfold get2 set2
  split_ifs <;> rfl

theorem set2_set2 {β : Type} (p : β × β) (c : Nat) (x y : β) :
    set2 (set2 p c x) c y = set2 p c y := by
  unfold set2
  split_ifs <;> rfl

theorem set2_get2 {β : Type} (p : β × β) (c : Nat) : set2 p c (get2 p c) = p := by
  unfold get2 set2
  split_ifs <;> rfl

theorem chanState_set2 {k : Nat × Nat} {chs : Channel ℝ × Channel ℝ}
    (h : ∀ c, ChanState (get2 k c) (get2 chs c)) (c : Nat) (n : Nat) (ch : Channel ℝ)
    (hc : ChanState n ch) : ∀ c1, ChanState (get2 (set2 k c n) c1) (get2 (set2 chs c ch) c1) := by
  intro c1
  have h1 := h c1
  unfold get2 set2 at *
  by_cases hc0 : c = 0 <;> by_cases hc1 : c1 = 0 <;> simp_all

variable {ω : Type}

theorem Good.tapeSample (O : OscillatorOps ω ℝ) (c : Nat) {k : Nat × Nat} {st : Processor ω ℝ}
    (h : Good k st) (hn : get2 k c + 1 < 2 ^ 17) :
    ∃ st1 y, tapeSample realMath O scenarioParams c st (impulseAt (get2 k c)) = some (st1, y) ∧
      Good (set2 k c (get2 k c + 1)) st1 ∧ Expected (get2 k c) y := by
  obtain ⟨hsr, hsf, hdw, hch⟩ := h
  obtain ⟨ch1, y, he, hi, hy⟩ := (hch c).sample_step hn (O.processSample st.wowOscillator 0).1
    (O.processSample st.flutterOscillator 0).1 st.smoothedFeedback hsf
  have hstep : OldVersion.tapeSample realMath O scenarioParams c st (impulseAt (get2 k c))
      = some
        ({ st with
            channels := set2 st.channels c ch1
            smoothedFeedback := st.smoothedFeedback
            wowOscillator := (O.processSample st.wowOscillator 0).2
            flutterOscillator := (O.processSample st.flutterOscillator 0).2 }, y) := by
    unfold OldVersion.tapeSample
    simp only [hsr, he]
  exact ⟨_, y, hstep, ⟨hsr, hsf, hdw, chanState_set2 hch c _ ch1 hi⟩, hy⟩

theorem unitImpulseFrom_succ (n len : Nat) :
    (unitImpulseFrom n (len + 1) : List ℝ) = impulseAt n :: unitImpulseFrom (n + 1) len := by
  simp [unitImpulseFrom, List.range'_succ, impulseAt]

theorem unitImpulseFrom_length (n len : Nat) :
    (unitImpulseFrom n len : List ℝ).length = len := by
  simp [unitImpulseFrom]

theorem Good.tapeLoop (O : OscillatorOps ω ℝ) (c : Nat) (len : Nat) :
    ∀ (k : Nat × Nat) (st : Processor ω ℝ), Good k st → get2 k c + len < 2 ^ 17 →
      ∃ st1 ys, tapeLoop realMath O scenarioParams c st (unitImpulseFrom (get2 k c) len)
          = some (st1, ys) ∧
        Good (set2 k c (get2 k c + len)) st1 ∧ ys.length = len ∧
        ∀ i, i < len → ∃ y, ys[i]? = some y ∧ Expected (get2 k c + i) y := by
  induction len with
  | zero =>
    intro k st h _
    refine ⟨st, [], rfl, ?_, rfl, fun i hi => absurd hi (Nat.not_lt_zero i)⟩
    rw [Nat.add_zero, set2_get2]
    exact h
  | succ len ih =>
    intro k st h hn
    obtain ⟨st1, y, he, hg, hy⟩ := h.tapeSample O c (by omega)
    obtain ⟨st2, ys, he2, hg2, hlen, hys⟩ := ih _ st1 hg (by rw [get2_set2]; omega)
    rw [get2_set2] at he2 hys
    rw [set2_set2, get2_set2] at hg2
    refine ⟨st2, y :: ys, ?_, ?_, by simp [hlen], ?_⟩
    · rw [unitImpulseFrom_succ]
      simp only [OldVersion.tapeLoop, he, he2]
    · rw [show get2 k c + (len + 1) = get2 k c + 1 + len by omega]
      exact hg2
    · intro i hi
      cases i with
      | zero => exact ⟨y, List.getElem?_cons_zero, hy⟩
      | succ i =>
        obtain ⟨y1, h1, h2⟩ := hys i (by omega)
        refine ⟨y1, by rw [List.getElem?_cons_succ]; exact h1, ?_⟩
        rw [show get2 k c + (i + 1) = get2 k c + 1 + i by omega]
        exact h2

theorem mixLoop_full_wet (s : LinearSmoothedValue ℝ) (hs : Steady 1 s) :
    ∀ (xs ds : List ℝ), xs.length = ds.length → mixLoop s xs ds = (s, ds) := by
  intro xs
  induction xs with
  | nil =>
    intro ds h
    cases ds with
    | nil => rfl
    | cons d ds => simp at h
  | cons x xs ih =>
    intro ds h
    cases ds with
    | nil => simp at h
    | cons d ds =>
      simp only [mixLoop, hs.getNextValue]
      rw [ih ds (by simpa using h)]
      simp

/-- One block of the scenario, both channels carrying samples `n, ..., n + len - 1` of the impulse. -/
theorem Good.processBlock (O : OscillatorOps ω ℝ) (n len : Nat) (st : Processor ω ℝ)
    (h : Good (n, n) st) (hn : n + len < 2 ^ 17) :
    ∃ st1 ysL ysR, processBlock realMath O scenarioParams st
        (unitImpulseFrom n len, unitImpulseFrom n len) = some (st1, (ysL, ysR)) ∧
      Good (n + len, n + len) st1 ∧ ysL.length = len ∧ ysR.length = len ∧
      (∀ i, i < len → ∃ y, ysL[i]? = some y ∧ Expected (n + i) y) ∧
      (∀ i, i < len → ∃ y, ysR[i]? = some y ∧ Expected (n + i) y) := by
  obtain ⟨st1, ysL, he1, hg1, hl1, hy1⟩ := Good.tapeLoop O 0 len (n, n) st h hn
  obtain ⟨st2, ysR, he2, hg2, hl2, hy2⟩ := Good.tapeLoop O 1 len _ st1 hg1 hn
  have e0 : get2 (n, n) 0 = n := rfl
  have e1 : get2 (set2 (n, n) 0 (get2 (n, n) 0 + len)) 1 = n := rfl
  have e2 : set2 (set2 (n, n) 0 (get2 (n, n) 0 + len)) 1
      (get2 (set2 (n, n) 0 (get2 (n, n) 0 + len)) 1 + len) = (n + len, n + len) := rfl
  rw [e0] at he1 hy1
  rw [e1] at he2 hy2
  rw [e2] at hg2
  have hm1 := mixLoop_full_wet st2.smoothedDryWet hg2.2.2.1 (unitImpulseFrom n len) ysL
    (by rw [unitImpulseFrom_length, hl1])
  have hm2 := mixLoop_full_wet st2.smoothedDryWet hg2.2.2.1 (unitImpulseFrom n len) ysR
    (by rw [unitImpulseFrom_length, hl2])
  have hp : OldVersion.processBlock realMath O scenarioParams st
      (unitImpulseFrom n len, unitImpulseFrom n len)
      = some ({ st2 with smoothedDryWet := st2.smoothedDryWet }, (ysL, ysR)) := by
    have ht : (scenarioParams : Params ℝ).tapeDelayOnOff = true := rfl
    have hr : (scenarioParams : Params ℝ).reverbOnOff = false := rfl
    unfold OldVersion.processBlock OldVersion.tapeSection
    simp only [ht, hr, if_true, he1, he2, hm1, hm2, Bool.false_eq_true, if_false]
  exact ⟨_, ysL, ysR, hp, hg2, hl1, hl2, hy1, hy2⟩

theorem impulseBlocks_succ (size first count : Nat) :
    (impulseBlocks size first (count + 1) : List (List ℝ × List ℝ))
      = (unitImpulseFrom (first * size) size, unitImpulseFrom (first * size) size)
        :: impulseBlocks size (first + 1) count := rfl

/-- A run of `count` blocks of the scenario starting at block `first`. -/
theorem Good.runBlocks (O : OscillatorOps ω ℝ) (size count : Nat) :
    ∀ (first : Nat) (st : Processor ω ℝ), Good (first * size, first * size) st →
      (first + count) * size < 2 ^ 17 →
      ∃ st1 ysL ysR, runBlocks realMath O scenarioParams st (impulseBlocks size first count)
          = some (st1, (ysL, ysR)) ∧
        ysL.length = count * size ∧ ysR.length = count * size ∧
        (∀ i, i < count * size → ∃ y, ysL[i]? = some y ∧ Expected (first * size + i) y) ∧
        (∀ i, i < count * size → ∃ y, ysR[i]? = some y ∧ Expected (first * size + i) y) := by
  induction count with
  | zero =>
    intro first st _ _
    refine ⟨st, [], [], rfl, by simp, by simp, ?_, ?_⟩ <;>
    · intro i hi
      simp at hi
  | succ count ih =>
    intro first st h hn
    have hn1 : first * size + size < 2 ^ 17 := by
      have : (first + (count + 1)) * size = first * size + size + count * size := by ring
      omega
    obtain ⟨st1, yL, yR, he1, hg1, hl1, hr1, hy1, hz1⟩ :=
      Good.processBlock O (first * size) size st h hn1
    have e : first * size + size = (first + 1) * size := by ring
    rw [e] at hg1
    obtain ⟨st2, ysL, ysR, he2, hl2, hr2, hy2, hz2⟩ := ih (first + 1) st1 hg1 (by
      rw [show first + 1 + count = first + (count + 1) by omega]; exact hn)
    refine ⟨st2, yL ++ ysL, yR ++ ysR, ?_, ?_, ?_, ?_, ?_⟩
    · rw [impulseBlocks_succ]
      simp only [OldVersion.runBlocks, he1, he2]
    · rw [List.length_append, hl1, hl2]; ring
    · rw [List.length_append, hr1, hr2]; ring
    · intro i hi
      by_cases hlt : i < size
      · rw [List.getElem?_append_left (by rw [hl1]; exact hlt)]
        exact hy1 i hlt
      · rw [List.getElem?_append_right (by rw [hl1]; omega), hl1]
        have hi2 : i - size < count * size := by
          have : (count + 1) * size = count * size + size := by ring
          omega
        obtain ⟨y, h1, h2⟩ := hy2 (i - size) hi2
        refine ⟨y, h1, ?_⟩
        rw [show first * size + i = (first + 1) * size + (i - size) by
          rw [← e]; omega]
        exact h2
    · intro i hi
      by_cases hlt : i < size
      · rw [List.getElem?_append_left (by rw [hr1]; exact hlt)]
        exact hz1 i hlt
      · rw [List.getElem?_append_right (by rw [hr1]; omega), hr1]
        have hi2 : i - size < count * size := by
          have : (count + 1) * size = count * size + size := by ring
          omega
        obtain ⟨y, h1, h2⟩ := hz2 (i - size) hi2
        refine ⟨y, h1, ?_⟩
        rw [show first * size + i = (first + 1) * size + (i - size) by
          rw [← e]; omega]
        exact h2

theorem truncToInt_natCast (n : Nat) : truncToInt ((n : Nat) : ℝ) = n := by
  rw [truncToInt_of_nonneg _ (Nat.cast_nonneg n), Int.floor_natCast]

theorem nextPowerOfTwo_88200 : CircularBuffer.nextPowerOfTwo 88200 = 2 ^ 17 := by
  have h : Nat.clog 2 88200 = 17 := by
    apply le_antisymm
    · exact (Nat.le_pow_iff_clog_le (by decide)).mp (by norm_num)
    · exact (Nat.pow_lt_iff_lt_clog (by decide)).mp (by norm_num)
  unfold CircularBuffer.nextPowerOfTwo
  rw [if_neg (by norm_num), h]
  decide

theorem flushBuffer_replicate (n w len mask : Nat) (hn : 0 < n) :
    CircularBuffer.flushBuffer
        ({ buffer := List.replicate n (0 : ℝ), writeIndex := w, bufferLength := len,
           wrapMask := mask } : CircularBuffer ℝ)
      = { buffer := List.replicate len (0 : ℝ), writeIndex := w, bufferLength := len,
          wrapMask := mask } := by
  unfold CircularBuffer.flushBuffer
  have h : (List.replicate n (0 : ℝ)).isEmpty = false := by
    cases n with
    | zero => omega
    | succ m => rfl
  simp only [h, Bool.false_eq_true, if_false]

/-- The delay buffer that `prepareToPlay` creates at 44100 Hz: `2 ^ 17` zero samples. -/
theorem prepared_delayBuffer (cb : CircularBuffer ℝ) :
    ((cb.createCircularBuffer (u32 (truncToInt ((44100 : ℝ) * 2)))).flushBuffer)
      = { buffer := List.replicate (2 ^ 17) (0 : ℝ), writeIndex := 0, bufferLength := 2 ^ 17,
          wrapMask := 2 ^ 17 - 1 } := by
  have h1 : truncToInt ((44100 : ℝ) * 2) = 88200 := by
    have := truncToInt_natCast 88200
    norm_num at this ⊢
    exact this
  have h2 : u32 88200 = 88200 := by decide
  have h3 : u32 (((2 ^ 17 : Nat) : Int) - 1) = 2 ^ 17 - 1 := by decide
  rw [h1, h2]
  unfold CircularBuffer.createCircularBuffer CircularBuffer.createCircularBufferPowerOfTwo
  rw [nextPowerOfTwo_88200, h3, flushBuffer_replicate _ _ _ _ (by norm_num),
    flushBuffer_replicate _ _ _ _ (by norm_num)]

theorem prepared_chanInit :
    ChanInit (Channel.prepare scenarioParams (Channel.construct : Channel ℝ) 44100) := by
  have hb := prepared_delayBuffer (Channel.construct : Channel ℝ).delayBuffer
  have hwf : CircularBuffer.WellFormed
      ({ buffer := List.replicate (2 ^ 17) (0 : ℝ), writeIndex := 0, bufferLength := 2 ^ 17,
         wrapMask := 2 ^ 17 - 1 } : CircularBuffer ℝ) 17 :=
    ⟨by decide, rfl, rfl, by decide, List.length_replicate _ _⟩
  have hf1 : ⌊(5 / 100 : ℝ) * 44100⌋ = 2205 := by
    rw [Int.floor_eq_iff]; norm_num
  have hf2 : ⌊(2 / 10 : ℝ) * 44100⌋ = 8820 := by
    rw [Int.floor_eq_iff]; norm_num
  refine ⟨?_, ?_, ?_, ⟨rfl, rfl⟩, rfl, rfl, rfl, ?_, rfl, rfl, rfl, rfl, rfl, ?_, ?_, ?_⟩
  · show CircularBuffer.WellFormed
      ((Channel.construct : Channel ℝ).delayBuffer.createCircularBuffer
        (u32 (truncToInt ((44100 : ℝ) * 2)))).flushBuffer 17
    rw [hb]; exact hwf
  · show ((Channel.construct : Channel ℝ).delayBuffer.createCircularBuffer
        (u32 (truncToInt ((44100 : ℝ) * 2)))).flushBuffer.writeIndex = 0
    rw [hb]
  · intro j hj
    show ((Channel.construct : Channel ℝ).delayBuffer.createCircularBuffer
        (u32 (truncToInt ((44100 : ℝ) * 2)))).flushBuffer.buffer[j]? = some 0
    rw [hb]
    show (List.replicate (2 ^ 17) (0 : ℝ))[j]? = some 0
    rw [List.getElem?_replicate, if_pos hj]
  · exact hf1
  · exact hf2
  · intro _
    exact ⟨rfl, rfl, rfl⟩
  · intro h
    omega

theorem prepared_good (O : OscillatorOps ω ℝ) (osc0 : ω) :
    Good (0, 0) (prepareToPlay O scenarioParams (Processor.construct osc0) 44100 512) := by
  refine ⟨rfl, ⟨rfl, rfl⟩, ⟨rfl, rfl⟩, ?_⟩
  intro c
  have h : ChanState 0 (Channel.prepare scenarioParams (Channel.construct : Channel ℝ) 44100) :=
    Or.inl ⟨rfl, prepared_chanInit, rfl⟩
  unfold get2
  split_ifs <;> exact h

/-- The scenario run for 18 blocks of 512 samples from a freshly prepared
processor: both channels read `0` up to sample 4409, `1` at sample 4410, `0`
up to sample 8819 and from sample 8820 on what was stored 4410 samples earlier. -/
theorem scenario_outputs (O : OscillatorOps ω ℝ) (osc0 : ω) :
    ∃ st1 ysL ysR, runBlocks realMath O scenarioParams
        (prepareToPlay O scenarioParams (Processor.construct osc0) 44100 512)
        (impulseBlocks 512 0 18) = some (st1, (ysL, ysR)) ∧
      ysL.length = 9216 ∧ ysR.length = 9216 ∧
      (∀ n, n < 9216 → ∃ y, ysL[n]? = some y ∧ Expected n y) ∧
      (∀ n, n < 9216 → ∃ y, ysR[n]? = some y ∧ Expected n y) := by
  obtain ⟨st1, ysL, ysR, he, hl, hr, hy, hz⟩ := Good.runBlocks O 512 18 0
    (prepareToPlay O scenarioParams (Processor.construct osc0) 44100 512)
    (prepared_good O osc0) (by norm_num)
  refine ⟨st1, ysL, ysR, he, hl, hr, ?_, ?_⟩
  · intro n hn
    obtain ⟨y, h1, h2⟩ := hy n hn
    exact ⟨y, h1, by simpa using h2⟩
  · intro n hn
    obtain ⟨y, h1, h2⟩ := hz n hn
    exact ⟨y, h1, by simpa using h2⟩

/-- The first sample of the second echo is the first tap of the feedback filter
times the feedback gain of sample 4410, and it is at most `1/250`. -/
theorem echoWritten_first :
    echoWritten realMath 4410 = secondEcho realMath ∧ secondEcho realMath ≤ 1 / 250 := by
  refine ⟨?_, secondEcho_le⟩
  unfold echoWritten secondEcho
  rw [echoFilterOut_first]
  norm_num

/-- C9 (amended): the OLDVERSION tape loop prepared at 44100 Hz with block size
512, delay 100 ms, feedback 0.5, full wet, wow and flutter depth 0 and cutoff
20000 Hz, fed the unit impulse in 18 blocks: the run succeeds, channel 0 reads
`0` at samples 0..4409, the first echo `1` at sample 4410 and `0` at samples
4411..8819; the second echo starts at sample 8820, and its sample `8820 + k`
(to the end of the run, `k < 396`) is `feedbackSample * feedbackGain` of step
`4410 + k`: the value that the feedback filter returns for the first echo
(`echoFilterOut`, of magnitude at most 1) times the feedback 0.5 times the
fade gain `(5411 - k) / 8820` of the silence fade.  Every sample of the second
echo therefore has magnitude at most `0.5 * 5411 / 8820`, about 0.307 of the
first echo, not about 0.5. -/
theorem impulse_scenario (O : OscillatorOps ω ℝ) (osc0 : ω) :
    ∃ st1 ysL ysR, runBlocks realMath O scenarioParams
        (prepareToPlay O scenarioParams (Processor.construct osc0) 44100 512)
        (impulseBlocks 512 0 18) = some (st1, (ysL, ysR)) ∧
      ysL.length = 9216 ∧
      (∀ n, n < 4410 → ysL[n]? = some 0) ∧
      ysL[4410]? = some 1 ∧
      (∀ n, 4410 < n → n < 8820 → ysL[n]? = some 0) ∧
      (∀ k : Nat, k < 396 → ysL[8820 + k]?
        = some (echoFilterOut realMath (4410 + k) * (1 / 2 * ((5411 - (k : ℝ)) / 8820)))) ∧
      (∀ k : Nat, |echoFilterOut realMath k| ≤ 1) ∧
      (∀ n, 8820 ≤ n → n < 9216 → ∃ y, ysL[n]? = some y ∧ |y| ≤ 5411 / 17640) := by
  obtain ⟨st1, ysL, ysR, he, hl, -, hy, -⟩ := scenario_outputs O osc0
  refine ⟨st1, ysL, ysR, he, hl, ?_, ?_, ?_, ?_, echoFilterOut_abs_le, ?_⟩
  · intro n hn
    obtain ⟨y, h1, h2⟩ := hy n (by omega)
    rw [h1, h2.1 hn]
  · obtain ⟨y, h1, h2⟩ := hy 4410 (by omega)
    rw [h1, h2.2.1 rfl]
  · intro n hn1 hn2
    obtain ⟨y, h1, h2⟩ := hy n (by omega)
    rw [h1, h2.2.2.1 hn1 hn2]
  · intro k hk
    obtain ⟨y, h1, h2⟩ := hy (8820 + k) (by omega)
    rw [h1, h2.2.2.2 (by omega) (by omega)]
    have e : 8820 + k - 4410 = 4410 + k := by omega
    rw [e]
    have e2 : (9821 - ((4410 + k : Nat) : ℝ)) = 5411 - (k : ℝ) := by push_cast; ring
    unfold echoWritten
    rw [e2]
  · intro n hn1 hn2
    obtain ⟨y, h1, h2⟩ := hy n (by omega)
    refine ⟨y, h1, ?_⟩
    rw [h2.2.2.2 hn1 (by omega)]
    exact echoWritten_abs_le _ (by omega) (by omega)

end OldVersion

/-! ## Saturation bounds, buffer creation, the filter output and the phase accumulators -/

namespace Source

/-- C11: both saturation shapes map the real line into the open interval
`(-1, 1)`: `|softClip x| < 1` for every real `x`, and `|tubeWarmth (x, drive)| < 1`
for every real `x` and every `drive ≥ 0`. -/
theorem saturation_bounded (x drive : ℝ) (hdrive : 0 ≤ drive) :
    |softClip realMath x| < 1 ∧ |tubeWarmth realMath x drive| < 1 := by
  constructor
  · unfold softClip
    simp only [realMath]
    split_ifs with hx
    · have h1 : Real.exp (-x) < 1 := by
        rw [← Real.exp_zero]; exact Real.exp_lt_exp.mpr (by linarith)
      have h2 := Real.exp_pos (-x)
      rw [abs_lt]; constructor <;> linarith
    · have h1 : Real.exp x ≤ 1 := by
        rw [← Real.exp_zero]; exact Real.exp_le_exp.mpr (by linarith)
      have h2 := Real.exp_pos x
      rw [abs_lt]; constructor <;> linarith
  · unfold tubeWarmth
    simp only [realMath]
    have ht : -|x| * (1 + drive) ≤ 0 := by
      have := abs_nonneg x
      nlinarith
    have h1 : Real.exp (-|x| * (1 + drive)) ≤ 1 := by
      have h := Real.exp_le_exp.mpr ht
      rwa [Real.exp_zero] at h
    have h2 := Real.exp_pos (-|x| * (1 + drive))
    split_ifs with hx
    · rw [abs_lt]; constructor <;> linarith
    · rw [abs_lt]; constructor <;> linarith

end Source

namespace CircularBuffer

variable {α : Type} [LinearOrderedField α] [FloorRing α]

theorem flushBuffer_of_pos (n w mask : Nat) (hn : 0 < n) :
    flushBuffer
        ({ buffer := List.replicate n (0 : α), writeIndex := w, bufferLength := n,
           wrapMask := mask } : CircularBuffer α)
      = { buffer := List.replicate n (0 : α), writeIndex := w, bufferLength := n,
          wrapMask := mask } := by
  unfold flushBuffer
  have h : (List.replicate n (0 : α)).isEmpty = false := by
    cases n with
    | zero => omega
    | succ m => rfl
  simp only [h, Bool.false_eq_true, if_false]

/-- For a request `L` in `1 .. 2 ^ 31` the exponent `Nat.clog 2 L` is at most
31 and `nextPowerOfTwo L` is the power itself. -/
theorem nextPowerOfTwo_eq (L : Nat) (h1 : 1 ≤ L) (h2 : L ≤ 2 ^ 31) :
    Nat.clog 2 L ≤ 31 ∧ nextPowerOfTwo L = 2 ^ Nat.clog 2 L := by
  have hk : Nat.clog 2 L ≤ 31 := (Nat.le_pow_iff_clog_le (by decide)).mp h2
  refine ⟨hk, ?_⟩
  unfold nextPowerOfTwo
  rw [if_neg (by omega)]
  have hlt : (2 : Nat) ^ Nat.clog 2 L < 2 ^ 32 :=
    Nat.pow_lt_pow_right (by decide) (by omega)
  have := u32_natCast_of_lt (2 ^ Nat.clog 2 L) hlt
  rw [← this]
  push_cast
  rfl

/-- The buffer that `createCircularBuffer (L)` leaves for `1 ≤ L ≤ 2 ^ 31`. -/
theorem createCircularBuffer_eq (cb : CircularBuffer α) (L : Nat) (h1 : 1 ≤ L)
    (h2 : L ≤ 2 ^ 31) :
    cb.createCircularBuffer L
      = { buffer := List.replicate (2 ^ Nat.clog 2 L) 0, writeIndex := 0,
          bufferLength := 2 ^ Nat.clog 2 L, wrapMask := 2 ^ Nat.clog 2 L - 1 } := by
  obtain ⟨hk, hn⟩ := nextPowerOfTwo_eq L h1 h2
  unfold createCircularBuffer createCircularBufferPowerOfTwo
  have hlt : (2 : Nat) ^ Nat.clog 2 L < 2 ^ 32 :=
    Nat.pow_lt_pow_right (by decide) (by omega)
  rw [hn, u32_natCast_sub_one _ (Nat.pow_pos (by decide)) hlt, flushBuffer_of_pos _ _ _ (Nat.pow_pos (by decide))]

theorem createCircularBuffer_wellFormed (cb : CircularBuffer α) (L : Nat) (h1 : 1 ≤ L)
    (h2 : L ≤ 2 ^ 31) :
    (cb.createCircularBuffer L).WellFormed (Nat.clog 2 L) ∧
      ((cb.createCircularBuffer L).flushBuffer).WellFormed (Nat.clog 2 L) := by
  obtain ⟨hk, _⟩ := nextPowerOfTwo_eq L h1 h2
  rw [createCircularBuffer_eq cb L h1 h2, flushBuffer_of_pos _ _ _ (Nat.pow_pos (by decide))]
  exact ⟨⟨by omega, rfl, rfl, Nat.pow_pos (by decide), List.length_replicate _ _⟩,
    ⟨by omega, rfl, rfl, Nat.pow_pos (by decide), List.length_replicate _ _⟩⟩

/-- C20 (amended): for every requested length `L` with `1 ≤ L ≤ 2 ^ 31`,
`createCircularBuffer (L)` leaves the buffer with length `N = 2 ^ k`, the
smallest power of two that is at least `L`, `wrapMask = N - 1`, `writeIndex = 0`
and `N` samples all equal to 0. -/
theorem createCircularBuffer_next_power_of_two (cb : CircularBuffer α) (L : Nat)
    (h1 : 1 ≤ L) (h2 : L ≤ 2 ^ 31) :
    ∃ k, L ≤ 2 ^ k ∧ (∀ m, L ≤ 2 ^ m → 2 ^ k ≤ 2 ^ m) ∧
      cb.createCircularBuffer L
        = { buffer := List.replicate (2 ^ k) 0, writeIndex := 0, bufferLength := 2 ^ k,
            wrapMask := 2 ^ k - 1 } := by
  refine ⟨Nat.clog 2 L, Nat.le_pow_clog (by decide) L, ?_, createCircularBuffer_eq cb L h1 h2⟩
  intro m hm
  exact Nat.pow_le_pow_right (by decide) ((Nat.le_pow_iff_clog_le (by decide)).mp hm)

theorem readBuffer_nil (cb : CircularBuffer α) (d : α) (h : cb.buffer = []) :
    cb.readBuffer d = none := by
  unfold readBuffer
  split_ifs
  · simp [h]
  · rfl

/-- A request of `0`, or one above `2 ^ 31`, leaves a buffer of length 0 without storage. -/
theorem createCircularBuffer_empty (cb : CircularBuffer α) (L : Nat)
    (h : L = 0 ∨ (2 ^ 31 < L ∧ L < 2 ^ 32)) :
    ((cb.createCircularBuffer L).flushBuffer).bufferLength = 0 ∧
      ((cb.createCircularBuffer L).flushBuffer).buffer = [] := by
  have hn : nextPowerOfTwo L = 0 := by
    unfold nextPowerOfTwo
    rcases h with h | ⟨h1, h2⟩
    · rw [if_pos h]
    · have hc : Nat.clog 2 L = 32 := by
        apply le_antisymm
        · exact (Nat.le_pow_iff_clog_le (by decide)).mp (le_of_lt h2)
        · exact (Nat.pow_lt_iff_lt_clog (by decide)).mp h1
      rw [if_neg (by omega), hc]
      decide
  unfold createCircularBuffer createCircularBufferPowerOfTwo
  rw [hn]
  exact ⟨rfl, rfl⟩

end CircularBuffer

namespace OldVersion

variable {α ω : Type} [LinearOrderedField α] [FloorRing α]

theorem truncToInt_nonpos (x : α) (h : x ≤ 0) : truncToInt x ≤ 0 := by
  unfold truncToInt
  split_ifs with h0
  · have : x = 0 := le_antisymm h h0
    rw [this, Int.floor_zero]
  · exact Int.ceil_le.mpr (by simpa using h)

/-- For a sample rate whose doubled truncation lies in `1 .. 2 ^ 31`,
`prepareToPlay` of the OLDVERSION variant leaves each channel with a
well-formed delay buffer of power-of-two length at least
`(int) (sampleRate * 2)`, all zero. -/
theorem prepareToPlay_delay_buffers (O : OscillatorOps ω α) (P : Params α)
    (st : Processor ω α) (sampleRate : α) (samplesPerBlock c : Nat)
    (h1 : 1 ≤ truncToInt (sampleRate * 2)) (h2 : truncToInt (sampleRate * 2) ≤ 2 ^ 31) :
    ∃ k, (get2 (prepareToPlay O P st sampleRate samplesPerBlock).channels c).delayBuffer.WellFormed k
      ∧ truncToInt (sampleRate * 2) ≤ 2 ^ k
      ∧ (get2 (prepareToPlay O P st sampleRate samplesPerBlock).channels c).delayBuffer.buffer
          = List.replicate (2 ^ k) 0 := by
  have hch : ∀ ch : Channel α,
      ∃ k, (Channel.prepare P ch sampleRate).delayBuffer.WellFormed k
        ∧ truncToInt (sampleRate * 2) ≤ 2 ^ k
        ∧ (Channel.prepare P ch sampleRate).delayBuffer.buffer = List.replicate (2 ^ k) 0 := by
    intro ch
    obtain ⟨L, hL⟩ : ∃ L : Nat, truncToInt (sampleRate * 2) = (L : Int) :=
      ⟨(truncToInt (sampleRate * 2)).toNat, by omega⟩
    have hL1 : 1 ≤ L := by omega
    have hL2 : L ≤ 2 ^ 31 := by omega
    have hu : u32 (truncToInt (sampleRate * 2)) = L := by
      rw [hL]; exact u32_natCast_of_lt L (by omega)
    refine ⟨Nat.clog 2 L, ?_, ?_, ?_⟩
    · show ((ch.delayBuffer.createCircularBuffer
          (u32 (truncToInt (sampleRate * 2)))).flushBuffer).WellFormed _
      rw [hu]
      exact (CircularBuffer.createCircularBuffer_wellFormed _ L hL1 hL2).2
    · rw [hL]
      exact_mod_cast Nat.le_pow_clog (by decide) L
    · show ((ch.delayBuffer.createCircularBuffer
          (u32 (truncToInt (sampleRate * 2)))).flushBuffer).buffer = _
      rw [hu, CircularBuffer.createCircularBuffer_eq _ L hL1 hL2,
        CircularBuffer.flushBuffer_of_pos _ _ _ (Nat.pow_pos (by decide))]
  unfold prepareToPlay get2
  split_ifs
  · exact hch st.channels.1
  · exact hch st.channels.2

/-- C12 (the code): `prepareToPlay` of the OLDVERSION variant has no failure
path and tests nothing.  Called with the sample rate 0 it completes and leaves
both channels with a delay buffer of length 0 and no storage, and the next
`processBlock` with tape delay on, on any block with at least one sample in
channel 0, loads outside that buffer on its first sample (the result `none`),
for every oscillator implementation and every control snapshot. -/
theorem prepareToPlay_zero_rate_overrun (M : MathFns α) (O : OscillatorOps ω α) (P : Params α)
    (st : Processor ω α) (samplesPerBlock : Nat) (buffer : List α × List α)
    (htape : P.tapeDelayOnOff = true) (hne : buffer.1 ≠ []) :
    (∀ c, (get2 (prepareToPlay O P st 0 samplesPerBlock).channels c).delayBuffer.bufferLength = 0 ∧
        (get2 (prepareToPlay O P st 0 samplesPerBlock).channels c).delayBuffer.buffer = []) ∧
      (∀ d, (get2 (prepareToPlay O P st 0 samplesPerBlock).channels 0).delayBuffer.readBuffer d
        = none) ∧
      processBlock M O P (prepareToPlay O P st 0 samplesPerBlock) buffer = none := by
  have hb : ∀ ch : Channel α,
      (Channel.prepare P ch 0).delayBuffer.bufferLength = 0 ∧
      (Channel.prepare P ch 0).delayBuffer.buffer = [] := by
    intro ch
    show ((ch.delayBuffer.createCircularBuffer
          (u32 (truncToInt ((0 : α) * 2)))).flushBuffer).bufferLength = 0 ∧
        ((ch.delayBuffer.createCircularBuffer
          (u32 (truncToInt ((0 : α) * 2)))).flushBuffer).buffer = []
    apply CircularBuffer.createCircularBuffer_empty
    left
    have : truncToInt ((0 : α) * 2) = 0 := by
      rw [zero_mul, truncToInt_of_nonneg _ le_rfl, Int.floor_zero]
    rw [this]
    rfl
  have hall : ∀ c,
      (get2 (prepareToPlay O P st 0 samplesPerBlock).channels c).delayBuffer.bufferLength = 0 ∧
      (get2 (prepareToPlay O P st 0 samplesPerBlock).channels c).delayBuffer.buffer = [] := by
    intro c
    unfold prepareToPlay get2
    split_ifs
    · exact hb _
    · exact hb _
  have hr : ∀ d : α,
      (get2 (prepareToPlay O P st 0 samplesPerBlock).channels 0).delayBuffer.readBuffer d
        = none := fun d => CircularBuffer.readBuffer_nil _ d (hall 0).2
  refine ⟨hall, hr, ?_⟩
  obtain ⟨x, xs, hx⟩ := List.exists_cons_of_ne_nil hne
  unfold processBlock
  rw [htape, if_pos rfl]
  unfold tapeSection
  rw [hx]
  unfold tapeLoop tapeSample tapeSampleChannel
  simp only [hr]

end OldVersion

namespace LowPassFilter

variable {α : Type} [LinearOrderedField α] [FloorRing α]

/-- C14: for every input and every filter state, `LowPassFilter::process`
returns a finite value in `[-1, 1]` (the values of `[-1, 1]` being finite);
and whenever the computed output is not finite, the call returns 0 and leaves
the four registers `x1`, `x2`, `y1`, `y2` equal to 0. -/
theorem process_finite_bounded (M : MathFns α) (f : LowPassFilter α) (input : α)
    (hfin : ∀ v : α, -1 ≤ v → v ≤ 1 → M.isfinite v = true) :
    (-1 ≤ (f.process M input).1 ∧ (f.process M input).1 ≤ 1) ∧
      M.isfinite (f.process M input).1 = true ∧
      (M.isfinite (f.a0 * input + f.a1 * f.x1 + f.a0 * f.x2 - f.b1 * f.y1 - f.b2 * f.y2) = false →
        (f.process M input).1 = 0 ∧ (f.process M input).2.x1 = 0 ∧ (f.process M input).2.x2 = 0 ∧
          (f.process M input).2.y1 = 0 ∧ (f.process M input).2.y2 = 0) := by
  have hb : -1 ≤ (f.process M input).1 ∧ (f.process M input).1 ≤ 1 := by
    unfold process
    dsimp only
    split_ifs <;> exact jlimit_mem _ _ _ (by norm_num)
  refine ⟨hb, hfin _ hb.1 hb.2, ?_⟩
  intro h
  unfold process
  simp only [h, Bool.false_eq_true, if_false]
  refine ⟨?_, rfl, rfl, rfl, rfl⟩
  exact jlimit_of_mem _ _ _ (by norm_num) (by norm_num)

end LowPassFilter

namespace OldVersion

variable {α ω : Type} [LinearOrderedField α] [FloorRing α]

theorem advancePhase_mem (M : MathFns α) (phase rate sampleRate : α)
    (h0 : 0 ≤ phase) (h1 : phase ≤ 2 * M.pi)
    (hi0 : 0 ≤ 2 * M.pi * rate / sampleRate) (hi1 : 2 * M.pi * rate / sampleRate < 2 * M.pi) :
    0 ≤ advancePhase M phase rate sampleRate ∧ advancePhase M phase rate sampleRate ≤ 2 * M.pi := by
  unfold advancePhase
  split_ifs with h
  · constructor <;> linarith
  · constructor <;> linarith

theorem phaseAfter_mem (M : MathFns α) (rate sampleRate : α)
    (hi0 : 0 ≤ 2 * M.pi * rate / sampleRate) (hi1 : 2 * M.pi * rate / sampleRate < 2 * M.pi)
    (n : Nat) : ∀ phase : α, 0 ≤ phase → phase ≤ 2 * M.pi →
      0 ≤ phaseAfter M rate sampleRate n phase ∧ phaseAfter M rate sampleRate n phase ≤ 2 * M.pi := by
  induction n with
  | zero => intro phase h0 h1; exact ⟨h0, h1⟩
  | succ n ih =>
    intro phase h0 h1
    obtain ⟨a, b⟩ := advancePhase_mem M phase rate sampleRate h0 h1 hi0 hi1
    exact ih _ a b

/-- C19 (amended): for the hand-rolled phase accumulators, for every starting
phase in `[0, 2 pi)` and every per-sample increment `inc = 2 pi rate / sampleRate`
with `0 ≤ inc < 2 pi`, the phase lies in the closed interval `[0, 2 pi]` after
every update (the wrap test is the strict `phase > 2 pi`, so `2 pi` itself is kept). -/
theorem phase_in_closed_range (M : MathFns α) (phase rate sampleRate : α)
    (h0 : 0 ≤ phase) (h1 : phase < 2 * M.pi)
    (hi0 : 0 ≤ 2 * M.pi * rate / sampleRate) (hi1 : 2 * M.pi * rate / sampleRate < 2 * M.pi)
    (n : Nat) :
    0 ≤ phaseAfter M rate sampleRate n phase ∧ phaseAfter M rate sampleRate n phase ≤ 2 * M.pi :=
  phaseAfter_mem M rate sampleRate hi0 hi1 n phase h0 (le_of_lt h1)

end OldVersion

/-! ## The silence detector and the shared smoothers of the older variants -/

namespace LinearSmoothedValue

variable {α : Type} [LinearOrderedField α] [FloorRing α]

theorem setTargetValue_target (s : LinearSmoothedValue α) (v : α) :
    (s.setTargetValue v).target = v := by
  unfold setTargetValue
  split_ifs with h1 h2
  · exact h1.symm
  · rfl
  · rfl

end LinearSmoothedValue

namespace OldVersion

variable {α ω : Type} [LinearOrderedField α] [FloorRing α]

theorem feedbackGain_fade_target (P : Params α) (sf fade : LinearSmoothedValue α) :
    (feedbackGain P sf fade).2.2.target = fade.target := by
  unfold feedbackGain
  split_ifs
  · rfl
  · exact LinearSmoothedValue.getNextValue_target fade

/-- The loop body on a channel whose delay buffer satisfies the class invariant
returns, keeps the invariant, and leaves the counter and the fade target that
the silence detector computed. -/
theorem tapeSampleChannel_some (M : MathFns α) (P : Params α) (sampleRate w f : α)
    (sf : LinearSmoothedValue α) (ch : Channel α) (x : α) (k : Nat)
    (h : ch.delayBuffer.WellFormed k) :
    ∃ r, tapeSampleChannel M P sampleRate w f sf ch x = some r ∧
      r.1.delayBuffer.WellFormed k ∧
      r.1.silenceCounter = (silenceDetect ch.silenceCounter ch.feedbackFade x).1 ∧
      r.1.feedbackFade.target = (silenceDetect ch.silenceCounter ch.feedbackFade x).2.target := by
  obtain ⟨a, b, _, _, hr⟩ :=
    h.readBuffer_eq (delaySamples P sampleRate ch.smoothedDelayTime.getNextValue.1 w f)
  unfold tapeSampleChannel
  simp only [hr, h.writeBuffer_eq]
  exact ⟨_, rfl, h.after_write _, rfl, feedbackGain_fade_target _ _ _⟩

theorem silenceDetect_loud (counter : Int) (fade : LinearSmoothedValue α) (x : α)
    (hx : ¬ |x| < 1 / 100000) :
    (silenceDetect counter fade x).1 = 0 ∧ (silenceDetect counter fade x).2.target = 1 := by
  unfold silenceDetect
  rw [if_neg hx]
  exact ⟨rfl, LinearSmoothedValue.setTargetValue_target _ _⟩

theorem silenceDetect_silent (j : Nat) (fade : LinearSmoothedValue α) (x : α)
    (hx : |x| < 1 / 100000) (ht : fade.target = if 1001 < j then 0 else 1) :
    (silenceDetect (j : Int) fade x).1 = ((j + 1 : Nat) : Int) ∧
      (silenceDetect (j : Int) fade x).2.target = if 1001 < j + 1 then 0 else 1 := by
  unfold silenceDetect
  rw [if_pos hx]
  refine ⟨by push_cast; rfl, ?_⟩
  by_cases hj : 1000 < j
  · have h1 : (j : Int) > 1000 := by omega
    rw [if_pos h1, if_pos (by omega)]
    exact LinearSmoothedValue.setTargetValue_target _ _
  · have h1 : ¬ (j : Int) > 1000 := by omega
    rw [if_neg h1, if_neg (by omega), ht, if_neg (by omega)]

/-- The tape loop of channel `c` over silent samples, from a channel whose
counter is `j` and whose fade target is 0 exactly when `j` exceeds 1001. -/
theorem tapeLoop_silent (M : MathFns α) (O : OscillatorOps ω α) (P : Params α) (c k : Nat)
    (xs : List α) (hs : ∀ x ∈ xs, |x| < 1 / 100000) :
    ∀ (j : Nat) (st : Processor ω α), (get2 st.channels c).delayBuffer.WellFormed k →
      (get2 st.channels c).silenceCounter = (j : Int) →
      (get2 st.channels c).feedbackFade.target = (if 1001 < j then 0 else 1) →
      ∃ r, tapeLoop M O P c st xs = some r ∧
        (get2 r.1.channels c).delayBuffer.WellFormed k ∧
        (get2 r.1.channels c).silenceCounter = ((j + xs.length : Nat) : Int) ∧
        (get2 r.1.channels c).feedbackFade.target = if 1001 < j + xs.length then 0 else 1 := by
  induction xs with
  | nil =>
    intro j st hwf hc ht
    exact ⟨(st, []), rfl, hwf, by simpa using hc, by simpa using ht⟩
  | cons x xs ih =>
    intro j st hwf hc ht
    obtain ⟨r, hr, hwf1, hc1, ht1⟩ := tapeSampleChannel_some M P st.sampleRate
      (O.processSample st.wowOscillator 0).1 (O.processSample st.flutterOscillator 0).1
      st.smoothedFeedback (get2 st.channels c) x k hwf
    rw [hc] at hc1 ht1
    obtain ⟨hd1, hd2⟩ := silenceDetect_silent j (get2 st.channels c).feedbackFade x
      (hs x (List.mem_cons_self _ _)) ht
    rw [hd1] at hc1
    rw [hd2] at ht1
    have hstep : tapeSample M O P c st x = some
        ({ st with
            channels := set2 st.channels c r.1
            smoothedFeedback := r.2.1
            wowOscillator := (O.processSample st.wowOscillator 0).2
            flutterOscillator := (O.processSample st.flutterOscillator 0).2 }, r.2.2) := by
      unfold tapeSample
      simp only [hr]
    obtain ⟨r2, hr2, hwf2, hc2, ht2⟩ := ih (fun y hy => hs y (List.mem_cons_of_mem _ hy)) (j + 1)
      { st with
          channels := set2 st.channels c r.1
          smoothedFeedback := r.2.1
          wowOscillator := (O.processSample st.wowOscillator 0).2
          flutterOscillator := (O.processSample st.flutterOscillator 0).2 }
      (by simpa only [get2_set2] using hwf1) (by simpa only [get2_set2] using hc1)
      (by simpa only [get2_set2] using ht1)
    refine ⟨(r2.1, r.2.2 :: r2.2), ?_, hwf2, ?_, ?_⟩
    · rw [tapeLoop]
      simp only [hstep, hr2]
    · rw [hc2, List.length_cons]; congr 1; omega
    · rw [ht2, List.length_cons, show j + 1 + xs.length = j + (xs.length + 1) by omega]

/-- C16 (amended): in the OLDVERSION variant, from a channel with counter 0
and fade target 1 (a freshly prepared one) whose delay buffer is well formed,
the tape loop over `k` consecutive silent samples returns, leaves the counter
at `k`, and leaves the fade target at 0 exactly when `k > 1001` and at 1
otherwise: the counter is tested before it is incremented. -/
theorem silence_threshold_oldversion (M : MathFns α) (O : OscillatorOps ω α) (P : Params α)
    (c k : Nat) (st : Processor ω α) (xs : List α)
    (hwf : (get2 st.channels c).delayBuffer.WellFormed k)
    (hc : (get2 st.channels c).silenceCounter = 0)
    (ht : (get2 st.channels c).feedbackFade.target = 1)
    (hs : ∀ x ∈ xs, |x| < 1 / 100000) :
    ∃ r, tapeLoop M O P c st xs = some r ∧
      (get2 r.1.channels c).silenceCounter = (xs.length : Int) ∧
      (get2 r.1.channels c).feedbackFade.target = (if 1001 < xs.length then 0 else 1) := by
  obtain ⟨r, hr, _, hc1, ht1⟩ := tapeLoop_silent M O P c k xs hs 0 st hwf (by simpa using hc)
    (by simpa using ht)
  refine ⟨r, hr, ?_, ?_⟩
  · simpa using hc1
  · simpa using ht1

end OldVersion

namespace Alpha2

variable {α : Type} [LinearOrderedField α] [FloorRing α]

/-- The Alpha2 loop body on a channel whose delay buffer satisfies the class
invariant returns, and leaves the counter and the fade target that the silence
detector computed. -/
theorem tapeSampleChannel_some_alpha2 (M : MathFns α) (P : Params α) (sampleRate w f : α)
    (sf : LinearSmoothedValue α) (ch : Channel α) (x : α) (k : Nat)
    (h : ch.delayBuffer.WellFormed k) :
    ∃ r, tapeSampleChannel M P sampleRate w f sf ch x = some r ∧
      r.1.delayBuffer.WellFormed k ∧
      r.1.silenceCounter = (silenceDetect ch.silenceCounter ch.feedbackFade x).1 ∧
      r.1.feedbackFade.target = (silenceDetect ch.silenceCounter ch.feedbackFade x).2.target := by
  obtain ⟨a, b, _, _, hr⟩ :=
    h.readBuffer_eq (jlimit 1 2000
          (ch.smoothedDelayTime.getNextValue.1
            * (1 + w * P.wowDepth * (1 / 100) + f * P.flutterDepth * (1 / 100)))
        / 1000 * sampleRate)
  unfold tapeSampleChannel
  simp only [hr, h.writeBuffer_eq]
  exact ⟨_, rfl, h.after_write _, rfl, LinearSmoothedValue.getNextValue_target _⟩

theorem silenceDetect_loud_alpha2 (counter : Int) (fade : LinearSmoothedValue α) (x : α)
    (hx : ¬ |x| < 1 / 100000) :
    (silenceDetect counter fade x).1 = 0 ∧ (silenceDetect counter fade x).2.target = 1 := by
  unfold silenceDetect
  rw [if_neg hx]
  exact ⟨rfl, LinearSmoothedValue.setTargetValue_target _ _⟩

end Alpha2

namespace Broken

variable {α ω : Type} [LinearOrderedField α] [FloorRing α]

theorem silenceDetect_loud_broken (counter : Int) (fade : LinearSmoothedValue α) (x : α)
    (hx : ¬ |x| < 1 / 1000000) :
    (silenceDetect counter fade x).1 = 0 ∧ (silenceDetect counter fade x).2.target = 1 := by
  unfold silenceDetect
  dsimp only
  rw [if_neg hx]
  refine ⟨rfl, ?_⟩
  rw [LinearSmoothedValue.setTargetValue_target, if_neg (by decide)]

/-- The loop body on a channel whose two buffers satisfy the class invariant
returns and keeps the invariants; the counter, the fade smoother and the shared
smoothers after it are the ones named. -/
theorem sampleChannel_some (M : MathFns α) (P : Params α) (reverbDelayMs sampleRate : α)
    (sh : Shared α) (ch : OldVersion.Channel α) (x : α) (k r : Nat)
    (h1 : ch.delayBuffer.WellFormed k) (h2 : ch.reverbBuffer.WellFormed r) :
    ∃ res, sampleChannel M P reverbDelayMs sampleRate sh ch x = some res ∧
      res.1.delayBuffer.WellFormed k ∧ res.1.reverbBuffer.WellFormed r ∧
      res.1.silenceCounter = (silenceDetect ch.silenceCounter ch.feedbackFade x).1 ∧
      res.1.feedbackFade
        = (silenceDetect ch.silenceCounter ch.feedbackFade x).2.getNextValue.2 ∧
      res.2.1.smoothedFeedback.target = sh.smoothedFeedback.target ∧
      res.2.1.smoothedDryWet.target = sh.smoothedDryWet.target ∧
      res.2.1.smoothedReverbLevel.target = sh.smoothedReverbLevel.target := by
  obtain ⟨a, b, _, _, hr⟩ := h1.readBuffer_eq
    (delaySamples M P sampleRate ch.smoothedDelayTime.getNextValue.1 ch.wowPhase ch.flutterPhase)
  obtain ⟨a2, b2, _, _, hr2⟩ := h2.readBuffer_eq (reverbDelayMs * sampleRate / 1000)
  unfold sampleChannel
  simp only [hr, hr2, h1.writeBuffer_eq, h2.writeBuffer_eq]
  refine ⟨_, rfl, h1.after_write _, h2.after_write _, rfl, rfl, ?_, ?_, ?_⟩
  · exact LinearSmoothedValue.getNextValue_target _
  · show (sh.smoothedDryWet.getNextValue.2.getNextValue.2).target = _
    rw [LinearSmoothedValue.getNextValue_target, LinearSmoothedValue.getNextValue_target]
  · exact LinearSmoothedValue.getNextValue_target _

/-- The sample loop on a channel whose two buffers satisfy the class invariant
returns and keeps the invariants and the targets of the shared smoothers; the
counter and the fade smoother follow `fadeGains`. -/
theorem sampleLoop_some (M : MathFns α) (P : Params α) (reverbDelayMs sampleRate : α)
    (k r : Nat) (xs : List α) :
    ∀ (sh : Shared α) (ch : OldVersion.Channel α),
      ch.delayBuffer.WellFormed k → ch.reverbBuffer.WellFormed r →
      ∃ res, sampleLoop M P reverbDelayMs sampleRate sh ch xs = some res ∧
        res.1.delayBuffer.WellFormed k ∧ res.1.reverbBuffer.WellFormed r ∧
        (res.1.silenceCounter, res.1.feedbackFade)
          = (fadeGains (ch.silenceCounter, ch.feedbackFade) xs).2 ∧
        res.2.1.smoothedFeedback.target = sh.smoothedFeedback.target ∧
        res.2.1.smoothedDryWet.target = sh.smoothedDryWet.target ∧
        res.2.1.smoothedReverbLevel.target = sh.smoothedReverbLevel.target ∧
        res.2.2.length = xs.length := by
  induction xs with
  | nil =>
    intro sh ch h1 h2
    exact ⟨(ch, sh, []), rfl, h1, h2, rfl, rfl, rfl, rfl, rfl⟩
  | cons x xs ih =>
    intro sh ch h1 h2
    obtain ⟨res, hres, hw1, hw2, hc, hf, ht1, ht2, ht3⟩ :=
      sampleChannel_some M P reverbDelayMs sampleRate sh ch x k r h1 h2
    obtain ⟨rest, hrest, hv1, hv2, hcf, hu1, hu2, hu3, hlen⟩ := ih res.2.1 res.1 hw1 hw2
    refine ⟨(rest.1, rest.2.1, res.2.2 :: rest.2.2), ?_, hv1, hv2, ?_, ?_, ?_, ?_, ?_⟩
    · rw [sampleLoop]
      simp only [hres, hrest]
    · rw [hcf, hc, hf]
      rfl
    · rw [hu1, ht1]
    · rw [hu2, ht2]
    · rw [hu3, ht3]
    · simp only [List.length_cons, hlen]

theorem setTargets_targets (P : Params α) (st : OldVersion.Processor ω α) :
    (setTargets P st).smoothedFeedback.target = jlimit 0 (7 / 10) P.feedback ∧
      (setTargets P st).smoothedDryWet.target = jlimit 0 1 P.dryWet ∧
      (setTargets P st).smoothedReverbLevel.target = jlimit 0 (1 / 2) P.reverbLevel :=
  ⟨LinearSmoothedValue.setTargetValue_target _ _, LinearSmoothedValue.setTargetValue_target _ _,
    LinearSmoothedValue.setTargetValue_target _ _⟩

theorem jlimit_eq_self_iff (lo hi v : α) (h : lo ≤ hi) : jlimit lo hi v = v ↔ lo ≤ v ∧ v ≤ hi := by
  constructor
  · intro he
    have := jlimit_mem lo hi v h
    rw [he] at this
    exact this
  · intro hm
    exact jlimit_of_mem lo hi v hm.1 hm.2

/-- C13: in the OLDVERSION/broken variant, for every requested control value
(in range or not) and every processor whose buffers are well formed,
`processBlock` returns, and the targets it hands to the three shared smoothers
(lines 153-155), which they still hold after the block, are the clamped values
`jlimit (0, 0.7, feedback)`, `jlimit (0, 1, dryWet)` and
`jlimit (0, 0.5, reverbLevel)`; a clamped value is the requested one exactly
when the request already lies in the range. -/
theorem processBlock_clamped_targets (M : MathFns α) (O : OscillatorOps ω α) (P : Params α)
    (st : OldVersion.Processor ω α) (buffer : List α × List α)
    (h1 : BuffersWellFormed st.channels.1) (h2 : BuffersWellFormed st.channels.2) :
    (∃ res, processBlock M O P st buffer = some res ∧
      res.1.smoothedFeedback.target = jlimit 0 (7 / 10) P.feedback ∧
      res.1.smoothedDryWet.target = jlimit 0 1 P.dryWet ∧
      res.1.smoothedReverbLevel.target = jlimit 0 (1 / 2) P.reverbLevel) ∧
    ((setTargets P st).smoothedFeedback.target = jlimit 0 (7 / 10) P.feedback ∧
      (setTargets P st).smoothedDryWet.target = jlimit 0 1 P.dryWet ∧
      (setTargets P st).smoothedReverbLevel.target = jlimit 0 (1 / 2) P.reverbLevel) ∧
    ((jlimit 0 (7 / 10) P.feedback = P.feedback ↔ 0 ≤ P.feedback ∧ P.feedback ≤ 7 / 10) ∧
      (jlimit 0 1 P.dryWet = P.dryWet ↔ 0 ≤ P.dryWet ∧ P.dryWet ≤ 1) ∧
      (jlimit 0 (1 / 2) P.reverbLevel = P.reverbLevel ↔
        0 ≤ P.reverbLevel ∧ P.reverbLevel ≤ 1 / 2)) := by
  obtain ⟨k1, r1, hk1, hr1⟩ := h1
  obtain ⟨k2, r2, hk2, hr2⟩ := h2
  obtain ⟨t1, t2, t3⟩ := setTargets_targets P st
  refine ⟨?_, ⟨t1, t2, t3⟩, jlimit_eq_self_iff _ _ _ (by norm_num),
    jlimit_eq_self_iff _ _ _ (by norm_num), jlimit_eq_self_iff _ _ _ (by norm_num)⟩
  obtain ⟨left, hleft, _, _, _, a1, a2, a3, _⟩ :=
    sampleLoop_some M P st.reverbDelayMs st.sampleRate k1 r1 buffer.1 (setTargets P st)
      (channelSetup M P st.channels.1) hk1 hr1
  obtain ⟨right, hright, _, _, _, b1, b2, b3, _⟩ :=
    sampleLoop_some M P st.reverbDelayMs st.sampleRate k2 r2 buffer.2 left.2.1
      (channelSetup M P st.channels.2) hk2 hr2
  have hp : processBlock M O P st buffer = some
      ({ st with
          channels := (left.1, right.1)
          wowOscillator := O.setFrequency st.wowOscillator P.wowRate
          flutterOscillator := O.setFrequency st.flutterOscillator P.flutterRate
          smoothedFeedback := right.2.1.smoothedFeedback
          smoothedDryWet := right.2.1.smoothedDryWet
          smoothedReverbLevel := right.2.1.smoothedReverbLevel },
        (left.2.2, right.2.2)) := by
    unfold processBlock
    simp only [hleft, hright]
  refine ⟨_, hp, ?_, ?_, ?_⟩
  · show right.2.1.smoothedFeedback.target = _
    rw [b1, a1, t1]
  · show right.2.1.smoothedDryWet.target = _
    rw [b2, a2, t2]
  · show right.2.1.smoothedReverbLevel.target = _
    rw [b3, a3, t3]

end Broken

/-- C15: in each of the three variants that have the silence detector
(OLDVERSION, OLDVERSION/broken, Alpha2), the loop body on one input sample
whose magnitude is not below the silence threshold returns (the buffers being
well formed) and leaves the silence counter of the channel at 0 and the fade
target at 1, whatever the counter and the target were before. -/
theorem loud_sample_resets_silence_detector {α : Type} [LinearOrderedField α] [FloorRing α]
    (M : MathFns α) (sampleRate w f x : α) (sf : LinearSmoothedValue α) (k : Nat) :
    (∀ (P : OldVersion.Params α) (ch : OldVersion.Channel α), ch.delayBuffer.WellFormed k →
      ¬ |x| < 1 / 100000 →
      ∃ r, OldVersion.tapeSampleChannel M P sampleRate w f sf ch x = some r ∧
        r.1.silenceCounter = 0 ∧ r.1.feedbackFade.target = 1) ∧
    (∀ (P : Broken.Params α) (reverbDelayMs : α) (sh : Broken.Shared α)
      (ch : OldVersion.Channel α) (r : Nat), ch.delayBuffer.WellFormed k →
      ch.reverbBuffer.WellFormed r → ¬ |x| < 1 / 1000000 →
      ∃ res, Broken.sampleChannel M P reverbDelayMs sampleRate sh ch x = some res ∧
        res.1.silenceCounter = 0 ∧ res.1.feedbackFade.target = 1) ∧
    (∀ (P : Alpha2.Params α) (ch : Alpha2.Channel α), ch.delayBuffer.WellFormed k →
      ¬ |x| < 1 / 100000 →
      ∃ r, Alpha2.tapeSampleChannel M P sampleRate w f sf ch x = some r ∧
        r.1.silenceCounter = 0 ∧ r.1.feedbackFade.target = 1) := by
  refine ⟨?_, ?_, ?_⟩
  · intro P ch hwf hx
    obtain ⟨r, hr, _, hc, ht⟩ := OldVersion.tapeSampleChannel_some M P sampleRate w f sf ch x k hwf
    obtain ⟨d1, d2⟩ := OldVersion.silenceDetect_loud ch.silenceCounter ch.feedbackFade x hx
    exact ⟨r, hr, by rw [hc, d1], by rw [ht, d2]⟩
  · intro P rd sh ch r hwf hwr hx
    obtain ⟨res, hres, _, _, hc, hf, _⟩ :=
      Broken.sampleChannel_some M P rd sampleRate sh ch x k r hwf hwr
    obtain ⟨d1, d2⟩ := Broken.silenceDetect_loud_broken ch.silenceCounter ch.feedbackFade x hx
    exact ⟨res, hres, by rw [hc, d1],
      by rw [hf, LinearSmoothedValue.getNextValue_target, d2]⟩
  · intro P ch hwf hx
    obtain ⟨r, hr, _, hc, ht⟩ := Alpha2.tapeSampleChannel_some_alpha2 M P sampleRate w f sf ch x k hwf
    obtain ⟨d1, d2⟩ := Alpha2.silenceDetect_loud_alpha2 ch.silenceCounter ch.feedbackFade x hx
    exact ⟨r, hr, by rw [hc, d1], by rw [ht, d2]⟩

namespace Broken

variable {α ω : Type} [LinearOrderedField α] [FloorRing α]

theorem silenceDetect_silent_broken (n : Nat) (fade : LinearSmoothedValue α) (x : α)
    (hx : |x| < 1 / 1000000) :
    silenceDetect (n : Int) fade x
      = (((n + 1 : Nat) : Int), fade.setTargetValue (if 100 ≤ n then 0 else 1)) := by
  unfold silenceDetect
  dsimp only
  rw [if_pos hx]
  by_cases h : 100 ≤ n
  · rw [if_pos (by omega), if_pos h]; push_cast; rfl
  · rw [if_neg (by omega), if_neg h]; push_cast; rfl

/-- One silent sample on the fade smoother of a freshly prepared channel: the
gain read and the smoother after it. -/
theorem FadeRamp.ramp_step (S : Int) (n : Nat) (fade : LinearSmoothedValue α)
    (h : FadeRamp S n fade) :
    (fade.setTargetValue (if 100 ≤ n then 0 else 1)).getNextValue.1 = expectedFadeGain S n ∧
      FadeRamp S (n + 1) (fade.setTargetValue (if 100 ≤ n then 0 else 1)).getNextValue.2 := by
  obtain ⟨hS, hlow, hhigh⟩ := h
  rcases Nat.lt_trichotomy n 100 with hn | hn | hn
  · -- at rest on 1
    obtain ⟨ht, hc, hv⟩ := hlow (by omega)
    rw [if_neg (by omega)]
    have hset : fade.setTargetValue 1 = fade := by
      unfold LinearSmoothedValue.setTargetValue
      rw [if_pos ht.symm]
    rw [hset]
    have hnext : fade.getNextValue = (1, fade) := by
      unfold LinearSmoothedValue.getNextValue
      rw [if_pos (by rw [hc]; decide), ht]
    rw [hnext]
    refine ⟨?_, hS, fun _ => ⟨ht, hc, hv⟩, fun h1 => absurd h1 (by omega)⟩
    unfold expectedFadeGain
    rw [if_pos hn]
  · -- the target switches to 0
    subst hn
    obtain ⟨ht, hc, hv⟩ := hlow (by omega)
    rw [if_pos (by omega)]
    have h01 : (0 : α) ≠ fade.target := by rw [ht]; exact zero_ne_one
    by_cases hS0 : S ≤ 0
    · have hset : fade.setTargetValue 0 = fade.setCurrentAndTargetValue 0 := by
        unfold LinearSmoothedValue.setTargetValue
        rw [if_neg h01, if_pos (by rw [hS]; exact hS0)]
      rw [hset]
      have hnext : (fade.setCurrentAndTargetValue 0).getNextValue
          = (0, fade.setCurrentAndTargetValue 0) := by
        unfold LinearSmoothedValue.getNextValue
        rw [if_pos (by show ¬ (0 : Int) < 0; decide)]
        rfl
      rw [hnext]
      refine ⟨?_, hS, fun h1 => absurd h1 (by omega), fun _ => ⟨rfl, ?_, fun _ => rfl⟩⟩
      · unfold expectedFadeGain
        rw [if_neg (by omega), if_neg (by push_cast; omega)]
      · intro h1; push_cast at h1; omega
    · have hset : fade.setTargetValue 0
          = { fade with target := 0, countdown := S, step := (0 - 1) / (S : α) } := by
        unfold LinearSmoothedValue.setTargetValue
        rw [if_neg h01, if_neg (by rw [hS]; exact hS0), hS, hv]
      rw [hset]
      by_cases hS1 : 0 < S - 1
      · have hnext : ({ fade with target := 0, countdown := S, step := (0 - 1) / (S : α) } :
            LinearSmoothedValue α).getNextValue
            = (fade.currentValue + (0 - 1) / (S : α),
                { fade with target := 0, countdown := S - 1, step := (0 - 1) / (S : α),
                            currentValue := fade.currentValue + (0 - 1) / (S : α) }) := by
          unfold LinearSmoothedValue.getNextValue
          rw [if_neg (by show ¬ ¬ (0 : Int) < S; omega), if_pos (by show (0 : Int) < S - 1; exact hS1)]
        rw [hnext, hv]
        refine ⟨?_, hS, fun h1 => absurd h1 (by omega), fun _ => ⟨rfl, ?_, ?_⟩⟩
        · unfold expectedFadeGain
          rw [if_neg (by omega), if_pos (by push_cast; omega)]
          push_cast
          ring
        · intro _
          refine ⟨?_, ?_, ?_⟩
          · show S - 1 = S - (((100 + 1 : Nat) : Int) - 100)
            push_cast; ring
          · show (1 : α) + (0 - 1) / (S : α) = 1 - ((((100 + 1 : Nat) : Int) - 100 : Int) : α) / (S : α)
            push_cast; ring
          · show (0 - 1) / (S : α) = -1 / (S : α)
            ring
        · intro h1; push_cast at h1; omega
      · have hnext : ({ fade with target := 0, countdown := S, step := (0 - 1) / (S : α) } :
            LinearSmoothedValue α).getNextValue
            = (0, { fade with target := 0, countdown := S - 1, step := (0 - 1) / (S : α),
                              currentValue := 0 }) := by
          unfold LinearSmoothedValue.getNextValue
          rw [if_neg (by show ¬ ¬ (0 : Int) < S; omega), if_neg (by show ¬ (0 : Int) < S - 1; exact hS1)]
        rw [hnext]
        refine ⟨?_, hS, fun h1 => absurd h1 (by omega), fun _ => ⟨rfl, ?_, ?_⟩⟩
        · unfold expectedFadeGain
          rw [if_neg (by omega), if_neg (by push_cast; omega)]
        · intro h1; push_cast at h1; omega
        · intro _
          show S - 1 = 0
          omega
  · -- on the ramp, or at rest on 0
    obtain ⟨ht, hramp, hdone⟩ := hhigh hn
    rw [if_pos (by omega)]
    have hset : fade.setTargetValue 0 = fade := by
      unfold LinearSmoothedValue.setTargetValue
      rw [if_pos ht.symm]
    rw [hset]
    by_cases hm : (n : Int) - 100 < S
    · obtain ⟨hc, hv, hst⟩ := hramp hm
      by_cases hlast : 0 < S - ((n : Int) - 100) - 1
      · have hnext : fade.getNextValue
            = (fade.currentValue + fade.step,
                { fade with countdown := fade.countdown - 1,
                            currentValue := fade.currentValue + fade.step }) := by
          unfold LinearSmoothedValue.getNextValue
          rw [if_neg (by rw [hc]; omega), if_pos (by rw [hc]; exact hlast)]
        rw [hnext]
        have hSpos : (0 : α) < (S : α) := by
          have : (0 : Int) < S := by omega
          exact_mod_cast this
        refine ⟨?_, hS, fun h1 => absurd h1 (by omega), fun _ => ⟨ht, ?_, ?_⟩⟩
        · unfold expectedFadeGain
          rw [if_neg (by omega), if_pos (by omega), hv, hst]
          push_cast
          field_simp
          ring
        · intro _
          refine ⟨?_, ?_, hst⟩
          · show fade.countdown - 1 = S - (((n + 1 : Nat) : Int) - 100)
            rw [hc]; push_cast; ring
          · show fade.currentValue + fade.step = _
            rw [hv, hst]
            push_cast
            field_simp
            ring
        · intro h1; push_cast at h1; omega
      · have hnext : fade.getNextValue
            = (fade.target, { fade with countdown := fade.countdown - 1,
                                        currentValue := fade.target }) := by
          unfold LinearSmoothedValue.getNextValue
          rw [if_neg (by rw [hc]; omega), if_neg (by rw [hc]; exact hlast)]
        rw [hnext, ht]
        refine ⟨?_, hS, fun h1 => absurd h1 (by omega), fun _ => ⟨rfl, ?_, ?_⟩⟩
        · unfold expectedFadeGain
          rw [if_neg (by omega), if_neg (by omega)]
        · intro h1; push_cast at h1; omega
        · intro _
          show fade.countdown - 1 = 0
          rw [hc]; omega
    · have hc := hdone (by omega)
      have hnext : fade.getNextValue = (0, fade) := by
        unfold LinearSmoothedValue.getNextValue
        rw [if_pos (by rw [hc]; decide), ht]
      rw [hnext]
      refine ⟨?_, hS, fun h1 => absurd h1 (by omega), fun _ => ⟨ht, ?_, fun _ => hc⟩⟩
      · unfold expectedFadeGain
        rw [if_neg (by omega), if_neg (by omega)]
      · intro h1; push_cast at h1; omega

/-- The fade gains over silent samples, from the smoother state after `n` silent samples. -/
theorem fadeGains_silent (S : Int) (xs : List α) (hs : ∀ x ∈ xs, |x| < 1 / 1000000) :
    ∀ (n : Nat) (fade : LinearSmoothedValue α), FadeRamp S n fade →
      (fadeGains ((n : Int), fade) xs).1 = (List.range' n xs.length).map (expectedFadeGain S) := by
  induction xs with
  | nil => intro n fade _; rfl
  | cons x xs ih =>
    intro n fade h
    obtain ⟨hg, hnext⟩ := h.ramp_step
    have hd := silenceDetect_silent_broken n fade x (hs x (List.mem_cons_self _ _))
    rw [fadeGains]
    simp only [hd]
    rw [ih (fun y hy => hs y (List.mem_cons_of_mem _ hy)) (n + 1) _ hnext, hg]
    rfl

theorem expectedFadeGain_antitone (S : Int) (i : Nat) :
    (expectedFadeGain S (i + 1) : α) ≤ expectedFadeGain S i := by
  unfold expectedFadeGain
  by_cases h1 : i + 1 < 100
  · rw [if_pos h1, if_pos (by omega)]
  · rw [if_neg h1]
    by_cases h2 : (((i + 1 : Nat) : Int) - 99) < S
    · have hSpos : (0 : α) < (S : α) := by
        have : (0 : Int) < S := by omega
        exact_mod_cast this
      rw [if_pos h2]
      by_cases h3 : i < 100
      · rw [if_pos h3]
        have : (0 : α) ≤ (((((i + 1 : Nat) : Int) - 99 : Int)) : α) / (S : α) := by
          apply div_nonneg _ hSpos.le
          have : (0 : Int) ≤ ((i + 1 : Nat) : Int) - 99 := by omega
          exact_mod_cast this
        linarith
      · rw [if_neg h3, if_pos (by push_cast at h2 ⊢; omega)]
        have : ((((i : Int) - 99 : Int)) : α) / (S : α)
            ≤ (((((i + 1 : Nat) : Int) - 99 : Int)) : α) / (S : α) := by
          apply div_le_div_of_nonneg_right _ hSpos.le
          have : (i : Int) - 99 ≤ ((i + 1 : Nat) : Int) - 99 := by push_cast; omega
          exact_mod_cast this
        linarith
    · rw [if_neg h2]
      by_cases h3 : i < 100
      · rw [if_pos h3]; exact zero_le_one
      · rw [if_neg h3]
        by_cases h4 : ((i : Int) - 99) < S
        · have hSpos : (0 : α) < (S : α) := by
            have : (0 : Int) < S := by omega
            exact_mod_cast this
          rw [if_pos h4]
          have : ((((i : Int) - 99 : Int)) : α) / (S : α) ≤ 1 := by
            rw [div_le_one hSpos]
            exact_mod_cast h4.le
          linarith
        · rw [if_neg h4]

/-- The iterate `fadeGains` of the silence detector and the fade smoother, from
the smoother that `prepareToPlay` leaves, over silent samples: the gains are
`expectedFadeGain S i` with `S = floor (0.2 * sampleRate)`. -/
theorem fadeGains_ramp (sampleRate : α) (fade0 : LinearSmoothedValue α) (xs : List α)
    (hs : ∀ x ∈ xs, |x| < 1 / 1000000) :
    (fadeGains (0, (fade0.reset sampleRate (2 / 10)).setCurrentAndTargetValue 1) xs).1
        = (List.range xs.length).map (expectedFadeGain ⌊2 / 10 * sampleRate⌋) ∧
      (∀ i, (expectedFadeGain ⌊2 / 10 * sampleRate⌋ (i + 1) : α)
          ≤ expectedFadeGain ⌊2 / 10 * sampleRate⌋ i) ∧
      (∀ i, i < 100 → (expectedFadeGain ⌊2 / 10 * sampleRate⌋ i : α) = 1) ∧
      (∀ i : Nat, 100 ≤ i → ⌊2 / 10 * sampleRate⌋ ≤ (i : Int) - 99 →
        (expectedFadeGain ⌊2 / 10 * sampleRate⌋ i : α) = 0) := by
  refine ⟨?_, expectedFadeGain_antitone _, ?_, ?_⟩
  · have h0 : FadeRamp ⌊2 / 10 * sampleRate⌋ 0
        ((fade0.reset sampleRate (2 / 10)).setCurrentAndTargetValue 1) :=
      ⟨rfl, fun _ => ⟨rfl, rfl, rfl⟩, fun h => absurd h (by omega)⟩
    have := fadeGains_silent ⌊2 / 10 * sampleRate⌋ xs hs 0 _ h0
    rw [List.range_eq_range']
    exact this
  · intro i hi
    unfold expectedFadeGain
    rw [if_pos hi]
  · intro i hi hS
    unfold expectedFadeGain
    rw [if_neg (by omega), if_neg (by omega)]

/-- The two buffers that `prepareToPlay` creates at 44100 Hz satisfy the class invariant. -/
theorem prepared_buffersWellFormed (P : Params ℝ) (ch : OldVersion.Channel ℝ) :
    BuffersWellFormed (channelPrepare P ch 44100) := by
  have h1 : truncToInt ((44100 : ℝ) * 2) = 88200 := by
    have := OldVersion.truncToInt_natCast 88200
    norm_num at this ⊢
    exact this
  have h2 : truncToInt ((44100 : ℝ) * (1 / 10)) = 4410 := by
    have := OldVersion.truncToInt_natCast 4410
    norm_num at this ⊢
    exact this
  have h3 : u32 88200 = 88200 := by decide
  have h4 : u32 4410 = 4410 := by decide
  refine ⟨Nat.clog 2 88200, Nat.clog 2 4410, ?_, ?_⟩
  · show ((ch.delayBuffer.createCircularBuffer
        (u32 (truncToInt ((44100 : ℝ) * 2)))).flushBuffer).WellFormed _
    rw [h1, h3]
    exact (CircularBuffer.createCircularBuffer_wellFormed _ 88200 (by norm_num) (by norm_num)).2
  · show ((ch.reverbBuffer.createCircularBuffer
        (u32 (truncToInt ((44100 : ℝ) * (1 / 10))))).flushBuffer).WellFormed _
    rw [h2, h4]
    exact (CircularBuffer.createCircularBuffer_wellFormed _ 4410 (by norm_num) (by norm_num)).2

end Broken

namespace Broken

variable {α ω : Type} [LinearOrderedField α] [FloorRing α]

end Broken

/-! ## The oscillators of the Source variant -/

namespace Source

variable {α δ ω : Type} [LinearOrderedField α] [FloorRing α]

theorem tapeLoop_lfos (M : MathFns α) (DL : DelayLineOps δ α) (P : Params α) (c : Nat)
    (xs : List α) : ∀ (st : Processor δ ω α) (ws fs : List α),
      (tapeLoop M DL P c st xs ws fs).1.wowLFO = st.wowLFO ∧
        (tapeLoop M DL P c st xs ws fs).1.flutterLFO = st.flutterLFO := by
  induction xs with
  | nil => intro st ws fs; exact ⟨rfl, rfl⟩
  | cons x xs ih =>
    intro st ws fs
    cases ws with
    | nil => exact ⟨rfl, rfl⟩
    | cons w ws =>
      cases fs with
      | nil => exact ⟨rfl, rfl⟩
      | cons f fs =>
        rw [tapeLoop]
        exact ih _ ws fs

/-- One sample drawn from a freshly reset JUCE oscillator with a positive
sample rate: the value is the generator at `-pi` and the phase left is one
increment of the target frequency. -/
theorem lfoFill_reset_one (o : JuceOscillator ℝ) (h : 0 < o.sampleRate) :
    lfoFill (JuceOscillator.ops realMath) ((JuceOscillator.ops realMath).reset o) 1
      = ({ o with
            frequency := o.frequency.reset o.sampleRate (5 / 100)
            phase := JuceOscillator.advance realMath 0
              (2 * Real.pi * o.frequency.target / o.sampleRate) },
          [0 + o.generator (0 - Real.pi)]) := by
  have hnext : (o.frequency.reset o.sampleRate (5 / 100)).getNextValue
      = (o.frequency.target, o.frequency.reset o.sampleRate (5 / 100)) := by
    unfold LinearSmoothedValue.getNextValue
    rw [if_pos (by show ¬ (0 : Int) < 0; decide)]
    rfl
  show (_, _) = _
  simp only [lfoFill, JuceOscillator.ops, JuceOscillator.reset, JuceOscillator.processSample,
    if_pos h, hnext]
  rfl

theorem advance_small (x : ℝ) (h0 : 0 ≤ x) (h1 : x < 2 * Real.pi) :
    JuceOscillator.advance realMath 0 x = x := by
  unfold JuceOscillator.advance
  have hpi := Real.pi_pos
  have hf : ⌊(0 + x) / (2 * realMath.pi)⌋ = 0 := by
    rw [Int.floor_eq_iff]
    show ((0 : Int) : ℝ) ≤ (0 + x) / (2 * Real.pi) ∧ (0 + x) / (2 * Real.pi) < ((0 : Int) : ℝ) + 1
    constructor
    · push_cast; positivity
    · push_cast
      rw [zero_add, zero_add, div_lt_one (by linarith)]
      exact h1
  rw [hf]
  simp

/-- The phase that the wow oscillator holds after a block of one sample per
channel: one increment from zero, whatever it held before. -/
theorem lfo_phase_after_block (o : JuceOscillator ℝ) (h : 0 < o.sampleRate)
    (h0 : 0 ≤ 2 * Real.pi * o.frequency.target / o.sampleRate)
    (h1 : 2 * Real.pi * o.frequency.target / o.sampleRate < 2 * Real.pi) :
    ((lfoFill (JuceOscillator.ops realMath) ((JuceOscillator.ops realMath).reset
        (lfoFill (JuceOscillator.ops realMath) ((JuceOscillator.ops realMath).reset o) 1).1)
        1).1).phase = 2 * Real.pi * o.frequency.target / o.sampleRate := by
  rw [lfoFill_reset_one o h]
  rw [lfoFill_reset_one _ (by exact h)]
  exact advance_small _ h0 h1

/-- C18 (amended): in the Source variant with tape delay enabled, every
`processBlock` call resets both oscillators before it fills the LFO buffers, so
the block depends on the oscillators it inherits only through their state
after `setFrequency` and `reset`: replacing them by any two oscillators with
the same state after these two calls (for `juce::dsp::Oscillator`, any two
that differ in the stored phase alone) changes neither the output nor the
state after the block. -/
theorem lfo_restarts_every_block (M : MathFns α) (DL : DelayLineOps δ α) (O : OscillatorOps ω α)
    (rnd : Nat → α) (P : Params α) (st : Processor δ ω α) (buffer : List α × List α)
    (wow flutter : ω) (h : P.tapeDelayOnOff = true)
    (hw : O.reset (O.setFrequency wow P.wowRate) = O.reset (O.setFrequency st.wowLFO P.wowRate))
    (hf : O.reset (O.setFrequency flutter P.flutterRate)
      = O.reset (O.setFrequency st.flutterLFO P.flutterRate)) :
    processBlock M DL O rnd P { st with wowLFO := wow, flutterLFO := flutter } buffer
      = processBlock M DL O rnd P st buffer := by
  have ht : ∀ (a : Processor δ ω α),
      tapeSection M DL O P
          { a with wowLFO := O.setFrequency wow P.wowRate,
                   flutterLFO := O.setFrequency flutter P.flutterRate } buffer
        = tapeSection M DL O P
          { a with wowLFO := O.setFrequency st.wowLFO P.wowRate,
                   flutterLFO := O.setFrequency st.flutterLFO P.flutterRate } buffer := by
    intro a
    unfold tapeSection
    dsimp only
    rw [hw, hf]
  unfold processBlock
  simp only [h, if_true]
  have h1 := ht { st with
      smoothedFilterFreq := st.smoothedFilterFreq.getNextValue.2
      feedbackFilters :=
        ((st.feedbackFilters.1).setCutoff M
            (if P.psychedelicMode then st.smoothedFilterFreq.getNextValue.1 * (3 / 2)
              else st.smoothedFilterFreq.getNextValue.1),
          (st.feedbackFilters.2).setCutoff M
            (if P.psychedelicMode then st.smoothedFilterFreq.getNextValue.1 * (3 / 2)
              else st.smoothedFilterFreq.getNextValue.1)) }
  dsimp only at h1 ⊢
  rw [h1]

end Source

/-! ## Invariants of the circular buffer under sequences of calls -/

namespace CircularBuffer

variable {α : Type} [LinearOrderedField α] [FloorRing α]

theorem WellFormed.flushBuffer_wellFormed {cb : CircularBuffer α} {k : Nat}
    (h : cb.WellFormed k) :
    cb.flushBuffer.WellFormed k ∧ cb.flushBuffer.writeIndex = cb.writeIndex ∧
      cb.flushBuffer.bufferLength = cb.bufferLength := by
  unfold flushBuffer
  split_ifs with he
  · exact ⟨h, rfl, rfl⟩
  · obtain ⟨hk, hlen, hmask, hw, hbuf⟩ := h
    refine ⟨⟨hk, hlen, hmask, hw, ?_⟩, rfl, rfl⟩
    show (List.replicate cb.bufferLength (0 : α)).length = 2 ^ k
    rw [List.length_replicate, hlen]

/-- One call on a well-formed buffer succeeds and keeps the invariant and the length. -/
theorem WellFormed.call_wellFormed {cb : CircularBuffer α} {k : Nat} (h : cb.WellFormed k)
    (c : Call α) :
    ∃ cb1, cb.call c = some cb1 ∧ cb1.WellFormed k ∧ cb1.bufferLength = cb.bufferLength := by
  cases c with
  | write x => exact ⟨_, h.writeBuffer_eq x, h.after_write x, rfl⟩
  | read d =>
    obtain ⟨a, b, _, _, hr⟩ := h.readBuffer_eq d
    refine ⟨cb, ?_, h, rfl⟩
    show (cb.readBuffer d).map (fun _ => cb) = some cb
    rw [hr]
    rfl
  | flush => exact ⟨_, rfl, h.flushBuffer_wellFormed.1, h.flushBuffer_wellFormed.2.2⟩

/-- C21: on a buffer created with power-of-two length `N`, every sequence of
`writeBuffer`, `readBuffer` and `flushBuffer` calls succeeds and leaves the write
index `w` with `0 ≤ w < N` and the length unchanged; each `writeBuffer` advances
`w` to `(w + 1) mod N` and changes only the slot at the old `w`; `readBuffer`
and `flushBuffer` leave `w` and the length unchanged. -/
theorem calls_keep_invariant (cb : CircularBuffer α) (k : Nat) (h : cb.WellFormed k)
    (cs : List (Call α)) :
    (∃ cb1, cb.calls cs = some cb1 ∧ cb1.WellFormed k ∧ cb1.writeIndex < cb1.bufferLength ∧
      cb1.bufferLength = cb.bufferLength) ∧
    (∀ x, ∃ cb1, cb.writeBuffer x = some cb1 ∧
      cb1.writeIndex = (cb.writeIndex + 1) % cb.bufferLength ∧
      cb1.bufferLength = cb.bufferLength ∧ cb1.buffer[cb.writeIndex]? = some x ∧
      ∀ j, j ≠ cb.writeIndex → cb1.buffer[j]? = cb.buffer[j]?) ∧
    (∀ d, cb.call (Call.read d) = some cb) ∧
    (cb.flushBuffer.writeIndex = cb.writeIndex ∧
      cb.flushBuffer.bufferLength = cb.bufferLength) := by
  refine ⟨?_, ?_, ?_, h.flushBuffer_wellFormed.2⟩
  · induction cs generalizing cb with
    | nil => exact ⟨cb, rfl, h, by rw [h.2.1]; exact h.2.2.2.1, rfl⟩
    | cons c cs ih =>
      obtain ⟨cb1, hc, hwf, hlen⟩ := h.call_wellFormed c
      obtain ⟨cb2, hcs, hwf2, hw2, hlen2⟩ := ih cb1 hwf
      refine ⟨cb2, ?_, hwf2, hw2, by rw [hlen2, hlen]⟩
      rw [calls]
      simp only [hc]
      exact hcs
  · intro x
    refine ⟨_, h.writeBuffer_eq x, ?_, rfl, ?_, ?_⟩
    · show (cb.writeIndex + 1) % 2 ^ k = (cb.writeIndex + 1) % cb.bufferLength
      rw [h.2.1]
    · show (cb.buffer.set cb.writeIndex x)[cb.writeIndex]? = some x
      have : cb.writeIndex < cb.buffer.length := by rw [h.2.2.2.2]; exact h.2.2.2.1
      exact List.getElem?_set_self this
    · intro j hj
      show (cb.buffer.set cb.writeIndex x)[j]? = cb.buffer[j]?
      exact List.getElem?_set_ne (Ne.symm hj)
  · intro d
    obtain ⟨a, b, _, _, hr⟩ := h.readBuffer_eq d
    show (cb.readBuffer d).map (fun _ => cb) = some cb
    rw [hr]
    rfl

theorem flushBuffer_inUnit (cb : CircularBuffer α) : cb.flushBuffer.InUnit := by
  unfold flushBuffer InUnit
  split_ifs with he
  · intro x hx
    have : cb.buffer = [] := List.isEmpty_iff.mp he
    rw [this] at hx
    exact absurd hx (List.not_mem_nil x)
  · intro x hx
    have hx0 : x = 0 := List.eq_of_mem_replicate hx
    rw [hx0]
    constructor <;> norm_num

theorem WellFormed.frac_mem {cb : CircularBuffer α} {k : Nat} (h : cb.WellFormed k) (d : α) :
    0 ≤ cb.frac d ∧ cb.frac d ≤ 1 := by
  unfold frac
  rw [h.readIndexInt_eq]
  have h1 := Int.floor_le (cb.readIndex d)
  have h2 := Int.lt_floor_add_one (cb.readIndex d)
  constructor <;> linarith

/-- A read on a well-formed buffer whose samples lie in `[-1, 1]` returns a value in `[-1, 1]`. -/
theorem WellFormed.readBuffer_inUnit {cb : CircularBuffer α} {k : Nat} (h : cb.WellFormed k)
    (hu : cb.InUnit) (d y : α) (hy : cb.readBuffer d = some y) : -1 ≤ y ∧ y ≤ 1 := by
  obtain ⟨a, b, ha, hb, hr⟩ := h.readBuffer_eq d
  rw [hr] at hy
  have hy1 : a * (1 - cb.frac d) + b * cb.frac d = y := Option.some.inj hy
  obtain ⟨a0, a1⟩ := hu a (List.getElem?_mem ha)
  obtain ⟨b0, b1⟩ := hu b (List.getElem?_mem hb)
  obtain ⟨f0, f1⟩ := h.frac_mem d
  rw [← hy1]
  constructor <;> nlinarith

theorem InUnit.write_inUnit {cb : CircularBuffer α} (hu : cb.InUnit) (x : α) (h0 : -1 ≤ x)
    (h1 : x ≤ 1) (w : Nat) (len mask : Nat) :
    InUnit ({ buffer := cb.buffer.set cb.writeIndex x, writeIndex := w, bufferLength := len,
              wrapMask := mask } : CircularBuffer α) := by
  intro y hy
  rcases List.mem_or_eq_of_mem_set hy with hm | he
  · exact hu y hm
  · rw [he]; exact ⟨h0, h1⟩

end CircularBuffer

theorem bothOrNeither_iff {β γ : Type} (R : β → γ → Prop) (x : Option β) (y : Option γ) :
    BothOrNeither R x y ↔ (x = none ∧ y = none) ∨ ∃ a b, x = some a ∧ y = some b ∧ R a b := by
  cases x <;> cases y <;> simp [BothOrNeither]

namespace CircularBuffer

variable {α : Type} [LinearOrderedField α] [FloorRing α]

theorem SameShape.shape_refl (a : CircularBuffer α) : SameShape a a :=
  ⟨rfl, rfl, rfl, rfl⟩

theorem SameShape.readIndexInt_same {a b : CircularBuffer α} (h : SameShape a b) (d : α) :
    a.readIndexInt d = b.readIndexInt d := by
  unfold readIndexInt readIndex clampedDelay
  rw [h.1, h.2.1]

theorem SameShape.readIndexNext_same {a b : CircularBuffer α} (h : SameShape a b) (d : α) :
    a.readIndexNext d = b.readIndexNext d := by
  unfold readIndexNext
  rw [h.readIndexInt_same d, h.2.2.1]

/-- Whether a read is inside the array depends on the shape of the buffer only. -/
theorem SameShape.readBuffer_both {a b : CircularBuffer α} (h : SameShape a b) (d : α) :
    BothOrNeither (fun _ _ => True) (a.readBuffer d) (b.readBuffer d) := by
  unfold readBuffer
  rw [h.readIndexInt_same d, h.readIndexNext_same d]
  by_cases h0 : 0 ≤ b.readIndexInt d
  · rw [if_pos h0, if_pos h0]
    by_cases hi : (b.readIndexInt d).toNat < b.buffer.length
    · by_cases hj : b.readIndexNext d < b.buffer.length
      · rw [List.getElem?_eq_getElem (by rw [h.2.2.2]; exact hi),
          List.getElem?_eq_getElem (by rw [h.2.2.2]; exact hj),
          List.getElem?_eq_getElem hi, List.getElem?_eq_getElem hj]
        exact trivial
      · rw [List.getElem?_eq_none (l := a.buffer) (n := b.readIndexNext d)
            (by rw [h.2.2.2]; exact not_lt.mp hj),
          List.getElem?_eq_none (l := b.buffer) (n := b.readIndexNext d) (not_lt.mp hj),
          List.getElem?_eq_getElem (by rw [h.2.2.2]; exact hi), List.getElem?_eq_getElem hi]
        exact trivial
    · rw [List.getElem?_eq_none (l := a.buffer) (n := (b.readIndexInt d).toNat)
          (by rw [h.2.2.2]; exact not_lt.mp hi),
        List.getElem?_eq_none (l := b.buffer) (n := (b.readIndexInt d).toNat) (not_lt.mp hi)]
      exact trivial
  · rw [if_neg h0, if_neg h0]
    exact trivial

/-- Whether a write is inside the array, and the shape after it, depend on the shape only. -/
theorem SameShape.writeBuffer_both {a b : CircularBuffer α} (h : SameShape a b) (x y : α) :
    BothOrNeither SameShape (a.writeBuffer x) (b.writeBuffer y) := by
  unfold writeBuffer
  by_cases hw : b.writeIndex < b.buffer.length
  · rw [if_pos (by rw [h.1, h.2.2.2]; exact hw), if_pos hw]
    refine ⟨?_, h.2.1, h.2.2.1, ?_⟩
    · show u32 ((a.writeIndex : Int) + 1) &&& a.wrapMask = u32 ((b.writeIndex : Int) + 1) &&& b.wrapMask
      rw [h.1, h.2.2.1]
    · show (a.buffer.set a.writeIndex x).length = (b.buffer.set b.writeIndex y).length
      rw [List.length_set, List.length_set, h.2.2.2]
  · rw [if_neg (by rw [h.1, h.2.2.2]; exact hw), if_neg hw]
    exact trivial

end CircularBuffer

/-! ## The tape path and the reverb stage of the Source variant: ranges -/

namespace Source

variable {δ ω : Type}

/-- The coefficient that `setCutoff` stores at a positive sample rate lies strictly between 0 and 1. -/
theorem setCutoff_coefficient (f : SimpleLowPassFilter ℝ) (freq : ℝ) (h : 0 < f.sr) :
    0 < (f.setCutoff realMath freq).a ∧ (f.setCutoff realMath freq).a < 1 ∧
      (f.setCutoff realMath freq).b = 1 - (f.setCutoff realMath freq).a ∧
      (f.setCutoff realMath freq).z1 = f.z1 ∧ (f.setCutoff realMath freq).sr = f.sr := by
  have hc : (20 : ℝ) ≤ jlimit 20 20000 freq := (jlimit_mem 20 20000 freq (by norm_num)).1
  have hpi := Real.pi_pos
  have hneg : -(2 * Real.pi * jlimit 20 20000 freq / f.sr) < 0 := by
    have : 0 < 2 * Real.pi * jlimit 20 20000 freq / f.sr := by
      apply div_pos _ h
      have : (0 : ℝ) < jlimit 20 20000 freq := by linarith
      positivity
    linarith
  refine ⟨Real.exp_pos _, ?_, rfl, rfl, rfl⟩
  show Real.exp (-(2 * Real.pi * jlimit 20 20000 freq / f.sr)) < 1
  have := Real.exp_lt_exp.mpr hneg
  rwa [Real.exp_zero] at this

/-- C22: for every sample rate `sr > 0` and every requested cutoff `f`,
`setCutoff (f)` on a filter prepared at `sr` sets
`a = exp (-2 pi clamp (f, 20, 20000) / sr)` and `b = 1 - a`, so that `0 < a < 1`,
`0 < b < 1` and `a + b = 1`; and `process (x)` returns `b * x + a * z1` and
stores that value as the new `z1`, keeping the coefficients. -/
theorem one_pole_coefficients (f0 : SimpleLowPassFilter ℝ) (sampleRate freq : ℝ)
    (h : 0 < sampleRate) :
    ((f0.prepare sampleRate).setCutoff realMath freq).a
        = Real.exp (-(2 * Real.pi * jlimit 20 20000 freq / sampleRate)) ∧
      ((f0.prepare sampleRate).setCutoff realMath freq).b
        = 1 - ((f0.prepare sampleRate).setCutoff realMath freq).a ∧
      (0 < ((f0.prepare sampleRate).setCutoff realMath freq).a ∧
        ((f0.prepare sampleRate).setCutoff realMath freq).a < 1) ∧
      (0 < ((f0.prepare sampleRate).setCutoff realMath freq).b ∧
        ((f0.prepare sampleRate).setCutoff realMath freq).b < 1) ∧
      ((f0.prepare sampleRate).setCutoff realMath freq).a
        + ((f0.prepare sampleRate).setCutoff realMath freq).b = 1 ∧
      ∀ (g : SimpleLowPassFilter ℝ) (x : ℝ),
        (g.process x).1 = g.b * x + g.a * g.z1 ∧ (g.process x).2.z1 = g.b * x + g.a * g.z1 ∧
          (g.process x).2.a = g.a ∧ (g.process x).2.b = g.b := by
  obtain ⟨ha0, ha1, hb, -, -⟩ :=
    setCutoff_coefficient (f0.prepare sampleRate) freq (by exact h)
  refine ⟨rfl, hb, ⟨ha0, ha1⟩, ?_, ?_, fun g x => ⟨rfl, rfl, rfl, rfl⟩⟩
  · rw [hb]; constructor <;> linarith
  · rw [hb]; ring

theorem softClip_abs_lt (x : ℝ) : |softClip realMath x| < 1 := by
  unfold softClip
  simp only [realMath]
  split_ifs with hx
  · have h1 : Real.exp (-x) < 1 := by
      rw [← Real.exp_zero]; exact Real.exp_lt_exp.mpr (by linarith)
    have h2 := Real.exp_pos (-x)
    rw [abs_lt]; constructor <;> linarith
  · have h1 : Real.exp x ≤ 1 := by
      rw [← Real.exp_zero]; exact Real.exp_le_exp.mpr (by linarith)
    have h2 := Real.exp_pos x
    rw [abs_lt]; constructor <;> linarith

theorem tubeWarmth_abs_lt (x drive : ℝ) (hdrive : 0 ≤ drive) :
    |tubeWarmth realMath x drive| < 1 := by
  unfold tubeWarmth
  simp only [realMath]
  have ht : -|x| * (1 + drive) ≤ 0 := by
    have := abs_nonneg x
    nlinarith
  have h1 : Real.exp (-|x| * (1 + drive)) ≤ 1 := by
    have h := Real.exp_le_exp.mpr ht
    rwa [Real.exp_zero] at h
  have h2 := Real.exp_pos (-|x| * (1 + drive))
  split_ifs with hx
  · rw [abs_lt]; constructor <;> linarith
  · rw [abs_lt]; constructor <;> linarith

/-- The saturation lambda of the tape loop maps into `(-1, 1)`; in psychedelic
mode this needs a saturation amount that is not negative. -/
theorem saturationFunc_abs_lt (P : Params ℝ) (h : P.psychedelicMode = true → 0 ≤ P.saturation)
    (x : ℝ) : |saturationFunc realMath P x| < 1 := by
  unfold saturationFunc
  cases hp : P.psychedelicMode
  · simp only [Bool.false_eq_true, if_false]
    exact softClip_abs_lt _
  · simp only [if_true]
    exact tubeWarmth_abs_lt _ _ (by have := h hp; linarith)

/-- One step of a one-pole filter with `0 < a < 1`, `b = 1 - a` and state in
`[-1, 1]` on an input of magnitude below 1: the output has magnitude below 1. -/
theorem process_abs_lt (g : SimpleLowPassFilter ℝ) (x : ℝ) (ha0 : 0 < g.a) (ha1 : g.a < 1)
    (hb : g.b = 1 - g.a) (hz : |g.z1| ≤ 1) (hx : |x| < 1) :
    |(g.process x).1| < 1 ∧ 0 < (g.process x).2.a ∧ (g.process x).2.a < 1 ∧
      (g.process x).2.b = 1 - (g.process x).2.a ∧ |(g.process x).2.z1| ≤ 1 := by
  have hv : |g.b * x + g.a * g.z1| < 1 := by
    rw [abs_lt] at hx ⊢
    rw [abs_le] at hz
    rw [hb]
    constructor <;> nlinarith
  exact ⟨hv, ha0, ha1, hb, le_of_lt hv⟩

/-- One step of the tape loop: the wet sample has magnitude below 1, and the
filter of channel `c` keeps coefficients `0 < a < 1`, `b = 1 - a` and a state in `[-1, 1]`. -/
theorem wetSample_abs_lt (DL : DelayLineOps δ ℝ) (P : Params ℝ) (c : Nat)
    (st : Processor δ ω ℝ) (x w f : ℝ) (h : P.psychedelicMode = true → 0 ≤ P.saturation)
    (ha0 : 0 < (get2 st.feedbackFilters c).a) (ha1 : (get2 st.feedbackFilters c).a < 1)
    (hb : (get2 st.feedbackFilters c).b = 1 - (get2 st.feedbackFilters c).a)
    (hz : |(get2 st.feedbackFilters c).z1| ≤ 1) :
    |wetSample realMath DL P c st x w f| < 1 ∧
      0 < (get2 (tapeSample realMath DL P c st x w f).1.feedbackFilters c).a ∧
      (get2 (tapeSample realMath DL P c st x w f).1.feedbackFilters c).a < 1 ∧
      (get2 (tapeSample realMath DL P c st x w f).1.feedbackFilters c).b
        = 1 - (get2 (tapeSample realMath DL P c st x w f).1.feedbackFilters c).a ∧
      |(get2 (tapeSample realMath DL P c st x w f).1.feedbackFilters c).z1| ≤ 1 := by
  have hp := process_abs_lt (get2 st.feedbackFilters c)
    (saturationFunc realMath P
      (DL.popSample
        ((get2 st.tapeDelays c).setDelay DL
          (st.smoothedDelayTime.getNextValue.1
              * (1 + w * P.wowDepth * (1 / 10) + f * P.flutterDepth * (5 / 100))
            / 1000 * st.currentSampleRate)).delayLine 0
        ((get2 st.tapeDelays c).setDelay DL
          (st.smoothedDelayTime.getNextValue.1
              * (1 + w * P.wowDepth * (1 / 10) + f * P.flutterDepth * (5 / 100))
            / 1000 * st.currentSampleRate)).currentDelay true).1)
    ha0 ha1 hb hz (saturationFunc_abs_lt P h _)
  refine ⟨hp.1, ?_⟩
  have hg : get2 (tapeSample realMath DL P c st x w f).1.feedbackFilters c
      = ((get2 st.feedbackFilters c).process
          (saturationFunc realMath P
            (DL.popSample
              ((get2 st.tapeDelays c).setDelay DL
                (st.smoothedDelayTime.getNextValue.1
                    * (1 + w * P.wowDepth * (1 / 10) + f * P.flutterDepth * (5 / 100))
                  / 1000 * st.currentSampleRate)).delayLine 0
              ((get2 st.tapeDelays c).setDelay DL
                (st.smoothedDelayTime.getNextValue.1
                    * (1 + w * P.wowDepth * (1 / 10) + f * P.flutterDepth * (5 / 100))
                  / 1000 * st.currentSampleRate)).currentDelay true).1)).2 := by
    show get2 (set2 st.feedbackFilters c _) c = _
    rw [OldVersion.get2_set2]
    rfl
  rw [hg]
  exact hp.2

theorem tapeWets_abs_lt (DL : DelayLineOps δ ℝ) (P : Params ℝ) (c : Nat)
    (h : P.psychedelicMode = true → 0 ≤ P.saturation) (xs : List ℝ) :
    ∀ (st : Processor δ ω ℝ) (ws fs : List ℝ),
      0 < (get2 st.feedbackFilters c).a → (get2 st.feedbackFilters c).a < 1 →
      (get2 st.feedbackFilters c).b = 1 - (get2 st.feedbackFilters c).a →
      |(get2 st.feedbackFilters c).z1| ≤ 1 →
      (∀ y ∈ tapeWets realMath DL P c st xs ws fs, |y| < 1) ∧
        (tapeWets realMath DL P c st xs ws fs).length
          = (tapeLoop realMath DL P c st xs ws fs).2.length := by
  induction xs with
  | nil =>
    intro st ws fs _ _ _ _
    exact ⟨fun y hy => absurd hy (List.not_mem_nil y), rfl⟩
  | cons x xs ih =>
    intro st ws fs ha0 ha1 hb hz
    cases ws with
    | nil => exact ⟨fun y hy => absurd hy (List.not_mem_nil y), rfl⟩
    | cons w ws =>
      cases fs with
      | nil => exact ⟨fun y hy => absurd hy (List.not_mem_nil y), rfl⟩
      | cons f fs =>
        obtain ⟨hw, r0, r1, rb, rz⟩ := wetSample_abs_lt DL P c st x w f h ha0 ha1 hb hz
        obtain ⟨hys, hlen⟩ := ih (tapeSample realMath DL P c st x w f).1 ws fs r0 r1 rb rz
        rw [tapeWets, tapeLoop]
        constructor
        · intro y hy
          rcases List.mem_cons.mp hy with he | hm
          · rw [he]; exact hw
          · exact hys y hm
        · simp only [List.length_cons, hlen]

/-- C24: in the tape path of the Source variant, for every input sequence,
every feedback value and delay line, either saturation mode with a saturation
amount `≥ 0`, and a feedback filter whose cutoff was set at a positive sample
rate with its state in `[-1, 1]` (0 after `prepare`), every wet sample of the
loop has magnitude strictly below 1; there is one wet sample per output
sample, and the output is `x * dry + wet sample * wet`. -/
theorem wet_sample_below_one (DL : DelayLineOps δ ℝ) (P : Params ℝ) (c : Nat)
    (st : Processor δ ω ℝ) (xs ws fs : List ℝ) (f0 : SimpleLowPassFilter ℝ) (freq : ℝ)
    (hsat : 0 ≤ P.saturation) (hf : get2 st.feedbackFilters c = f0.setCutoff realMath freq)
    (hsr : 0 < f0.sr) (hz : |f0.z1| ≤ 1) :
    (∀ y ∈ tapeWets realMath DL P c st xs ws fs, |y| < 1) ∧
      (tapeWets realMath DL P c st xs ws fs).length
        = (tapeLoop realMath DL P c st xs ws fs).2.length ∧
      ∀ (s : Processor δ ω ℝ) (x w f : ℝ),
        (tapeSample realMath DL P c s x w f).2
          = x * (1 - s.smoothedDryWet.getNextValue.1)
            + wetSample realMath DL P c s x w f
              * s.smoothedDryWet.getNextValue.2.getNextValue.1 := by
  obtain ⟨ha0, ha1, hb, hz1, -⟩ := setCutoff_coefficient f0 freq hsr
  rw [← hf] at ha0 ha1 hb hz1
  obtain ⟨h1, h2⟩ := tapeWets_abs_lt DL P c (fun _ => hsat) xs st ws fs ha0 ha1 hb
    (by rw [hz1]; exact hz)
  exact ⟨h1, h2, fun _ _ _ _ => rfl⟩

/-- One step of the tape loop with the dry/wet smoother at rest on `m` in
`[0, 1]` and both filters stable: an input in `[-1, 1]` gives an output in
`[-1, 1]`, and the smoother and the filters stay as they were assumed. -/
theorem tapeSample_unit_range (DL : DelayLineOps δ ℝ) (P : Params ℝ) (c : Nat)
    (st : Processor δ ω ℝ) (x w f m : ℝ) (h : P.psychedelicMode = true → 0 ≤ P.saturation)
    (hs : LinearSmoothedValue.Steady m st.smoothedDryWet) (hm0 : 0 ≤ m) (hm1 : m ≤ 1)
    (hF : ∀ c1, 0 < (get2 st.feedbackFilters c1).a ∧ (get2 st.feedbackFilters c1).a < 1 ∧
      (get2 st.feedbackFilters c1).b = 1 - (get2 st.feedbackFilters c1).a ∧
      |(get2 st.feedbackFilters c1).z1| ≤ 1)
    (hx : -1 ≤ x ∧ x ≤ 1) :
    (-1 ≤ (tapeSample realMath DL P c st x w f).2 ∧ (tapeSample realMath DL P c st x w f).2 ≤ 1) ∧
      LinearSmoothedValue.Steady m (tapeSample realMath DL P c st x w f).1.smoothedDryWet ∧
      ∀ c1, 0 < (get2 (tapeSample realMath DL P c st x w f).1.feedbackFilters c1).a ∧
        (get2 (tapeSample realMath DL P c st x w f).1.feedbackFilters c1).a < 1 ∧
        (get2 (tapeSample realMath DL P c st x w f).1.feedbackFilters c1).b
          = 1 - (get2 (tapeSample realMath DL P c st x w f).1.feedbackFilters c1).a ∧
        |(get2 (tapeSample realMath DL P c st x w f).1.feedbackFilters c1).z1| ≤ 1 := by
  obtain ⟨ha0, ha1, hb, hz⟩ := hF c
  obtain ⟨hw, r0, r1, rb, rz⟩ := wetSample_abs_lt DL P c st x w f h ha0 ha1 hb hz
  have hout : (tapeSample realMath DL P c st x w f).2
      = x * (1 - m) + wetSample realMath DL P c st x w f * m := by
    show x * (1 - st.smoothedDryWet.getNextValue.1)
        + wetSample realMath DL P c st x w f * st.smoothedDryWet.getNextValue.2.getNextValue.1 = _
    rw [hs.getNextValue]
    show x * (1 - m) + _ * st.smoothedDryWet.getNextValue.1 = _
    rw [hs.getNextValue]
  have hsm : (tapeSample realMath DL P c st x w f).1.smoothedDryWet = st.smoothedDryWet := by
    show st.smoothedDryWet.getNextValue.2.getNextValue.2 = _
    rw [hs.getNextValue]
    show st.smoothedDryWet.getNextValue.2 = _
    rw [hs.getNextValue]
  rw [abs_lt] at hw
  refine ⟨?_, by rw [hsm]; exact hs, ?_⟩
  · rw [hout]
    constructor <;> nlinarith [hx.1, hx.2, hw.1, hw.2]
  · intro c1
    by_cases hc : (c1 = 0 ↔ c = 0)
    · have hg : get2 (tapeSample realMath DL P c st x w f).1.feedbackFilters c1
          = get2 (tapeSample realMath DL P c st x w f).1.feedbackFilters c := by
        unfold get2
        by_cases h0 : c = 0
        · rw [if_pos (hc.mpr h0), if_pos h0]
        · rw [if_neg (fun h1 => h0 (hc.mp h1)), if_neg h0]
      rw [hg]
      exact ⟨r0, r1, rb, rz⟩
    · have hg : get2 (tapeSample realMath DL P c st x w f).1.feedbackFilters c1
          = get2 st.feedbackFilters c1 := by
        show get2 (set2 st.feedbackFilters c _) c1 = _
        unfold get2 set2
        by_cases h0 : c = 0
        · have h1 : ¬ c1 = 0 := fun h1 => hc ⟨fun _ => h0, fun _ => h1⟩
          rw [if_pos h0, if_neg h1, if_neg h1]
        · have h1 : c1 = 0 := by
            by_contra h1
            exact hc ⟨fun h2 => absurd h2 h1, fun h2 => absurd h2 h0⟩
          rw [if_neg h0, if_pos h1, if_pos h1]
      rw [hg]
      exact hF c1

theorem tapeLoop_unit_range (DL : DelayLineOps δ ℝ) (P : Params ℝ) (c : Nat) (m : ℝ)
    (h : P.psychedelicMode = true → 0 ≤ P.saturation) (hm0 : 0 ≤ m) (hm1 : m ≤ 1)
    (xs : List ℝ) (hxs : ∀ x ∈ xs, -1 ≤ x ∧ x ≤ 1) :
    ∀ (st : Processor δ ω ℝ) (ws fs : List ℝ),
      LinearSmoothedValue.Steady m st.smoothedDryWet →
      (∀ c1, 0 < (get2 st.feedbackFilters c1).a ∧ (get2 st.feedbackFilters c1).a < 1 ∧
        (get2 st.feedbackFilters c1).b = 1 - (get2 st.feedbackFilters c1).a ∧
        |(get2 st.feedbackFilters c1).z1| ≤ 1) →
      (∀ y ∈ (tapeLoop realMath DL P c st xs ws fs).2, -1 ≤ y ∧ y ≤ 1) ∧
        LinearSmoothedValue.Steady m (tapeLoop realMath DL P c st xs ws fs).1.smoothedDryWet ∧
        ∀ c1, 0 < (get2 (tapeLoop realMath DL P c st xs ws fs).1.feedbackFilters c1).a ∧
          (get2 (tapeLoop realMath DL P c st xs ws fs).1.feedbackFilters c1).a < 1 ∧
          (get2 (tapeLoop realMath DL P c st xs ws fs).1.feedbackFilters c1).b
            = 1 - (get2 (tapeLoop realMath DL P c st xs ws fs).1.feedbackFilters c1).a ∧
          |(get2 (tapeLoop realMath DL P c st xs ws fs).1.feedbackFilters c1).z1| ≤ 1 := by
  induction xs with
  | nil =>
    intro st ws fs hs hF
    exact ⟨fun y hy => absurd hy (List.not_mem_nil y), hs, hF⟩
  | cons x xs ih =>
    intro st ws fs hs hF
    cases ws with
    | nil => exact ⟨fun y hy => absurd hy (List.not_mem_nil y), hs, hF⟩
    | cons w ws =>
      cases fs with
      | nil => exact ⟨fun y hy => absurd hy (List.not_mem_nil y), hs, hF⟩
      | cons f fs =>
        obtain ⟨ho, hs1, hF1⟩ := tapeSample_unit_range DL P c st x w f m h hs hm0 hm1 hF
          (hxs x (List.mem_cons_self _ _))
        obtain ⟨hys, hs2, hF2⟩ := ih (fun y hy => hxs y (List.mem_cons_of_mem _ hy))
          (tapeSample realMath DL P c st x w f).1 ws fs hs1 hF1
        rw [tapeLoop]
        refine ⟨?_, hs2, hF2⟩
        intro y hy
        rcases List.mem_cons.mp hy with he | hmem
        · rw [he]; exact ho
        · exact hys y hmem

theorem tapeLoop_filter_rate (DL : DelayLineOps δ ℝ) (P : Params ℝ) (c : Nat) (xs : List ℝ) :
    ∀ (st : Processor δ ω ℝ) (ws fs : List ℝ) (c1 : Nat),
      (get2 (tapeLoop realMath DL P c st xs ws fs).1.feedbackFilters c1).sr
        = (get2 st.feedbackFilters c1).sr := by
  induction xs with
  | nil => intro st ws fs c1; rfl
  | cons x xs ih =>
    intro st ws fs c1
    cases ws with
    | nil => rfl
    | cons w ws =>
      cases fs with
      | nil => rfl
      | cons f fs =>
        rw [tapeLoop]
        show (get2 (tapeLoop realMath DL P c (tapeSample realMath DL P c st x w f).1 xs ws
          fs).1.feedbackFilters c1).sr = _
        rw [ih]
        show (get2 (set2 st.feedbackFilters c _) c1).sr = _
        unfold get2 set2
        split_ifs <;> rfl

/-- The tape section with the dry/wet smoother at rest on `m` in `[0, 1]` and
both filters stable maps a block in `[-1, 1]` to a block in `[-1, 1]`. -/
theorem tapeSection_unit_range (DL : DelayLineOps δ ℝ) (O : OscillatorOps ω ℝ) (P : Params ℝ)
    (st : Processor δ ω ℝ) (buffer : List ℝ × List ℝ) (m : ℝ)
    (h : P.psychedelicMode = true → 0 ≤ P.saturation)
    (hs : LinearSmoothedValue.Steady m st.smoothedDryWet) (hm0 : 0 ≤ m) (hm1 : m ≤ 1)
    (hF : ∀ c1, 0 < (get2 st.feedbackFilters c1).a ∧ (get2 st.feedbackFilters c1).a < 1 ∧
      (get2 st.feedbackFilters c1).b = 1 - (get2 st.feedbackFilters c1).a ∧
      |(get2 st.feedbackFilters c1).z1| ≤ 1)
    (hin : InUnitRange buffer) :
    InUnitRange (tapeSection realMath DL O P st buffer).2 ∧
      LinearSmoothedValue.Steady m (tapeSection realMath DL O P st buffer).1.smoothedDryWet ∧
      (∀ c1, |(get2 (tapeSection realMath DL O P st buffer).1.feedbackFilters c1).z1| ≤ 1) ∧
      ∀ c1, (get2 (tapeSection realMath DL O P st buffer).1.feedbackFilters c1).sr
        = (get2 st.feedbackFilters c1).sr := by
  unfold tapeSection
  dsimp only
  obtain ⟨hl, hsl, hFl⟩ := tapeLoop_unit_range DL P 0 m h hm0 hm1 buffer.1 hin.1
    { st with
      wowLFO := (lfoFill O (O.reset (lfoFill O (O.reset st.wowLFO) buffer.1.length).1)
        buffer.2.length).1
      flutterLFO := (lfoFill O (O.reset (lfoFill O (O.reset st.flutterLFO) buffer.1.length).1)
        buffer.2.length).1 }
    (lfoFill O (O.reset st.wowLFO) buffer.1.length).2
    (lfoFill O (O.reset st.flutterLFO) buffer.1.length).2 hs hF
  obtain ⟨hr, hsr, hFr⟩ := tapeLoop_unit_range DL P 1 m h hm0 hm1 buffer.2 hin.2 _
    (lfoFill O (O.reset (lfoFill O (O.reset st.wowLFO) buffer.1.length).1) buffer.2.length).2
    (lfoFill O (O.reset (lfoFill O (O.reset st.flutterLFO) buffer.1.length).1)
      buffer.2.length).2 hsl hFl
  refine ⟨⟨hl, hr⟩, hsr, fun c1 => (hFr c1).2.2.2, ?_⟩
  intro c1
  rw [tapeLoop_filter_rate, tapeLoop_filter_rate]

/-- C25: in the Source variant with tape delay enabled, reverb and psychedelic
mode disabled, the dry/wet smoother at rest on a value `m` in `[0, 1]` and the
two feedback filters as `prepareToPlay` at a positive sample rate or an earlier
such block left them (positive rate, state in `[-1, 1]`): if every input
sample lies in `[-1, 1]` then every output sample lies in `[-1, 1]`, and the
assumptions on the smoother and the filters hold again after the block. -/
theorem tape_output_in_unit (DL : DelayLineOps δ ℝ) (O : OscillatorOps ω ℝ) (rnd : Nat → ℝ)
    (P : Params ℝ) (st : Processor δ ω ℝ) (buffer : List ℝ × List ℝ) (m : ℝ)
    (h1 : P.tapeDelayOnOff = true) (h2 : P.reverbOnOff = false)
    (h3 : P.psychedelicMode = false)
    (hs : LinearSmoothedValue.Steady m st.smoothedDryWet) (hm0 : 0 ≤ m) (hm1 : m ≤ 1)
    (hf1 : FilterReady st.feedbackFilters.1) (hf2 : FilterReady st.feedbackFilters.2)
    (hin : InUnitRange buffer) :
    InUnitRange (processBlock realMath DL O rnd P st buffer).2 ∧
      FilterReady (processBlock realMath DL O rnd P st buffer).1.feedbackFilters.1 ∧
      FilterReady (processBlock realMath DL O rnd P st buffer).1.feedbackFilters.2 ∧
      LinearSmoothedValue.Steady m (processBlock realMath DL O rnd P st buffer).1.smoothedDryWet := by
  have hsat : P.psychedelicMode = true → 0 ≤ P.saturation := by
    intro hp; rw [h3] at hp; exact absurd hp (by decide)
  have hF : ∀ c1, 0 < (get2 (st.feedbackFilters.1.setCutoff realMath
        st.smoothedFilterFreq.getNextValue.1,
        st.feedbackFilters.2.setCutoff realMath st.smoothedFilterFreq.getNextValue.1) c1).a ∧
      (get2 (st.feedbackFilters.1.setCutoff realMath st.smoothedFilterFreq.getNextValue.1,
        st.feedbackFilters.2.setCutoff realMath st.smoothedFilterFreq.getNextValue.1) c1).a < 1 ∧
      (get2 (st.feedbackFilters.1.setCutoff realMath st.smoothedFilterFreq.getNextValue.1,
        st.feedbackFilters.2.setCutoff realMath st.smoothedFilterFreq.getNextValue.1) c1).b
        = 1 - (get2 (st.feedbackFilters.1.setCutoff realMath
          st.smoothedFilterFreq.getNextValue.1,
          st.feedbackFilters.2.setCutoff realMath st.smoothedFilterFreq.getNextValue.1) c1).a ∧
      |(get2 (st.feedbackFilters.1.setCutoff realMath st.smoothedFilterFreq.getNextValue.1,
        st.feedbackFilters.2.setCutoff realMath st.smoothedFilterFreq.getNextValue.1) c1).z1|
        ≤ 1 := by
    intro c1
    unfold get2
    split_ifs
    · obtain ⟨a0, a1, b, z, -⟩ := setCutoff_coefficient st.feedbackFilters.1
        st.smoothedFilterFreq.getNextValue.1 hf1.1
      exact ⟨a0, a1, b, by rw [z]; exact hf1.2⟩
    · obtain ⟨a0, a1, b, z, -⟩ := setCutoff_coefficient st.feedbackFilters.2
        st.smoothedFilterFreq.getNextValue.1 hf2.1
      exact ⟨a0, a1, b, by rw [z]; exact hf2.2⟩
  unfold processBlock
  simp only [h1, h2, h3, if_true, Bool.false_eq_true, if_false]
  obtain ⟨ho, hsm, hz, hsr⟩ := tapeSection_unit_range DL O P
    { st with
      wowLFO := O.setFrequency st.wowLFO P.wowRate
      flutterLFO := O.setFrequency st.flutterLFO P.flutterRate
      smoothedFilterFreq := st.smoothedFilterFreq.getNextValue.2
      feedbackFilters :=
        (st.feedbackFilters.1.setCutoff realMath st.smoothedFilterFreq.getNextValue.1,
          st.feedbackFilters.2.setCutoff realMath st.smoothedFilterFreq.getNextValue.1) }
    buffer m hsat hs hm0 hm1 hF hin
  refine ⟨ho, ⟨?_, hz 0⟩, ⟨?_, hz 1⟩, hsm⟩
  · have h0 : (0 : ℝ) < (get2 (st.feedbackFilters.1.setCutoff realMath
        st.smoothedFilterFreq.getNextValue.1,
        st.feedbackFilters.2.setCutoff realMath st.smoothedFilterFreq.getNextValue.1) 0).sr :=
      hf1.1
    rw [← hsr 0] at h0
    exact h0
  · have h0 : (0 : ℝ) < (get2 (st.feedbackFilters.1.setCutoff realMath
        st.smoothedFilterFreq.getNextValue.1,
        st.feedbackFilters.2.setCutoff realMath st.smoothedFilterFreq.getNextValue.1) 1).sr :=
      hf2.1
    rw [← hsr 1] at h0
    exact h0

end Source

namespace Source

variable {α δ ω : Type} [LinearOrderedField α] [FloorRing α]

/-- The reverb section mixes every sample with the weights `1 - reverbMix` and `reverbMix`. -/
theorem reverbSection_uses_reverbMix (DL : DelayLineOps δ α) (P : Params α)
    (st : Processor δ ω α) (buffer : List α × List α) :
    (reverbSection DL P st buffer).2
      = ((reverbLoop DL 0 (reverbMix P st)
            (if st.reverbInitialized then st.reverbDelays
              else (reverbInit DL st st.reverbDelays.1, reverbInit DL st st.reverbDelays.2)).1
            buffer.1).2,
          (reverbLoop DL 1 (reverbMix P st)
            (if st.reverbInitialized then st.reverbDelays
              else (reverbInit DL st st.reverbDelays.1, reverbInit DL st st.reverbDelays.2)).2
            buffer.2).2) := by
  unfold reverbSection reverbMix
  cases P.psychedelicMode <;> rfl

/-- C27 (amended): in the reverb stage of the Source variant, with the
reverb-level smoother at rest on a level `v` in `[0, 1]`: when psychedelic mode
is off, `reverbMix = v` and the dry weight `1 - reverbMix` both lie in `[0, 1]`;
when it is on, `reverbMix = 1.2 v` lies in `[0, 1.2]` and the dry weight in
`[-0.2, 1]`, and the two weights lie in `[0, 1]` exactly when `v ≤ 5/6`. -/
theorem reverb_weights_range (P : Params α) (st : Processor δ ω α) (v : α)
    (hs : LinearSmoothedValue.Steady v st.smoothedReverbLevel) (h0 : 0 ≤ v) (h1 : v ≤ 1) :
    (P.psychedelicMode = false →
      reverbMix P st = v ∧ (0 ≤ reverbMix P st ∧ reverbMix P st ≤ 1) ∧
        (0 ≤ 1 - reverbMix P st ∧ 1 - reverbMix P st ≤ 1)) ∧
    (P.psychedelicMode = true →
      reverbMix P st = v * (12 / 10) ∧ (0 ≤ reverbMix P st ∧ reverbMix P st ≤ 12 / 10) ∧
        (-(2 / 10) ≤ 1 - reverbMix P st ∧ 1 - reverbMix P st ≤ 1) ∧
        ((reverbMix P st ≤ 1 ∧ 0 ≤ 1 - reverbMix P st) ↔ v ≤ 5 / 6)) := by
  have hn : st.smoothedReverbLevel.getNextValue.1 = v := by rw [hs.getNextValue]
  constructor
  · intro hp
    have hm : reverbMix P st = v := by
      unfold reverbMix
      rw [hp, hn]
      rfl
    rw [hm]
    exact ⟨rfl, ⟨h0, h1⟩, by linarith, by linarith⟩
  · intro hp
    have hm : reverbMix P st = v * (12 / 10) := by
      unfold reverbMix
      rw [hp, hn]
      rfl
    rw [hm]
    refine ⟨rfl, ⟨by linarith, by linarith⟩, ⟨by linarith, by linarith⟩, ?_⟩
    constructor
    · intro h; linarith [h.1]
    · intro h; constructor <;> linarith

end Source

/-! ## The mix of the OLDVERSION/broken loop -/

namespace Broken

variable {α ω : Type} [LinearOrderedField α] [FloorRing α]

/-- The two weights on a ramp with more than two steps to go: the second
`getNextValue` is one step further than the first. -/
theorem mixWeights_on_ramp (s : LinearSmoothedValue α) (h : 2 < s.countdown) :
    mixWeights s = (1 - (s.currentValue + s.step), s.currentValue + s.step + s.step) := by
  have h1 : s.getNextValue
      = (s.currentValue + s.step,
          { s with countdown := s.countdown - 1, currentValue := s.currentValue + s.step }) := by
    unfold LinearSmoothedValue.getNextValue
    rw [if_neg (by omega), if_pos (by omega)]
  have h2 : ({ s with countdown := s.countdown - 1, currentValue := s.currentValue + s.step } :
      LinearSmoothedValue α).getNextValue.1 = s.currentValue + s.step + s.step := by
    unfold LinearSmoothedValue.getNextValue
    rw [if_neg (by show ¬ ¬ 0 < s.countdown - 1; omega),
      if_pos (by show 0 < s.countdown - 1 - 1; omega)]
  unfold mixWeights
  rw [h1, h2]

/-- The two weights of a smoother at rest are complementary. -/
theorem mixWeights_steady (s : LinearSmoothedValue α) (v : α)
    (h : LinearSmoothedValue.Steady v s) : mixWeights s = (1 - v, v) := by
  unfold mixWeights
  rw [h.getNextValue, h.getNextValue]

/-- The loop body mixes the input and the delayed sample with the two weights of `mixWeights`. -/
theorem sampleChannel_mix (M : MathFns α) (P : Params α) (reverbDelayMs sampleRate : α)
    (sh : Shared α) (ch : OldVersion.Channel α) (x : α) (k r : Nat)
    (h1 : ch.delayBuffer.WellFormed k) (h2 : ch.reverbBuffer.WellFormed r) :
    ∃ res delayed reverb, sampleChannel M P reverbDelayMs sampleRate sh ch x = some res ∧
      ch.delayBuffer.readBuffer
        (delaySamples M P sampleRate ch.smoothedDelayTime.getNextValue.1 ch.wowPhase
          ch.flutterPhase) = some delayed ∧
      res.2.2 = jlimit (-1) 1
        (x * (mixWeights sh.smoothedDryWet).1 + delayed * (mixWeights sh.smoothedDryWet).2
          + reverb * sh.smoothedReverbLevel.getNextValue.1) := by
  obtain ⟨a, b, _, _, hr⟩ := h1.readBuffer_eq
    (delaySamples M P sampleRate ch.smoothedDelayTime.getNextValue.1 ch.wowPhase ch.flutterPhase)
  obtain ⟨a2, b2, _, _, hr2⟩ := h2.readBuffer_eq (reverbDelayMs * sampleRate / 1000)
  unfold sampleChannel
  simp only [hr, hr2, h1.writeBuffer_eq, h2.writeBuffer_eq]
  exact ⟨_, _, _, rfl, rfl, rfl⟩

/-- C26 (the code): on a dry/wet ramp with more than two steps to go, the dry
and the wet weight that the loop body applies to a sample sum to `1 + step`,
where `step` is the increment of the ramp; they sum to 1 only when the smoother
is at rest. -/
theorem mix_weights_sum_on_ramp (M : MathFns α) (P : Params α) (reverbDelayMs sampleRate : α)
    (sh : Shared α) (ch : OldVersion.Channel α) (x : α) (k r : Nat)
    (h1 : ch.delayBuffer.WellFormed k) (h2 : ch.reverbBuffer.WellFormed r)
    (hc : 2 < sh.smoothedDryWet.countdown) :
    (mixWeights sh.smoothedDryWet).1 + (mixWeights sh.smoothedDryWet).2
        = 1 + sh.smoothedDryWet.step ∧
      ∃ res delayed reverb, sampleChannel M P reverbDelayMs sampleRate sh ch x = some res ∧
        ch.delayBuffer.readBuffer
          (delaySamples M P sampleRate ch.smoothedDelayTime.getNextValue.1 ch.wowPhase
            ch.flutterPhase) = some delayed ∧
        res.2.2 = jlimit (-1) 1
          (x * (mixWeights sh.smoothedDryWet).1 + delayed * (mixWeights sh.smoothedDryWet).2
            + reverb * sh.smoothedReverbLevel.getNextValue.1) := by
  refine ⟨?_, sampleChannel_mix M P reverbDelayMs sampleRate sh ch x k r h1 h2⟩
  rw [mixWeights_on_ramp _ hc]
  ring

/-- The dry/wet smoother of a processor prepared at 44100 Hz with dry/wet 0.5,
after `processBlock` has retargeted it to 1: a ramp of 220 steps of `1/440`. -/
theorem retargeted_dryWet (P : Params ℝ) (st : OldVersion.Processor Unit ℝ)
    (hP : P.dryWet = 1) :
    (setTargets P (prepareToPlay idleOscillator defaultParams st 44100 512)).smoothedDryWet
      = { currentValue := 1 / 2, target := 1, step := 1 / 440, countdown := 220,
          stepsToTarget := 220 } := by
  have hf : ⌊(5 / 1000 : ℝ) * 44100⌋ = 220 := by
    rw [Int.floor_eq_iff]; norm_num
  have hj : jlimit (0 : ℝ) 1 P.dryWet = 1 := by
    rw [hP]; exact jlimit_of_mem _ _ _ (by norm_num) (by norm_num)
  show ((st.smoothedDryWet.reset 44100 (5 / 1000)).setCurrentAndTargetValue
      (defaultParams : Params ℝ).dryWet).setTargetValue (jlimit 0 1 P.dryWet) = _
  rw [hj]
  unfold LinearSmoothedValue.setTargetValue LinearSmoothedValue.reset
    LinearSmoothedValue.setCurrentAndTargetValue
  simp only [hf, defaultParams]
  rw [if_neg (by norm_num), if_neg (by norm_num)]
  congr 1
  norm_num

end Broken

/-! ## The OLDVERSION variant: reverb tap, bounded delay buffer, independent channels -/

namespace OldVersion

variable {α ω : Type} [LinearOrderedField α] [FloorRing α]

/-- The reverb buffer that `prepareToPlay` creates when the truncated request `m` lies in `1 .. 2 ^ 31`. -/
theorem prepared_reverbBuffer (P : Params α) (ch : Channel α) (sampleRate : α) (m : Nat)
    (hm : truncToInt (sampleRate * (5 / 100)) = (m : Int)) (h1 : 1 ≤ m) (h2 : m ≤ 2 ^ 31) :
    (Channel.prepare P ch sampleRate).reverbBuffer
      = { buffer := List.replicate (2 ^ Nat.clog 2 m) 0, writeIndex := 0,
          bufferLength := 2 ^ Nat.clog 2 m, wrapMask := 2 ^ Nat.clog 2 m - 1 } := by
  show ((ch.reverbBuffer.createCircularBuffer
      (u32 (truncToInt (sampleRate * (5 / 100))))).flushBuffer) = _
  rw [hm, u32_natCast_of_lt m (by omega), CircularBuffer.createCircularBuffer_eq _ m h1 h2,
    CircularBuffer.flushBuffer_of_pos _ _ _ (Nat.pow_pos (by decide))]

/-- C28 (amended): in the OLDVERSION variant, for every sample rate whose
truncated request `m = (int) (sampleRate * 0.05)` lies in `1 .. 2 ^ 31`, the
reverb buffer that `prepareToPlay` creates has the length `N`, the smallest
power of two that is at least `m`, and the tap delay `reverbDelayMs *
sampleRate / 1000` is `0.05 * sampleRate`; when `m + 2 ≤ N` (that is, when `m`
is neither a power of two nor one less than one) the tap is at most `N - 1`
and the clamp of `readBuffer` leaves it as it is. -/
theorem reverb_tap_within_buffer (O : OscillatorOps ω α) (P : Params α) (osc0 : ω)
    (sampleRate : α) (samplesPerBlock c m : Nat)
    (hm : truncToInt (sampleRate * (5 / 100)) = (m : Int)) (h1 : 1 ≤ m) (h2 : m ≤ 2 ^ 31)
    (hroom : m + 2 ≤ 2 ^ Nat.clog 2 m) :
    (get2 (prepareToPlay O P (Processor.construct osc0) sampleRate samplesPerBlock).channels
        c).reverbBuffer.bufferLength = 2 ^ Nat.clog 2 m ∧
      (prepareToPlay O P (Processor.construct osc0) sampleRate samplesPerBlock).reverbDelayMs
          * (prepareToPlay O P (Processor.construct osc0) sampleRate samplesPerBlock).sampleRate
          / 1000 = sampleRate * (5 / 100) ∧
      sampleRate * (5 / 100)
        ≤ (((get2 (prepareToPlay O P (Processor.construct osc0) sampleRate
            samplesPerBlock).channels c).reverbBuffer.bufferLength : Nat) : α) - 1 ∧
      (get2 (prepareToPlay O P (Processor.construct osc0) sampleRate samplesPerBlock).channels
          c).reverbBuffer.clampedDelay (sampleRate * (5 / 100)) = sampleRate * (5 / 100) := by
  have hb : (get2 (prepareToPlay O P (Processor.construct osc0) sampleRate
      samplesPerBlock).channels c).reverbBuffer
      = { buffer := List.replicate (2 ^ Nat.clog 2 m) 0, writeIndex := 0,
          bufferLength := 2 ^ Nat.clog 2 m, wrapMask := 2 ^ Nat.clog 2 m - 1 } := by
    unfold prepareToPlay get2
    split_ifs <;> exact prepared_reverbBuffer P _ sampleRate m hm h1 h2
  have hk : Nat.clog 2 m ≤ 31 := (Nat.le_pow_iff_clog_le (by decide)).mp h2
  have hwf : CircularBuffer.WellFormed
      ({ buffer := List.replicate (2 ^ Nat.clog 2 m) 0, writeIndex := 0,
         bufferLength := 2 ^ Nat.clog 2 m, wrapMask := 2 ^ Nat.clog 2 m - 1 } :
        CircularBuffer α) (Nat.clog 2 m) :=
    ⟨by omega, rfl, rfl, Nat.pow_pos (by decide), List.length_replicate _ _⟩
  have hpos : 0 ≤ sampleRate * (5 / 100) := by
    by_contra hneg
    have : truncToInt (sampleRate * (5 / 100)) ≤ 0 := by
      unfold truncToInt
      rw [if_neg hneg]
      exact Int.ceil_le.mpr (by push_cast; exact le_of_lt (not_le.mp hneg))
    omega
  have hfl : sampleRate * (5 / 100) < (m : α) + 1 := by
    have := Int.lt_floor_add_one (sampleRate * (5 / 100))
    rw [← truncToInt_of_nonneg _ hpos, hm] at this
    exact_mod_cast this
  have hle : sampleRate * (5 / 100) ≤ ((2 ^ Nat.clog 2 m : Nat) : α) - 1 := by
    have h3 : ((m + 2 : Nat) : α) ≤ ((2 ^ Nat.clog 2 m : Nat) : α) := by exact_mod_cast hroom
    push_cast at h3 ⊢
    linarith
  rw [hb]
  refine ⟨rfl, ?_, hle, ?_⟩
  · show (50 : α) * sampleRate / 1000 = sampleRate * (5 / 100)
    ring
  · rw [hwf.clampedDelay_eq]
    apply jlimit_of_mem _ _ _ hpos
    push_cast at hle
    exact hle

/-- The loop body on a channel whose delay buffer is well formed with samples in
`[-1, 1]` returns, keeps both properties, and reads a value in `[-1, 1]`. -/
theorem tapeSampleChannel_inUnit (M : MathFns α) (P : Params α) (sampleRate w f : α)
    (sf : LinearSmoothedValue α) (ch : Channel α) (x : α) (k : Nat)
    (h : ch.delayBuffer.WellFormed k) (hu : ch.delayBuffer.InUnit) :
    ∃ r, tapeSampleChannel M P sampleRate w f sf ch x = some r ∧
      r.1.delayBuffer.WellFormed k ∧ r.1.delayBuffer.InUnit ∧ (-1 ≤ r.2.2 ∧ r.2.2 ≤ 1) := by
  obtain ⟨a, b, _, _, hr⟩ :=
    h.readBuffer_eq (delaySamples P sampleRate ch.smoothedDelayTime.getNextValue.1 w f)
  have hy := h.readBuffer_inUnit hu _ _ hr
  unfold tapeSampleChannel
  simp only [hr, h.writeBuffer_eq]
  refine ⟨_, rfl, h.after_write _, ?_, hy⟩
  exact hu.write_inUnit _ (jlimit_mem _ _ _ (by norm_num)).1 (jlimit_mem _ _ _ (by norm_num)).2
    _ _ _

theorem tapeLoop_inUnit (M : MathFns α) (O : OscillatorOps ω α) (P : Params α) (c k : Nat)
    (xs : List α) :
    ∀ (st : Processor ω α), (get2 st.channels c).delayBuffer.WellFormed k →
      (get2 st.channels c).delayBuffer.InUnit →
      ∃ r, tapeLoop M O P c st xs = some r ∧
        (get2 r.1.channels c).delayBuffer.WellFormed k ∧
        (get2 r.1.channels c).delayBuffer.InUnit ∧ (∀ y ∈ r.2, -1 ≤ y ∧ y ≤ 1) := by
  induction xs with
  | nil =>
    intro st hwf hu
    exact ⟨(st, []), rfl, hwf, hu, fun y hy => absurd hy (List.not_mem_nil y)⟩
  | cons x xs ih =>
    intro st hwf hu
    obtain ⟨r, hr, hwf1, hu1, hread⟩ := tapeSampleChannel_inUnit M P st.sampleRate
      (O.processSample st.wowOscillator 0).1 (O.processSample st.flutterOscillator 0).1
      st.smoothedFeedback (get2 st.channels c) x k hwf hu
    have hstep : tapeSample M O P c st x = some
        ({ st with
            channels := set2 st.channels c r.1
            smoothedFeedback := r.2.1
            wowOscillator := (O.processSample st.wowOscillator 0).2
            flutterOscillator := (O.processSample st.flutterOscillator 0).2 }, r.2.2) := by
      unfold tapeSample
      simp only [hr]
    obtain ⟨r2, hr2, hwf2, hu2, hys⟩ := ih
      { st with
          channels := set2 st.channels c r.1
          smoothedFeedback := r.2.1
          wowOscillator := (O.processSample st.wowOscillator 0).2
          flutterOscillator := (O.processSample st.flutterOscillator 0).2 }
      (by simpa only [get2_set2] using hwf1) (by simpa only [get2_set2] using hu1)
    refine ⟨(r2.1, r.2.2 :: r2.2), ?_, hwf2, hu2, ?_⟩
    · rw [tapeLoop]
      simp only [hstep, hr2]
    · intro y hy
      rcases List.mem_cons.mp hy with he | hm
      · rw [he]; exact hread
      · exact hys y hm

/-- In exact arithmetic: in the OLDVERSION tape loop, from a well-formed delay
buffer whose samples lie in `[-1, 1]` (a flushed one, by `flushBuffer_inUnit`),
for every input sequence and every control snapshot the loop returns, every
sample stored in the buffer still lies in `[-1, 1]`, every value the loop read
lies in `[-1, 1]`, and so does every value that `readBuffer` returns on the
buffer for any delay. -/
theorem delay_buffer_stays_in_unit (M : MathFns α) (O : OscillatorOps ω α) (P : Params α)
    (c k : Nat) (st : Processor ω α) (xs : List α)
    (hwf : (get2 st.channels c).delayBuffer.WellFormed k)
    (hu : (get2 st.channels c).delayBuffer.InUnit) :
    ∃ r, tapeLoop M O P c st xs = some r ∧
      (get2 r.1.channels c).delayBuffer.InUnit ∧ (∀ y ∈ r.2, -1 ≤ y ∧ y ≤ 1) ∧
      ∀ d y, (get2 r.1.channels c).delayBuffer.readBuffer d = some y → -1 ≤ y ∧ y ≤ 1 := by
  obtain ⟨r, hr, hwf1, hu1, hys⟩ := tapeLoop_inUnit M O P c k xs st hwf hu
  exact ⟨r, hr, hu1, hys, fun d y hy => hwf1.readBuffer_inUnit hu1 d y hy⟩

theorem ChannelShape.channel_refl (a : Channel α) : ChannelShape a a :=
  ⟨CircularBuffer.SameShape.shape_refl _, CircularBuffer.SameShape.shape_refl _, rfl⟩

theorem AgreeOffFirst.agree_refl (s : Processor ω α) : AgreeOffFirst s s :=
  ⟨rfl, ChannelShape.channel_refl _, rfl, rfl, rfl, rfl, rfl, rfl, rfl, rfl⟩

/-- The shared feedback smoother after `feedbackGain` does not depend on the fade smoother. -/
theorem feedbackGain_shared (P : Params α) (sf fade fade1 : LinearSmoothedValue α) :
    (feedbackGain P sf fade).2.1 = (feedbackGain P sf fade1).2.1 := by
  unfold feedbackGain
  split_ifs <;> rfl

/-- The tape loop body on two channels of the same shape, with any two inputs:
both fail or both succeed, and then the channels still have the same shape and
the shared feedback smoother is the same. -/
theorem tapeSampleChannel_shape (M : MathFns α) (P : Params α) (sampleRate w f : α)
    (sf : LinearSmoothedValue α) (a b : Channel α) (x y : α) (h : ChannelShape a b) :
    BothOrNeither (fun r r1 => ChannelShape r.1 r1.1 ∧ r.2.1 = r1.2.1)
      (tapeSampleChannel M P sampleRate w f sf a x)
      (tapeSampleChannel M P sampleRate w f sf b y) := by
  obtain ⟨hd, hrv, hs⟩ := h
  unfold tapeSampleChannel
  dsimp only
  rw [hs]
  have hread := hd.readBuffer_both
    (delaySamples P sampleRate b.smoothedDelayTime.getNextValue.1 w f)
  rw [bothOrNeither_iff] at hread
  rcases hread with ⟨ha, hb⟩ | ⟨u, v, ha, hb, -⟩
  · rw [ha, hb]
    exact trivial
  · rw [ha, hb]
    dsimp only
    have hwrite := hd.writeBuffer_both
      (jlimit (-1) 1 (x + ((a.feedbackFilter.update M P.filterFreq).process M u).1
        * (feedbackGain P sf (silenceDetect a.silenceCounter a.feedbackFade x).2).1))
      (jlimit (-1) 1 (y + ((b.feedbackFilter.update M P.filterFreq).process M v).1
        * (feedbackGain P sf (silenceDetect b.silenceCounter b.feedbackFade y).2).1))
    rw [bothOrNeither_iff] at hwrite
    rcases hwrite with ⟨ha1, hb1⟩ | ⟨a1, b1, ha1, hb1, hab⟩
    · rw [ha1, hb1]
      exact trivial
    · rw [ha1, hb1]
      exact ⟨⟨hab, hrv, rfl⟩, feedbackGain_shared P sf _ _⟩

/-- The reverb loop body on two channels of the same shape, with any two inputs. -/
theorem reverbSampleChannel_shape (M : MathFns α) (reverbDelayMs sampleRate : α)
    (srl : LinearSmoothedValue α) (a b : Channel α) (x y : α) (h : ChannelShape a b) :
    BothOrNeither (fun r r1 => ChannelShape r.1 r1.1 ∧ r.2.1 = r1.2.1)
      (reverbSampleChannel M reverbDelayMs sampleRate srl a x)
      (reverbSampleChannel M reverbDelayMs sampleRate srl b y) := by
  obtain ⟨hd, hrv, hs⟩ := h
  unfold reverbSampleChannel
  dsimp only
  have hread := hrv.readBuffer_both (reverbDelayMs * sampleRate / 1000)
  rw [bothOrNeither_iff] at hread
  rcases hread with ⟨ha, hb⟩ | ⟨u, v, ha, hb, -⟩
  · rw [ha, hb]
    exact trivial
  · rw [ha, hb]
    dsimp only
    have hwrite := hrv.writeBuffer_both x y
    rw [bothOrNeither_iff] at hwrite
    rcases hwrite with ⟨ha1, hb1⟩ | ⟨a1, b1, ha1, hb1, hab⟩
    · rw [ha1, hb1]
      exact trivial
    · rw [ha1, hb1]
      exact ⟨⟨hd, hab, hs⟩, rfl⟩

/-- One step of the tape loop of channel 0 on two processors that agree off
channel 0, with any two inputs. -/
theorem tapeSample_first (M : MathFns α) (O : OscillatorOps ω α) (P : Params α)
    (s t : Processor ω α) (x y : α) (h : AgreeOffFirst s t) :
    BothOrNeither (fun r r1 => AgreeOffFirst r.1 r1.1)
      (tapeSample M O P 0 s x) (tapeSample M O P 0 t y) := by
  obtain ⟨h2, h1, hw, hf, hsf, hdw, hrl, hmd, hrd, hsr⟩ := h
  have hstep := tapeSampleChannel_shape M P t.sampleRate
    (O.processSample t.wowOscillator 0).1 (O.processSample t.flutterOscillator 0).1
    t.smoothedFeedback s.channels.1 t.channels.1 x y h1
  unfold tapeSample
  dsimp only
  rw [hw, hf, hsf, hsr]
  rw [bothOrNeither_iff] at hstep
  rcases hstep with ⟨ha, hb⟩ | ⟨a, b, ha, hb, hab, hfb⟩
  · rw [show get2 s.channels 0 = s.channels.1 from rfl,
      show get2 t.channels 0 = t.channels.1 from rfl, ha, hb]
    exact trivial
  · rw [show get2 s.channels 0 = s.channels.1 from rfl,
      show get2 t.channels 0 = t.channels.1 from rfl, ha, hb]
    exact ⟨h2, hab, rfl, rfl, hfb, hdw, hrl, hmd, hrd, rfl⟩

/-- One step of the tape loop of channel 1 on two processors that agree off
channel 0, with the same input: the same value is read. -/
theorem tapeSample_second (M : MathFns α) (O : OscillatorOps ω α) (P : Params α)
    (s t : Processor ω α) (x : α) (h : AgreeOffFirst s t) :
    BothOrNeither (fun r r1 => AgreeOffFirst r.1 r1.1 ∧ r.2 = r1.2)
      (tapeSample M O P 1 s x) (tapeSample M O P 1 t x) := by
  obtain ⟨h2, h1, hw, hf, hsf, hdw, hrl, hmd, hrd, hsr⟩ := h
  unfold tapeSample
  dsimp only
  rw [hw, hf, hsf, hsr, show get2 s.channels 1 = s.channels.2 from rfl,
    show get2 t.channels 1 = t.channels.2 from rfl, h2]
  cases tapeSampleChannel M P t.sampleRate (O.processSample t.wowOscillator 0).1
      (O.processSample t.flutterOscillator 0).1 t.smoothedFeedback t.channels.2 x with
  | none => exact trivial
  | some r => exact ⟨⟨rfl, h1, rfl, rfl, rfl, hdw, hrl, hmd, hrd, rfl⟩, rfl⟩

theorem tapeLoop_first (M : MathFns α) (O : OscillatorOps ω α) (P : Params α) (xs : List α) :
    ∀ (ys : List α) (s t : Processor ω α), xs.length = ys.length → AgreeOffFirst s t →
      BothOrNeither (fun r r1 => AgreeOffFirst r.1 r1.1 ∧ r.2.length = xs.length ∧
          r1.2.length = ys.length)
        (tapeLoop M O P 0 s xs) (tapeLoop M O P 0 t ys) := by
  induction xs with
  | nil =>
    intro ys s t hlen h
    cases ys with
    | nil => exact ⟨h, rfl, rfl⟩
    | cons y ys => exact absurd hlen (by simp)
  | cons x xs ih =>
    intro ys s t hlen h
    cases ys with
    | nil => exact absurd hlen (by simp)
    | cons y ys =>
      have hstep := tapeSample_first M O P s t x y h
      rw [bothOrNeither_iff] at hstep
      rw [tapeLoop, tapeLoop]
      rcases hstep with ⟨ha, hb⟩ | ⟨a, b, ha, hb, hab⟩
      · rw [ha, hb]
        exact trivial
      · rw [ha, hb]
        dsimp only
        have hrest := ih ys a.1 b.1 (by simpa using hlen) hab
        rw [bothOrNeither_iff] at hrest
        rcases hrest with ⟨hc, hd⟩ | ⟨c, d, hc, hd, hcd, l1, l2⟩
        · rw [hc, hd]
          exact trivial
        · rw [hc, hd]
          exact ⟨hcd, by simp [l1], by simp [l2]⟩

theorem tapeLoop_second (M : MathFns α) (O : OscillatorOps ω α) (P : Params α) (xs : List α) :
    ∀ (s t : Processor ω α), AgreeOffFirst s t →
      BothOrNeither (fun r r1 => AgreeOffFirst r.1 r1.1 ∧ r.2 = r1.2 ∧ r.2.length = xs.length)
        (tapeLoop M O P 1 s xs) (tapeLoop M O P 1 t xs) := by
  induction xs with
  | nil => intro s t h; exact ⟨h, rfl, rfl⟩
  | cons x xs ih =>
    intro s t h
    have hstep := tapeSample_second M O P s t x h
    rw [bothOrNeither_iff] at hstep
    rw [tapeLoop, tapeLoop]
    rcases hstep with ⟨ha, hb⟩ | ⟨a, b, ha, hb, hab, hout⟩
    · rw [ha, hb]
      exact trivial
    · rw [ha, hb]
      dsimp only
      have hrest := ih a.1 b.1 hab
      rw [bothOrNeither_iff] at hrest
      rcases hrest with ⟨hc, hd⟩ | ⟨c, d, hc, hd, hcd, ho, hl⟩
      · rw [hc, hd]
        exact trivial
      · rw [hc, hd]
        exact ⟨hcd, by rw [hout, ho], by simp [hl]⟩

/-- The dry/wet smoother after the mix loop, and the number of samples mixed,
depend on the lengths of the two lists only. -/
theorem mixLoop_lengths (xs : List α) :
    ∀ (xs1 ds ds1 : List α) (s : LinearSmoothedValue α), xs.length = xs1.length →
      ds.length = ds1.length →
      (mixLoop s xs ds).1 = (mixLoop s xs1 ds1).1 ∧
        (mixLoop s xs ds).2.length = (mixLoop s xs1 ds1).2.length := by
  induction xs with
  | nil =>
    intro xs1 ds ds1 s h1 h2
    cases xs1 with
    | nil => exact ⟨rfl, rfl⟩
    | cons y ys => exact absurd h1 (by simp)
  | cons x xs ih =>
    intro xs1 ds ds1 s h1 h2
    cases xs1 with
    | nil => exact absurd h1 (by simp)
    | cons y ys =>
      cases ds with
      | nil =>
        cases ds1 with
        | nil => exact ⟨rfl, rfl⟩
        | cons e es => exact absurd h2 (by simp)
      | cons d ds =>
        cases ds1 with
        | nil => exact absurd h2 (by simp)
        | cons e es =>
          obtain ⟨i1, i2⟩ := ih ys ds es s.getNextValue.2.getNextValue.2 (by simpa using h1)
            (by simpa using h2)
          rw [mixLoop, mixLoop]
          exact ⟨i1, by simp [i2]⟩

theorem tapeSection_second (M : MathFns α) (O : OscillatorOps ω α) (P : Params α)
    (s t : Processor ω α) (xs xs1 ys : List α) (hlen : xs.length = xs1.length)
    (h : AgreeOffFirst s t) :
    BothOrNeither (fun r r1 => AgreeOffFirst r.1 r1.1 ∧ r.2.2 = r1.2.2 ∧
        r.2.1.length = r1.2.1.length)
      (tapeSection M O P s (xs, ys)) (tapeSection M O P t (xs1, ys)) := by
  unfold tapeSection
  dsimp only
  have hleft := tapeLoop_first M O P xs xs1 s t hlen h
  rw [bothOrNeither_iff] at hleft
  rcases hleft with ⟨ha, hb⟩ | ⟨a, b, ha, hb, hab, la, lb⟩
  · rw [ha, hb]
    exact trivial
  · rw [ha, hb]
    dsimp only
    have hright := tapeLoop_second M O P ys a.1 b.1 hab
    rw [bothOrNeither_iff] at hright
    rcases hright with ⟨hc, hd⟩ | ⟨c, d, hc, hd, hcd, ho, -⟩
    · rw [hc, hd]
      exact trivial
    · rw [hc, hd]
      obtain ⟨h2, h1, hw, hf, hsf, hdw, hrl, hmd, hrd, hsr⟩ := hcd
      obtain ⟨m1, m2⟩ := mixLoop_lengths xs xs1 a.2 b.2 d.1.smoothedDryWet hlen
        (by rw [la, lb, hlen])
      show AgreeOffFirst _ _ ∧ (mixLoop (mixLoop c.1.smoothedDryWet xs a.2).1 ys c.2).2
          = (mixLoop (mixLoop d.1.smoothedDryWet xs1 b.2).1 ys d.2).2 ∧
        (mixLoop c.1.smoothedDryWet xs a.2).2.length
          = (mixLoop d.1.smoothedDryWet xs1 b.2).2.length
      rw [hdw, ho, m1]
      exact ⟨⟨h2, h1, hw, hf, hsf, rfl, hrl, hmd, hrd, hsr⟩, rfl, m2⟩

theorem reverbLoop_first (M : MathFns α) (xs : List α) :
    ∀ (ys : List α) (s t : Processor ω α), xs.length = ys.length → AgreeOffFirst s t →
      BothOrNeither (fun r r1 => AgreeOffFirst r.1 r1.1)
        (reverbLoop M 0 s xs) (reverbLoop M 0 t ys) := by
  induction xs with
  | nil =>
    intro ys s t hlen h
    cases ys with
    | nil => exact h
    | cons y ys => exact absurd hlen (by simp)
  | cons x xs ih =>
    intro ys s t hlen h
    cases ys with
    | nil => exact absurd hlen (by simp)
    | cons y ys =>
      obtain ⟨h2, h1, hw, hf, hsf, hdw, hrl, hmd, hrd, hsr⟩ := h
      have hstep := reverbSampleChannel_shape M s.reverbDelayMs s.sampleRate
        s.smoothedReverbLevel s.channels.1 t.channels.1 x y h1
      have ht : reverbSampleChannel M t.reverbDelayMs t.sampleRate t.smoothedReverbLevel
          = reverbSampleChannel M s.reverbDelayMs s.sampleRate s.smoothedReverbLevel := by
        rw [hrd, hsr, hrl]
      rw [bothOrNeither_iff] at hstep
      rw [reverbLoop, reverbLoop, ht,
        show get2 s.channels 0 = s.channels.1 from rfl,
        show get2 t.channels 0 = t.channels.1 from rfl]
      rcases hstep with ⟨ha, hb⟩ | ⟨a, b, ha, hb, hab, hlv⟩
      · rw [ha, hb]
        exact trivial
      · rw [ha, hb]
        dsimp only
        have hrest := ih ys
          { s with channels := set2 s.channels 0 a.1, smoothedReverbLevel := a.2.1 }
          { t with channels := set2 t.channels 0 b.1, smoothedReverbLevel := b.2.1 }
          (by simpa using hlen) ⟨h2, hab, hw, hf, hsf, hdw, hlv, hmd, hrd, hsr⟩
        rw [bothOrNeither_iff] at hrest
        rcases hrest with ⟨hc, hd⟩ | ⟨c, d, hc, hd, hcd⟩
        · rw [hc, hd]
          exact trivial
        · rw [hc, hd]
          exact hcd

theorem reverbLoop_second (M : MathFns α) (xs : List α) :
    ∀ (s t : Processor ω α), AgreeOffFirst s t →
      BothOrNeither (fun r r1 => AgreeOffFirst r.1 r1.1 ∧ r.2 = r1.2)
        (reverbLoop M 1 s xs) (reverbLoop M 1 t xs) := by
  induction xs with
  | nil => intro s t h; exact ⟨h, rfl⟩
  | cons x xs ih =>
    intro s t h
    obtain ⟨h2, h1, hw, hf, hsf, hdw, hrl, hmd, hrd, hsr⟩ := h
    have hs : reverbSampleChannel M s.reverbDelayMs s.sampleRate s.smoothedReverbLevel
        (get2 s.channels 1) x
        = reverbSampleChannel M t.reverbDelayMs t.sampleRate t.smoothedReverbLevel
          t.channels.2 x := by
      rw [hrd, hsr, hrl, show get2 s.channels 1 = s.channels.2 from rfl, h2]
    rw [reverbLoop, reverbLoop, hs, show get2 t.channels 1 = t.channels.2 from rfl]
    cases reverbSampleChannel M t.reverbDelayMs t.sampleRate t.smoothedReverbLevel
        t.channels.2 x with
    | none => exact trivial
    | some r =>
      dsimp only
      have hrest := ih
        { s with channels := set2 s.channels 1 r.1, smoothedReverbLevel := r.2.1 }
        { t with channels := set2 t.channels 1 r.1, smoothedReverbLevel := r.2.1 }
        ⟨rfl, h1, hw, hf, hsf, hdw, rfl, hmd, hrd, hsr⟩
      rw [bothOrNeither_iff] at hrest
      rcases hrest with ⟨hc, hd⟩ | ⟨c, d, hc, hd, hcd, ho⟩
      · rw [hc, hd]
        exact trivial
      · rw [hc, hd]
        exact ⟨hcd, by rw [ho]⟩

theorem reverbSection_second (M : MathFns α) (s t : Processor ω α) (xs xs1 ys : List α)
    (hlen : xs.length = xs1.length) (h : AgreeOffFirst s t) :
    BothOrNeither (fun r r1 => r.2.2 = r1.2.2)
      (reverbSection M s (xs, ys)) (reverbSection M t (xs1, ys)) := by
  unfold reverbSection
  dsimp only
  have hleft := reverbLoop_first M xs xs1 s t hlen h
  rw [bothOrNeither_iff] at hleft
  rcases hleft with ⟨ha, hb⟩ | ⟨a, b, ha, hb, hab⟩
  · rw [ha, hb]
    exact trivial
  · rw [ha, hb]
    dsimp only
    have hright := reverbLoop_second M ys a.1 b.1 hab
    rw [bothOrNeither_iff] at hright
    rcases hright with ⟨hc, hd⟩ | ⟨c, d, hc, hd, -, ho⟩
    · rw [hc, hd]
      exact trivial
    · rw [hc, hd]
      exact ho

/-- Two blocks from the same processor whose inputs differ in channel 0 only:
both fail or both succeed, with the same output on channel 1. -/
theorem processBlock_second_channel (M : MathFns α) (O : OscillatorOps ω α) (P : Params α)
    (st : Processor ω α) (xs xs1 ys : List α) (hlen : xs.length = xs1.length) :
    (processBlock M O P st (xs, ys)).map (fun r => r.2.2)
      = (processBlock M O P st (xs1, ys)).map (fun r => r.2.2) := by
  have htape : BothOrNeither (fun r r1 => AgreeOffFirst r.1 r1.1 ∧ r.2.2 = r1.2.2 ∧
      r.2.1.length = r1.2.1.length)
      (if P.tapeDelayOnOff then tapeSection M O P st (xs, ys) else some (st, (xs, ys)))
      (if P.tapeDelayOnOff then tapeSection M O P st (xs1, ys) else some (st, (xs1, ys))) := by
    cases P.tapeDelayOnOff
    · exact ⟨AgreeOffFirst.agree_refl st, rfl, hlen⟩
    · exact tapeSection_second M O P st st xs xs1 ys hlen (AgreeOffFirst.agree_refl st)
  unfold processBlock
  rw [bothOrNeither_iff] at htape
  rcases htape with ⟨ha, hb⟩ | ⟨a, b, ha, hb, hab, ho, hl⟩
  · rw [ha, hb]
  · rw [ha, hb]
    dsimp only
    cases P.reverbOnOff
    · show (some a).map (fun r => r.2.2) = (some b).map (fun r => r.2.2)
      rw [Option.map_some', Option.map_some', ho]
    · have hrev := reverbSection_second M a.1 b.1 a.2.1 b.2.1 a.2.2 hl hab
      rw [bothOrNeither_iff] at hrev
      show (reverbSection M a.1 a.2).map (fun r => r.2.2)
        = (reverbSection M b.1 b.2).map (fun r => r.2.2)
      rw [show a.2 = (a.2.1, a.2.2) from rfl, show b.2 = (b.2.1, b.2.2) from rfl, ← ho]
      rcases hrev with ⟨hc, hd⟩ | ⟨c, d, hc, hd, hcd⟩
      · rw [hc, hd]
      · rw [hc, hd, Option.map_some', Option.map_some', hcd]

theorem buffersWellFormed_set2 {chs : Channel α × Channel α}
    (h : ∀ c1, Broken.BuffersWellFormed (get2 chs c1)) (c : Nat) (ch : Channel α)
    (hc : Broken.BuffersWellFormed ch) : ∀ c1, Broken.BuffersWellFormed (get2 (set2 chs c ch) c1) := by
  intro c1
  have h1 := h c1
  unfold get2 set2 at *
  by_cases hc0 : c = 0 <;> by_cases hc1 : c1 = 0 <;> simp_all

theorem tapeSampleChannel_buffers (M : MathFns α) (P : Params α) (sampleRate w f : α)
    (sf : LinearSmoothedValue α) (ch : Channel α) (x : α)
    (h : Broken.BuffersWellFormed ch) :
    ∃ r, tapeSampleChannel M P sampleRate w f sf ch x = some r ∧
      Broken.BuffersWellFormed r.1 := by
  obtain ⟨k, r, hk, hr⟩ := h
  obtain ⟨a, b, _, _, hread⟩ :=
    hk.readBuffer_eq (delaySamples P sampleRate ch.smoothedDelayTime.getNextValue.1 w f)
  unfold tapeSampleChannel
  simp only [hread, hk.writeBuffer_eq]
  exact ⟨_, rfl, k, r, hk.after_write _, hr⟩

theorem reverbSampleChannel_buffers (M : MathFns α) (reverbDelayMs sampleRate : α)
    (srl : LinearSmoothedValue α) (ch : Channel α) (x : α)
    (h : Broken.BuffersWellFormed ch) :
    ∃ r, reverbSampleChannel M reverbDelayMs sampleRate srl ch x = some r ∧
      Broken.BuffersWellFormed r.1 := by
  obtain ⟨k, r, hk, hr⟩ := h
  obtain ⟨a, b, _, _, hread⟩ := hr.readBuffer_eq (reverbDelayMs * sampleRate / 1000)
  unfold reverbSampleChannel
  simp only [hread, hr.writeBuffer_eq]
  exact ⟨_, rfl, k, r, hk, hr.after_write _⟩

theorem tapeLoop_buffers (M : MathFns α) (O : OscillatorOps ω α) (P : Params α) (c : Nat)
    (xs : List α) :
    ∀ (st : Processor ω α), (∀ c1, Broken.BuffersWellFormed (get2 st.channels c1)) →
      ∃ r, tapeLoop M O P c st xs = some r ∧
        ∀ c1, Broken.BuffersWellFormed (get2 r.1.channels c1) := by
  induction xs with
  | nil => intro st h; exact ⟨(st, []), rfl, h⟩
  | cons x xs ih =>
    intro st h
    obtain ⟨r, hr, hwf⟩ := tapeSampleChannel_buffers M P st.sampleRate
      (O.processSample st.wowOscillator 0).1 (O.processSample st.flutterOscillator 0).1
      st.smoothedFeedback (get2 st.channels c) x (h c)
    have hstep : tapeSample M O P c st x = some
        ({ st with
            channels := set2 st.channels c r.1
            smoothedFeedback := r.2.1
            wowOscillator := (O.processSample st.wowOscillator 0).2
            flutterOscillator := (O.processSample st.flutterOscillator 0).2 }, r.2.2) := by
      unfold tapeSample
      simp only [hr]
    obtain ⟨r2, hr2, hwf2⟩ := ih
      { st with
          channels := set2 st.channels c r.1
          smoothedFeedback := r.2.1
          wowOscillator := (O.processSample st.wowOscillator 0).2
          flutterOscillator := (O.processSample st.flutterOscillator 0).2 }
      (buffersWellFormed_set2 h c r.1 hwf)
    refine ⟨(r2.1, r.2.2 :: r2.2), ?_, hwf2⟩
    rw [tapeLoop]
    simp only [hstep, hr2]

theorem reverbLoop_buffers (M : MathFns α) (c : Nat) (xs : List α) :
    ∀ (st : Processor ω α), (∀ c1, Broken.BuffersWellFormed (get2 st.channels c1)) →
      ∃ r, reverbLoop M c st xs = some r ∧
        ∀ c1, Broken.BuffersWellFormed (get2 r.1.channels c1) := by
  induction xs with
  | nil => intro st h; exact ⟨(st, []), rfl, h⟩
  | cons x xs ih =>
    intro st h
    obtain ⟨r, hr, hwf⟩ := reverbSampleChannel_buffers M st.reverbDelayMs st.sampleRate
      st.smoothedReverbLevel (get2 st.channels c) x (h c)
    obtain ⟨r2, hr2, hwf2⟩ := ih
      { st with channels := set2 st.channels c r.1, smoothedReverbLevel := r.2.1 }
      (buffersWellFormed_set2 h c r.1 hwf)
    refine ⟨(r2.1, r.2.2 :: r2.2), ?_, hwf2⟩
    rw [reverbLoop]
    simp only [hr, hr2]

/-- A block on a processor whose four buffers are well formed returns. -/
theorem processBlock_returns (M : MathFns α) (O : OscillatorOps ω α) (P : Params α)
    (st : Processor ω α) (buffer : List α × List α)
    (h : ∀ c1, Broken.BuffersWellFormed (get2 st.channels c1)) :
    ∃ r, processBlock M O P st buffer = some r := by
  have htape : ∃ r, (if P.tapeDelayOnOff then tapeSection M O P st buffer else some (st, buffer))
      = some r ∧ ∀ c1, Broken.BuffersWellFormed (get2 r.1.channels c1) := by
    cases P.tapeDelayOnOff
    · exact ⟨(st, buffer), rfl, h⟩
    · obtain ⟨l, hl, hwl⟩ := tapeLoop_buffers M O P 0 buffer.1 st h
      obtain ⟨r, hr, hwr⟩ := tapeLoop_buffers M O P 1 buffer.2 l.1 hwl
      have hsec : tapeSection M O P st buffer = some
          ({ r.1 with
              smoothedDryWet :=
                (mixLoop (mixLoop r.1.smoothedDryWet buffer.1 l.2).1 buffer.2 r.2).1 },
            ((mixLoop r.1.smoothedDryWet buffer.1 l.2).2,
              (mixLoop (mixLoop r.1.smoothedDryWet buffer.1 l.2).1 buffer.2 r.2).2)) := by
        unfold tapeSection
        simp only [hl, hr]
      exact ⟨_, hsec, hwr⟩
  obtain ⟨t, ht, hwt⟩ := htape
  unfold processBlock
  rw [ht]
  dsimp only
  cases P.reverbOnOff
  · exact ⟨t, rfl⟩
  · obtain ⟨l, hl, hwl⟩ := reverbLoop_buffers M 0 t.2.1 t.1 hwt
    obtain ⟨r, hr, -⟩ := reverbLoop_buffers M 1 t.2.2 l.1 hwl
    have hsec : reverbSection M t.1 t.2 = some (r.1, (l.2, r.2)) := by
      unfold reverbSection
      simp only [hl, hr]
    exact ⟨_, hsec⟩

/-- The four buffers of a processor prepared at 44100 Hz are well formed. -/
theorem prepared_buffers_44100 (O : OscillatorOps ω ℝ) (P : Params ℝ) (st : Processor ω ℝ) :
    ∀ c1, Broken.BuffersWellFormed (get2 (prepareToPlay O P st 44100 512).channels c1) := by
  have hch : ∀ ch : Channel ℝ, Broken.BuffersWellFormed (Channel.prepare P ch 44100) := by
    intro ch
    have h1 : truncToInt ((44100 : ℝ) * 2) = 88200 := by
      have := truncToInt_natCast 88200
      norm_num at this ⊢
      exact this
    have h2 : truncToInt ((44100 : ℝ) * (5 / 100)) = 2205 := by
      have := truncToInt_natCast 2205
      norm_num at this ⊢
      exact this
    have h3 : u32 88200 = 88200 := by decide
    have h4 : u32 2205 = 2205 := by decide
    refine ⟨Nat.clog 2 88200, Nat.clog 2 2205, ?_, ?_⟩
    · show ((ch.delayBuffer.createCircularBuffer
          (u32 (truncToInt ((44100 : ℝ) * 2)))).flushBuffer).WellFormed _
      rw [h1, h3]
      exact (CircularBuffer.createCircularBuffer_wellFormed _ 88200 (by norm_num)
        (by norm_num)).2
    · show ((ch.reverbBuffer.createCircularBuffer
          (u32 (truncToInt ((44100 : ℝ) * (5 / 100))))).flushBuffer).WellFormed _
      rw [h2, h4]
      exact (CircularBuffer.createCircularBuffer_wellFormed _ 2205 (by norm_num)
        (by norm_num)).2
  intro c1
  unfold prepareToPlay get2
  split_ifs <;> exact hch _

/-- C29: in the OLDVERSION variant, two runs of `processBlock` from the same
processor state and the same control snapshot, on blocks of the same length
that differ only in channel 0, give the same channel-1 output: both runs fail
or both return, with identical channel-1 samples; and on a processor whose
buffers are well formed both runs return. -/
theorem second_channel_independent (M : MathFns α) (O : OscillatorOps ω α) (P : Params α)
    (st : Processor ω α) (xs xs1 ys : List α) (hlen : xs.length = xs1.length) :
    (processBlock M O P st (xs, ys)).map (fun r => r.2.2)
        = (processBlock M O P st (xs1, ys)).map (fun r => r.2.2) ∧
      ((∀ c1, Broken.BuffersWellFormed (get2 st.channels c1)) →
        ∃ r r1, processBlock M O P st (xs, ys) = some r ∧
          processBlock M O P st (xs1, ys) = some r1 ∧ r.2.2 = r1.2.2) := by
  have heq := processBlock_second_channel M O P st xs xs1 ys hlen
  refine ⟨heq, ?_⟩
  intro hwf
  obtain ⟨r, hr⟩ := processBlock_returns M O P st (xs, ys) hwf
  obtain ⟨r1, hr1⟩ := processBlock_returns M O P st (xs1, ys) hwf
  refine ⟨r, r1, hr, hr1, ?_⟩
  rw [hr, hr1] at heq
  exact Option.some.inj heq

end OldVersion

/-! ## The biquad filter at its initial coefficients -/

namespace LowPassFilter

variable {α : Type} [LinearOrderedField α] [FloorRing α]

/-- A call of `update` whose clamped frequency is the smoother target changes nothing. -/
theorem update_same_target (M : MathFns α) (f : LowPassFilter α) (frequency : α)
    (h : f.smoothedFreq.target = jlimit 200 4000 frequency) : f.update M frequency = f := by
  unfold update
  rw [if_neg]
  rw [LinearSmoothedValue.getTargetValue, h]
  exact fun hne => hne rfl

/-- The run of a filter whose coefficients are the initial ones and whose smoother
target is the clamped frequency: every output is the clamped sum of the input
and the input of two samples before. -/
theorem run_initial_coefficients (M : MathFns α) (hfin : ∀ v : α, M.isfinite v = true)
    (frequency : α) (xs : List α) :
    ∀ (f : LowPassFilter α), f.a0 = 1 → f.a1 = 0 → f.b1 = 0 → f.b2 = 0 →
      f.smoothedFreq.target = jlimit 200 4000 frequency →
      (run M frequency f xs).1
          = List.zipWith (fun x d => jlimit (-1) 1 (x + d)) xs (f.x2 :: f.x1 :: xs) ∧
        (run M frequency f xs).2.a0 = 1 ∧ (run M frequency f xs).2.a1 = 0 ∧
        (run M frequency f xs).2.b1 = 0 ∧ (run M frequency f xs).2.b2 = 0 := by
  induction xs with
  | nil => intro f h0 h1 h2 h3 _; exact ⟨rfl, h0, h1, h2, h3⟩
  | cons x xs ih =>
    intro f h0 h1 h2 h3 ht
    have hstep : (f.update M frequency).process M x
        = (jlimit (-1) 1 (x + f.x2),
            { f with x2 := f.x1, x1 := x, y2 := f.y1,
                     y1 := f.a0 * x + f.a1 * f.x1 + f.a0 * f.x2 - f.b1 * f.y1 - f.b2 * f.y2 }) := by
      rw [update_same_target M f frequency ht]
      unfold process
      simp only [hfin, if_true]
      rw [h0, h1, h2, h3]
      congr 2
      ring
    obtain ⟨ho, r0, r1, r2, r3⟩ := ih
      { f with x2 := f.x1, x1 := x, y2 := f.y1,
               y1 := f.a0 * x + f.a1 * f.x1 + f.a0 * f.x2 - f.b1 * f.y1 - f.b2 * f.y2 }
      h0 h1 h2 h3 ht
    rw [run]
    simp only [hstep]
    refine ⟨?_, r0, r1, r2, r3⟩
    rw [ho]
    rfl

/-- C30: for the biquad `LowPassFilter` prepared with the current and the
target value of its smoother set to a cutoff `f` with `200 ≤ f ≤ 4000`, a call
`update (f)` changes nothing, and a run of `update (f)` and `process (x_n)` over
any input sequence (every value being finite) leaves the coefficients at their
initial values `a0 = 1`, `a1 = b1 = b2 = 0` and returns
`clamp (x_n + x_(n-2), -1, 1)`, with `x_(-1) = x_(-2) = 0`. -/
theorem prepared_filter_sums_delayed_copy (M : MathFns α) (hfin : ∀ v : α, M.isfinite v = true)
    (sampleRate frequency : α) (h1 : 200 ≤ frequency) (h2 : frequency ≤ 4000) (xs : List α) :
    (prepared sampleRate frequency).update M frequency = prepared sampleRate frequency ∧
      (run M frequency (prepared sampleRate frequency) xs).1
          = List.zipWith (fun x d => jlimit (-1) 1 (x + d)) xs (0 :: 0 :: xs) ∧
      (run M frequency (prepared sampleRate frequency) xs).2.a0 = 1 ∧
      (run M frequency (prepared sampleRate frequency) xs).2.a1 = 0 ∧
      (run M frequency (prepared sampleRate frequency) xs).2.b1 = 0 ∧
      (run M frequency (prepared sampleRate frequency) xs).2.b2 = 0 := by
  have ht : (prepared sampleRate frequency).smoothedFreq.target = jlimit 200 4000 frequency := by
    rw [jlimit_of_mem _ _ _ h1 h2]
    rfl
  exact ⟨update_same_target M _ frequency ht,
    run_initial_coefficients M hfin frequency xs (prepared sampleRate frequency) rfl rfl rfl rfl ht⟩

end LowPassFilter

/-! ## The missing final clamp of the Source variant -/

namespace Source

/-- With tape delay and psychedelic mode off and reverb on, channel 0 of the
output of `processBlock` is what the reverb loop leaves, with no further step. -/
theorem processBlock_reverb_only {α δ ω : Type} [LinearOrderedField α] [FloorRing α]
    (M : MathFns α) (DL : DelayLineOps δ α) (O : OscillatorOps ω α)
    (rnd : Nat → α) (P : Params α) (st : Processor δ ω α) (buffer : List α × List α)
    (h1 : P.tapeDelayOnOff = false) (h2 : P.reverbOnOff = true)
    (h3 : P.psychedelicMode = false) (h4 : st.reverbInitialized = false) :
    (processBlock M DL O rnd P st buffer).2.1
      = (reverbLoop DL 0 st.smoothedReverbLevel.getNextValue.1
          (reverbInit DL st st.reverbDelays.1) buffer.1).2 := by
  simp [processBlock, reverbSection, reverbInit, h1, h2, h3, h4]

end Source

/-- The reverb loop of channel 0 at 44100 Hz with the reverb level 0.3, on 161
samples of value 1: the sample at index 160 is `59/50`. -/
theorem reverbLoop_ones_160 :
    ((Source.reverbLoop (juceDelayLine : DelayLineOps (JuceDelayLine ℚ) ℚ) 0 (3 / 10)
      (JuceDelayLine.reset
        (JuceDelayLine.setMaximumDelayInSamples
          (JuceDelayLine.prepare (JuceDelayLine.init : JuceDelayLine ℚ) 44100 512 2)
          (truncToInt ((44100 : ℚ) * (1 / 10)))))
      (List.replicate 161 1)).2)[160]? = some (59 / 50) := by decide!

namespace Source

/-- C5 (the code): `processBlock` of the Source variant ends without a clamp.
On the processor prepared at 44100 Hz with the default control values (all in
range), reverb on, tape delay and psychedelic mode off, and the JUCE delay
line, a block of 161 samples of value 1 on both channels (all inside `[-1, 1]`)
leaves the value `59/50 = 1.18` at sample 160 of channel 0: the reverb loop
feeds back `input + 0.6 * reverbOut` with an 80-sample delay, so `reverbOut` is
`1.6` there and the mix is `0.7 * 1 + 0.3 * 1.6`.  The output block is not
inside `[-1, 1]`, whatever the math functions, the oscillators and the random
generator are (the reverb path uses none of them). -/
theorem processBlock_reverb_exceeds_unit {ω : Type} (M : MathFns ℚ) (O : OscillatorOps ω ℚ)
    (rnd : Nat → ℚ) (osc0 : ω) :
    (defaultParams false true false : Params ℚ).InRange ∧
    InUnitRange (List.replicate 161 (1 : ℚ), List.replicate 161 (1 : ℚ)) ∧
    ((processBlock M juceDelayLine O rnd (defaultParams false true false)
        (prepareToPlay M juceDelayLine O (defaultParams false true false)
          (Processor.construct JuceDelayLine.init osc0) 44100 512)
        (List.replicate 161 1, List.replicate 161 1)).2.1)[160]? = some (59 / 50) ∧
    ¬ InUnitRange
      (processBlock M juceDelayLine O rnd (defaultParams false true false)
        (prepareToPlay M juceDelayLine O (defaultParams false true false)
          (Processor.construct JuceDelayLine.init osc0) 44100 512)
        (List.replicate 161 1, List.replicate 161 1)).2 := by
  have hval : ((processBlock M juceDelayLine O rnd (defaultParams false true false)
        (prepareToPlay M juceDelayLine O (defaultParams false true false)
          (Processor.construct JuceDelayLine.init osc0) 44100 512)
        (List.replicate 161 1, List.replicate 161 1)).2.1)[160]? = some (59 / 50) := by
    rw [processBlock_reverb_only M juceDelayLine O rnd _ _ _ rfl rfl rfl rfl]
    exact reverbLoop_ones_160
  refine ⟨?_, ?_, hval, ?_⟩
  · simp only [Params.InRange, defaultParams, delayTimeMaxMs]
    norm_num
  · constructor <;>
    · intro x hx
      rw [List.eq_of_mem_replicate hx]
      constructor <;> norm_num
  · intro h
    have hmem := List.getElem?_mem hval
    have := (h.1 _ hmem).2
    norm_num at this

end Source

/-! ## `readBuffer` in binary32 arithmetic -/

section Rounding

variable {α : Type} [LinearOrderedField α] [FloorRing α]

/-- The binary exponent of a positive value between two consecutive powers of two. -/
theorem int_log_two_eq (x : α) (e : Int) (h1 : (2 : α) ^ e ≤ x) (h2 : x < (2 : α) ^ (e + 1)) :
    Int.log 2 x = e := by
  have hx : 0 < x := lt_of_lt_of_le (zpow_pos (by norm_num) e) h1
  have hb : 1 < 2 := by decide
  have ha : e ≤ Int.log 2 x := by
    rw [← Int.zpow_le_iff_le_log hb hx]
    simpa using h1
  have hc : Int.log 2 x < e + 1 := by
    rw [← Int.lt_zpow_iff_log_lt hb hx]
    simpa using h2
  omega

/-- Rounding an integer gives the integer. -/
theorem roundHalfEven_intCast (n : Int) : roundHalfEven ((n : Int) : α) = n := by
  unfold roundHalfEven
  rw [Int.floor_intCast, sub_self, if_pos (by norm_num)]

/-- The rounding of a value with remainder above one half. -/
theorem roundHalfEven_up (x : α) (n : Int) (h1 : (n : α) + 1 / 2 < x) (h2 : x < (n : α) + 1) :
    roundHalfEven x = n + 1 := by
  have hf : ⌊x⌋ = n := by
    rw [Int.floor_eq_iff]
    constructor <;> linarith
  unfold roundHalfEven
  rw [hf, if_neg (by linarith), if_pos (by linarith)]

/-- The binary32 rounding of a value whose binary exponent is `e`. -/
theorem binary32_eq (x : α) (e : Int) (h1 : (2 : α) ^ e ≤ |x|) (h2 : |x| < (2 : α) ^ (e + 1)) :
    binary32 x = (roundHalfEven (x / (2 : α) ^ (e - 23)) : α) * (2 : α) ^ (e - 23) := by
  have hx : x ≠ 0 := by
    intro h
    rw [h, abs_zero] at h1
    exact absurd h1 (not_le.mpr (zpow_pos (by norm_num) e))
  unfold binary32
  rw [if_neg hx, int_log_two_eq |x| e h1 h2]

/-- A value with at most 24 significant bits is its own binary32 rounding. -/
theorem binary32_exact (x : α) (e n : Int) (h1 : (2 : α) ^ e ≤ |x|)
    (h2 : |x| < (2 : α) ^ (e + 1)) (hn : x = (n : α) * (2 : α) ^ (e - 23)) :
    binary32 x = x := by
  have hp : (2 : α) ^ (e - 23) ≠ 0 := (zpow_pos (by norm_num) _).ne'
  rw [binary32_eq x e h1 h2]
  have : x / (2 : α) ^ (e - 23) = (n : α) := by
    rw [hn, mul_div_assoc, div_self hp, mul_one]
  rw [this, roundHalfEven_intCast, ← hn]

end Rounding

namespace CircularBuffer

variable {α : Type} [LinearOrderedField α] [FloorRing α]

/-- With no rounding the rounded `readBuffer` is the exact one. -/
theorem readBufferRounded_id (cb : CircularBuffer α) (d : α) :
    cb.readBufferRounded id d = cb.readBuffer d := rfl

theorem binary32_131071 : binary32 (131071 : α) = 131071 := by
  apply binary32_exact _ 16 (131071 * 128)
  · rw [abs_of_nonneg (by norm_num)]; norm_num
  · rw [abs_of_nonneg (by norm_num)]; norm_num
  · push_cast
    rw [zpow_neg]
    norm_num

theorem binary32_131072 : binary32 (131072 : α) = 131072 := by
  apply binary32_exact _ 17 (2 ^ 23)
  · rw [abs_of_nonneg (by norm_num)]; norm_num
  · rw [abs_of_nonneg (by norm_num)]; norm_num
  · push_cast
    rw [zpow_neg]
    norm_num

theorem binary32_4410 : binary32 (4410 : α) = 4410 := by
  apply binary32_exact _ 12 (4410 * 2048)
  · rw [abs_of_nonneg (by norm_num)]; norm_num
  · rw [abs_of_nonneg (by norm_num)]; norm_num
  · push_cast
    rw [zpow_neg]
    norm_num

theorem binary32_delay : binary32 (4410 + 1 / 512 : α) = 4410 + 1 / 512 := by
  apply binary32_exact _ 12 (4410 * 2048 + 4)
  · rw [abs_of_nonneg (by norm_num)]; norm_num
  · rw [abs_of_nonneg (by norm_num)]; norm_num
  · push_cast
    rw [zpow_neg]
    norm_num

theorem binary32_neg_512 : binary32 (-(1 / 512) : α) = -(1 / 512) := by
  apply binary32_exact _ (-9) (-(2 ^ 23))
  · rw [abs_neg, abs_of_nonneg (by norm_num), zpow_neg]; norm_num
  · rw [abs_neg, abs_of_nonneg (by norm_num)]
    rw [show (-9 : Int) + 1 = -8 by norm_num, zpow_neg]; norm_num
  · push_cast
    rw [zpow_neg]
    norm_num

/-- The sum `-1/512 + 131072` lies within half a unit in the last place of `131072`. -/
theorem binary32_wrap : binary32 (-(1 / 512) + 131072 : α) = 131072 := by
  rw [binary32_eq _ 16 (by rw [abs_of_nonneg (by norm_num)]; norm_num)
    (by rw [abs_of_nonneg (by norm_num)]; norm_num)]
  rw [show (16 : Int) - 23 = -7 by norm_num, zpow_neg]
  rw [roundHalfEven_up _ 16777215 (by push_cast; norm_num) (by push_cast; norm_num)]
  push_cast
  norm_num

/-- C23 (the code): on the delay buffer that `prepareToPlay` creates at 44100 Hz
(length `N = 2 ^ 17`) with the write index at 4410, whatever it stores, the
call `readBuffer (4410 + 1/512)` in binary32 arithmetic computes the read index
`131072 = N`: the difference `4410 - (4410 + 1/512) = -1/512` is exact, and the
wrap `readIndex += bufferLength` rounds `131072 - 1/512` up to `131072`.  The
load `buffer[readIndexInt]` is then outside the array (the result `none`),
while in exact arithmetic the same call reads inside it. -/
theorem read_index_rounds_to_length (cb : CircularBuffer α) (h : cb.WellFormed 17)
    (hw : cb.writeIndex = 4410) :
    binary32 (4410 + 1 / 512 : α) = 4410 + 1 / 512 ∧
      cb.readIndex (4410 + 1 / 512) = 131072 - 1 / 512 ∧
      (∃ y, cb.readBuffer (4410 + 1 / 512) = some y) ∧
      cb.readIndexRounded binary32 (4410 + 1 / 512) = (cb.bufferLength : α) ∧
      truncToInt (cb.readIndexRounded binary32 (4410 + 1 / 512)) = (cb.buffer.length : Int) ∧
      cb.readBufferRounded binary32 (4410 + 1 / 512) = none := by
  have hlen : cb.bufferLength = 2 ^ 17 := h.2.1
  have hbuf : cb.buffer.length = 2 ^ 17 := h.2.2.2.2
  have hidx : cb.readIndexRounded binary32 (4410 + 1 / 512) = 131072 := by
    unfold readIndexRounded
    rw [h.u32_length_sub_one, hw, hlen]
    have e1 : (((2 ^ 17 - 1 : Nat) : Nat) : α) = 131071 := by norm_num
    have e2 : (((4410 : Nat) : Nat) : α) = 4410 := by norm_num
    have e3 : (((2 ^ 17 : Nat) : Nat) : α) = 131072 := by norm_num
    rw [e1, e2, e3, binary32_131071, binary32_4410, binary32_131072]
    have e4 : jlimit (0 : α) 131071 (4410 + 1 / 512) = 4410 + 1 / 512 := by
      unfold jlimit
      rw [if_neg (by norm_num), if_neg (by norm_num)]
    have e5 : (4410 : α) - (4410 + 1 / 512) = -(1 / 512) := by ring
    simp only [e4, e5, binary32_neg_512]
    rw [if_pos (by norm_num), binary32_wrap]
  have htr : truncToInt (131072 : α) = 131072 := by
    rw [truncToInt_of_nonneg _ (by norm_num)]
    have : (131072 : α) = ((131072 : Int) : α) := by norm_num
    rw [this, Int.floor_intCast]
  refine ⟨binary32_delay, ?_, ?_, ?_, ?_, ?_⟩
  · unfold readIndex
    rw [h.clampedDelay_eq, hw, hlen]
    have e4 : jlimit (0 : α) (2 ^ 17 - 1) (4410 + 1 / 512) = 4410 + 1 / 512 := by
      unfold jlimit
      rw [if_neg (by norm_num), if_neg (by norm_num)]
    rw [e4]
    push_cast
    rw [if_pos (by norm_num)]
    norm_num
  · obtain ⟨a, b, -, -, hr⟩ := h.readBuffer_eq (4410 + 1 / 512 : α)
    exact ⟨_, hr⟩
  · rw [hidx, hlen]; norm_num
  · rw [hidx, htr, hbuf]; norm_num
  · unfold readBufferRounded
    simp only [hidx, htr]
    have hnone : cb.buffer[(131072 : Int).toNat]? = none := by
      rw [List.getElem?_eq_none_iff, hbuf]
      decide
    rw [if_pos (by norm_num), hnone]

end CircularBuffer

/-! ## Concrete instances -/

/-- C1 at a concrete input: the all-zero buffer of length 4 with write index 3, delay 2, six steps. -/
theorem impulse_round_trip_witness :
    ∃ ys cb1, (⟨[0, 0, 0, 0], 3, 4, 3⟩ : CircularBuffer ℚ).drive ((2 : Nat) : ℚ)
        (unitImpulseFrom 0 6) = some (ys, cb1) ∧
      ys.length = 6 ∧ ∀ n, n < 6 → ys[n]? = some (if n = 2 then 1 else 0) :=
  CircularBuffer.impulse_round_trip ⟨[0, 0, 0, 0], 3, 4, 3⟩ 2 (by decide) rfl 2 (by decide)
    (by decide) 6

/-- C3 refuted as stated: on the all-zero buffer of length 2 with write index 0,
`readBuffer 0` right after `writeBuffer 1` returns `0`, not the sample just written. -/
theorem readBuffer_zero_after_write_counterexample :
    ((⟨[0, 0], 0, 2, 1⟩ : CircularBuffer ℚ).WellFormed 1) ∧
    ((⟨[0, 0], 0, 2, 1⟩ : CircularBuffer ℚ).writeBuffer 1).bind (fun cb1 => cb1.readBuffer 0)
      = some 0 ∧
    ((⟨[0, 0], 0, 2, 1⟩ : CircularBuffer ℚ).writeBuffer 1).bind (fun cb1 => cb1.readBuffer 0)
      ≠ some 1 := by
  have h : (⟨[0, 0], 0, 2, 1⟩ : CircularBuffer ℚ).WellFormed 1 := by decide
  have h1 := h.after_write (1 : ℚ)
  have hr := h1.readBuffer_natCast 0 (Nat.zero_le _)
  rw [Nat.cast_zero] at hr
  have e : ((⟨[0, 0], 0, 2, 1⟩ : CircularBuffer ℚ).writeBuffer 1).bind
      (fun cb1 => cb1.readBuffer 0) = some 0 := by
    rw [h.writeBuffer_eq, Option.some_bind, hr]
    rfl
  refine ⟨h, e, ?_⟩
  rw [e]
  intro hc
  have := Option.some.inj hc
  norm_num at this

/-- C3 (amended) at a concrete input: length 2, write index 0, sample 7. -/
theorem readBuffer_after_write_witness :
    ∃ cb1, (⟨[5, 6], 0, 2, 1⟩ : CircularBuffer ℚ).writeBuffer 7 = some cb1 ∧
      (1 ≤ 1 → cb1.readBuffer 0
          = (⟨[5, 6], 0, 2, 1⟩ : CircularBuffer ℚ).buffer[(0 + 1) % 2 ^ 1]? ∧
        cb1.readBuffer 1 = some 7) ∧
      (1 = 0 → cb1.readBuffer 0 = some 7) :=
  CircularBuffer.readBuffer_after_write ⟨[5, 6], 0, 2, 1⟩ 1 (by decide) 7

/-- C4 at a concrete input: length 4, write index 1, requested delay 9 (beyond the buffer). -/
theorem readBuffer_in_bounds_witness :
    (⟨[10, 20, 30, 40], 1, 4, 3⟩ : CircularBuffer ℚ).WellFormed 2 ∧
    ((⟨[10, 20, 30, 40], 1, 4, 3⟩ : CircularBuffer ℚ).readBuffer 9).isSome = true :=
  ⟨by decide,
    (CircularBuffer.readBuffer_in_bounds ⟨[10, 20, 30, 40], 1, 4, 3⟩ 2 (by decide) 9).2.2.2.2.2⟩

/-- No stage of `processBlock` clamps: with the default (in-range) control
values and the three toggles off, on a prepared processor, the input block
`([2], [2])` comes back unchanged, so an output sample equals `2` and lies
outside `[-1, 1]`. -/
theorem processBlock_unclamped_instance :
    (Source.defaultParams false false false : Source.Params ℝ).InRange ∧
    (Source.processBlock realMath idleDelayLine idleOscillator (fun _ => 0)
      (Source.defaultParams false false false)
      (Source.preparedReal (Source.defaultParams false false false)) ([2], [2])).2 = ([2], [2]) ∧
    ¬ Source.InUnitRange
      (Source.processBlock realMath idleDelayLine idleOscillator (fun _ => 0)
        (Source.defaultParams false false false)
        (Source.preparedReal (Source.defaultParams false false false)) ([2], [2])).2 := by
  have e := Source.processBlock_all_off realMath idleDelayLine idleOscillator (fun _ => (0 : ℝ))
    (Source.defaultParams false false false)
    (Source.preparedReal (Source.defaultParams false false false)) ([2], [2]) rfl rfl rfl
  refine ⟨?_, e, ?_⟩
  · simp only [Source.Params.InRange, Source.defaultParams, Source.delayTimeMaxMs]
    norm_num
  · rw [e]
    intro h
    have h2 := (h.1 2 (List.mem_singleton.mpr rfl)).2
    norm_num at h2

/-- C6 refuted as stated: tape delay and reverb off but psychedelic mode on,
on a prepared processor whose random generator returns `1/2` (so the added
noise is zero): the input sample `2` of channel 0 comes back as
`tanh (1.6) / 0.8`, which is below `1.25`. -/
theorem processBlock_psychedelic_counterexample :
    (Source.defaultParams false false true : Source.Params ℝ).tapeDelayOnOff = false ∧
    (Source.defaultParams false false true : Source.Params ℝ).reverbOnOff = false ∧
    (Source.processBlock realMath idleDelayLine idleOscillator (fun _ => 1 / 2)
      (Source.defaultParams false false true)
      (Source.preparedReal (Source.defaultParams false false true)) ([2], [2])).2.1 ≠ [2] := by
  refine ⟨rfl, rfl, ?_⟩
  have hval : (Source.processBlock realMath idleDelayLine idleOscillator (fun _ => 1 / 2)
      (Source.defaultParams false false true)
      (Source.preparedReal (Source.defaultParams false false true)) ([2], [2])).2.1
      = [Real.tanh ((2 + (1 / 2 - 1 / 2) * (2 / 10000)) * (8 / 10)) / (8 / 10)
          * (1 + Real.sin 0 * (2 / 1000))] := by
    simp [Source.processBlock, Source.defaultParams, Source.psychedelicLoop,
      Source.psychedelicSample, Source.preparedReal, Source.prepareToPlay,
      Source.Processor.construct, realMath]
  rw [hval]
  intro h
  have h1 := List.head_eq_of_cons_eq h
  have h2 := real_tanh_lt_one ((2 + (1 / 2 - 1 / 2) * (2 / 10000)) * (8 / 10))
  rw [Real.sin_zero] at h1
  norm_num at h1
  linarith

/-- C6 (amended) at a concrete input: default control values, the three toggles off. -/
theorem processBlock_bypass_witness :
    (Source.processBlock realMath idleDelayLine idleOscillator (fun _ => 0)
      (Source.defaultParams false false false)
      (Source.preparedReal (Source.defaultParams false false false))
      ([3, -7], [0, 1 / 3])).2.1 = [3, -7] ∧
    (Source.processBlock realMath idleDelayLine idleOscillator (fun _ => 0)
      (Source.defaultParams false false false)
      (Source.preparedReal (Source.defaultParams false false false))
      ([3, -7], [0, 1 / 3])).2.2 = [0, 1 / 3] :=
  Source.processBlock_bypass realMath idleDelayLine idleOscillator (fun _ => 0)
    (Source.defaultParams false false false)
    (Source.preparedReal (Source.defaultParams false false false)) ([3, -7], [0, 1 / 3])
    rfl rfl rfl

/-- C9 refuted as stated: in the scenario the first echo, read at sample 4410,
is `1`, and every sample from 8820 to the end of the run (the second echo) has
magnitude at most `5411 / 17640`, which is below `0.31`: the repeat is not
about 0.5 times the first echo (the oscillator outputs are multiplied by the
zero depths). -/
theorem impulse_scenario_counterexample :
    ∃ st1 ysL ysR, OldVersion.runBlocks realMath idleOscillator OldVersion.scenarioParams
        (OldVersion.prepareToPlay idleOscillator OldVersion.scenarioParams
          (OldVersion.Processor.construct ()) 44100 512)
        (OldVersion.impulseBlocks 512 0 18) = some (st1, (ysL, ysR)) ∧
      ysL[4410]? = some 1 ∧
      (∀ n, 8820 ≤ n → n < 9216 → ∃ y, ysL[n]? = some y ∧ |y| ≤ 5411 / 17640) ∧
      (5411 / 17640 : ℝ) < 31 / 100 := by
  obtain ⟨st1, ysL, ysR, he, -, -, hy, -⟩ := OldVersion.scenario_outputs idleOscillator ()
  refine ⟨st1, ysL, ysR, he, ?_, ?_, by norm_num⟩
  · obtain ⟨y, h1, h2⟩ := hy 4410 (by omega)
    rw [h1, h2.2.1 rfl]
  · intro n hn1 hn2
    obtain ⟨y, h1, h2⟩ := hy n (by omega)
    refine ⟨y, h1, ?_⟩
    rw [h2.2.2.2 hn1 (by omega)]
    exact OldVersion.echoWritten_abs_le _ (by omega) (by omega)

/-- C11 at a concrete input: `x = 1`, `drive = 0.7`. -/
theorem saturation_bounded_witness :
    |Source.softClip realMath 1| < 1 ∧ |Source.tubeWarmth realMath 1 (7 / 10)| < 1 :=
  Source.saturation_bounded 1 (7 / 10) (by norm_num)

/-- C20 (amended) at a concrete input: requested length 5. -/
theorem createCircularBuffer_next_power_of_two_witness :
    ∃ k, 5 ≤ 2 ^ k ∧ (∀ m, 5 ≤ 2 ^ m → 2 ^ k ≤ 2 ^ m) ∧
      ({} : CircularBuffer ℚ).createCircularBuffer 5
        = { buffer := List.replicate (2 ^ k) 0, writeIndex := 0, bufferLength := 2 ^ k,
            wrapMask := 2 ^ k - 1 } :=
  CircularBuffer.createCircularBuffer_next_power_of_two {} 5 (by decide) (by decide)

/-- C20 refuted as stated: the request `L = 2 ^ 31 + 1` is at least 1 and fits
an `unsigned int`, but the smallest power of two above it, `2 ^ 32`, does not:
the buffer is left with length 0 and no storage, which is below `L`. -/
theorem createCircularBuffer_overflow_counterexample :
    1 ≤ 2 ^ 31 + 1 ∧ 2 ^ 31 + 1 < 2 ^ 32 ∧
      (({} : CircularBuffer ℚ).createCircularBuffer (2 ^ 31 + 1)).bufferLength = 0 ∧
      (({} : CircularBuffer ℚ).createCircularBuffer (2 ^ 31 + 1)).buffer = [] ∧
      ¬ (2 ^ 31 + 1 ≤ (({} : CircularBuffer ℚ).createCircularBuffer (2 ^ 31 + 1)).bufferLength) := by
  have h : Nat.clog 2 (2 ^ 31 + 1) = 32 := by
    apply le_antisymm
    · exact (Nat.le_pow_iff_clog_le (by decide)).mp (by norm_num)
    · exact (Nat.pow_lt_iff_lt_clog (by decide)).mp (by norm_num)
  have hn : CircularBuffer.nextPowerOfTwo (2 ^ 31 + 1) = 0 := by
    unfold CircularBuffer.nextPowerOfTwo
    rw [if_neg (by norm_num), h]
    decide
  have hb : ({} : CircularBuffer ℚ).createCircularBuffer (2 ^ 31 + 1)
      = { buffer := [], writeIndex := 0, bufferLength := 0, wrapMask := 2 ^ 32 - 1 } := by
    unfold CircularBuffer.createCircularBuffer CircularBuffer.createCircularBufferPowerOfTwo
    rw [hn]
    rfl
  rw [hb]
  exact ⟨by norm_num, by norm_num, rfl, rfl, by norm_num⟩

/-- The delay buffer of channel 0 after `prepareToPlay` at 44100 Hz. -/
theorem prepareToPlay_delay_buffers_instance :
    ∃ k, (get2 (OldVersion.prepareToPlay idleOscillator OldVersion.scenarioParams
            (OldVersion.Processor.construct ()) (44100 : ℝ) 512).channels 0).delayBuffer.WellFormed k
        ∧ truncToInt ((44100 : ℝ) * 2) ≤ 2 ^ k
        ∧ (get2 (OldVersion.prepareToPlay idleOscillator OldVersion.scenarioParams
            (OldVersion.Processor.construct ()) (44100 : ℝ) 512).channels 0).delayBuffer.buffer
            = List.replicate (2 ^ k) 0 := by
  have h1 : truncToInt ((44100 : ℝ) * 2) = 88200 := by
    have := OldVersion.truncToInt_natCast 88200
    norm_num at this ⊢
    exact this
  exact OldVersion.prepareToPlay_delay_buffers idleOscillator OldVersion.scenarioParams
    (OldVersion.Processor.construct ()) (44100 : ℝ) 512 0 (by rw [h1]; norm_num)
    (by rw [h1]; norm_num)

/-- C12 at the failing input: the scenario controls, the processor prepared at
the sample rate 0, then one block of one silent sample. -/
theorem prepareToPlay_zero_rate_overrun_witness :
    (OldVersion.prepareToPlay idleOscillator (OldVersion.scenarioParams : OldVersion.Params ℝ)
        (OldVersion.Processor.construct ()) 0 512).channels.1.delayBuffer.buffer = [] ∧
    OldVersion.processBlock realMath idleOscillator OldVersion.scenarioParams
        (OldVersion.prepareToPlay idleOscillator OldVersion.scenarioParams
          (OldVersion.Processor.construct ()) (0 : ℝ) 512) ([0], [0]) = none :=
  ⟨((OldVersion.prepareToPlay_zero_rate_overrun realMath idleOscillator
      OldVersion.scenarioParams (OldVersion.Processor.construct ()) 512 ([0], [0]) rfl
      (by simp)).1 0).2,
    (OldVersion.prepareToPlay_zero_rate_overrun realMath idleOscillator
      OldVersion.scenarioParams (OldVersion.Processor.construct ()) 512 ([0], [0]) rfl
      (by simp)).2.2⟩

/-- C14 at a concrete input: with the finiteness test of a binary32 float, a
filter whose `a0` is `2 ^ 128` and the input 1 compute an output that is not
finite; the call returns 0 and zeroes the four registers. -/
theorem process_finite_bounded_witness :
    (LowPassFilter.process floatRangeMath
        { (LowPassFilter.init : LowPassFilter ℝ) with a0 := 2 ^ 128 } 1).1 = 0 ∧
      (LowPassFilter.process floatRangeMath
        { (LowPassFilter.init : LowPassFilter ℝ) with a0 := 2 ^ 128 } 1).2.x1 = 0 ∧
      (LowPassFilter.process floatRangeMath
        { (LowPassFilter.init : LowPassFilter ℝ) with a0 := 2 ^ 128 } 1).2.x2 = 0 ∧
      (LowPassFilter.process floatRangeMath
        { (LowPassFilter.init : LowPassFilter ℝ) with a0 := 2 ^ 128 } 1).2.y1 = 0 ∧
      (LowPassFilter.process floatRangeMath
        { (LowPassFilter.init : LowPassFilter ℝ) with a0 := 2 ^ 128 } 1).2.y2 = 0 :=
  (LowPassFilter.process_finite_bounded floatRangeMath
      { (LowPassFilter.init : LowPassFilter ℝ) with a0 := 2 ^ 128 } 1
      (by
        intro v h1 h2
        show decide (|v| < 2 ^ 128) = true
        rw [decide_eq_true_eq]
        have : |v| ≤ 1 := abs_le.mpr ⟨h1, h2⟩
        have h3 : (1 : ℝ) < 2 ^ 128 := by norm_num
        linarith)).2.2
    (by
      show decide (|(2 ^ 128 : ℝ) * 1 + (LowPassFilter.init : LowPassFilter ℝ).a1
          * (LowPassFilter.init : LowPassFilter ℝ).x1 + 2 ^ 128 * (LowPassFilter.init : LowPassFilter ℝ).x2
          - (LowPassFilter.init : LowPassFilter ℝ).b1 * (LowPassFilter.init : LowPassFilter ℝ).y1
          - (LowPassFilter.init : LowPassFilter ℝ).b2 * (LowPassFilter.init : LowPassFilter ℝ).y2|
          < 2 ^ 128) = false
      rw [decide_eq_false_iff_not]
      simp only [LowPassFilter.init]
      norm_num)

/-- C19 (amended) at a concrete input: phase `pi`, rate 1 at sample rate 2 (increment `pi`), three updates. -/
theorem phase_in_closed_range_witness :
    0 ≤ OldVersion.phaseAfter realMath 1 2 3 Real.pi ∧
      OldVersion.phaseAfter realMath 1 2 3 Real.pi ≤ 2 * realMath.pi :=
  OldVersion.phase_in_closed_range realMath Real.pi 1 2 Real.pi_pos.le
    (by show Real.pi < 2 * Real.pi; linarith [Real.pi_pos])
    (by show 0 ≤ 2 * Real.pi * 1 / 2; linarith [Real.pi_pos])
    (by show 2 * Real.pi * 1 / 2 < 2 * Real.pi; linarith [Real.pi_pos]) 3

/-- C19 refuted as stated: from the phase `pi` with the increment `pi` (rate 1
at sample rate 2), both in `[0, 2 pi)`, one update leaves the phase equal to
`2 pi`, which is outside `[0, 2 pi)`. -/
theorem phase_reaches_two_pi_counterexample :
    (0 : ℝ) ≤ Real.pi ∧ Real.pi < 2 * realMath.pi ∧
      0 ≤ 2 * realMath.pi * 1 / 2 ∧ 2 * realMath.pi * 1 / 2 < 2 * realMath.pi ∧
      OldVersion.advancePhase realMath Real.pi 1 2 = 2 * realMath.pi ∧
      ¬ (OldVersion.advancePhase realMath Real.pi 1 2 < 2 * realMath.pi) := by
  have hpos := Real.pi_pos
  have h : OldVersion.advancePhase realMath Real.pi 1 2 = 2 * Real.pi := by
    unfold OldVersion.advancePhase
    show (if Real.pi + 2 * Real.pi * 1 / 2 > 2 * Real.pi then _ else _) = _
    rw [if_neg (by linarith)]
    show Real.pi + 2 * Real.pi * 1 / 2 = 2 * Real.pi
    ring
  refine ⟨hpos.le, ?_, ?_, ?_, h, ?_⟩
  · show Real.pi < 2 * Real.pi; linarith
  · show 0 ≤ 2 * Real.pi * 1 / 2; linarith
  · show 2 * Real.pi * 1 / 2 < 2 * Real.pi; linarith
  · rw [h]; exact lt_irrefl _

/-- C13 at a concrete input: the processor prepared at 44100 Hz, a block of two
samples per channel, the requests feedback 2 and dry/wet -1 (both out of range). -/
theorem processBlock_clamped_targets_witness :
    ∃ res, Broken.processBlock realMath idleOscillator
        { (Broken.defaultParams : Broken.Params ℝ) with feedback := 2, dryWet := -1 }
        (Broken.prepareToPlay idleOscillator Broken.defaultParams
          (OldVersion.Processor.construct ()) 44100 512) ([1 / 2, 0], [0, 1 / 4]) = some res ∧
      res.1.smoothedFeedback.target = jlimit 0 (7 / 10) 2 ∧
      res.1.smoothedDryWet.target = jlimit 0 1 (-1) ∧
      res.1.smoothedReverbLevel.target = jlimit 0 (1 / 2) 0 :=
  (Broken.processBlock_clamped_targets realMath idleOscillator
    { (Broken.defaultParams : Broken.Params ℝ) with feedback := 2, dryWet := -1 }
    (Broken.prepareToPlay idleOscillator Broken.defaultParams
      (OldVersion.Processor.construct ()) 44100 512) ([1 / 2, 0], [0, 1 / 4])
    (Broken.prepared_buffersWellFormed _ _) (Broken.prepared_buffersWellFormed _ _)).1

/-- C15 at a concrete input: the sample 0.5 on channels whose counter is 500 and
whose fade target is 0, in each of the three variants. -/
theorem loud_sample_resets_silence_detector_witness :
    (∃ r, OldVersion.tapeSampleChannel realMath OldVersion.scenarioParams 44100 0 0
        (LinearSmoothedValue.init (1 / 2))
        { (OldVersion.Channel.construct : OldVersion.Channel ℝ) with
          delayBuffer := ⟨[0, 0], 0, 2, 1⟩, silenceCounter := 500 } (1 / 2) = some r ∧
      r.1.silenceCounter = 0 ∧ r.1.feedbackFade.target = 1) ∧
    (∃ res, Broken.sampleChannel realMath Broken.defaultParams 50 44100
        ⟨LinearSmoothedValue.init (1 / 2), LinearSmoothedValue.init (1 / 2),
          LinearSmoothedValue.init 0⟩
        { (OldVersion.Channel.construct : OldVersion.Channel ℝ) with
          delayBuffer := ⟨[0, 0], 0, 2, 1⟩, reverbBuffer := ⟨[0, 0], 0, 2, 1⟩,
          silenceCounter := 500 } (1 / 2) = some res ∧
      res.1.silenceCounter = 0 ∧ res.1.feedbackFade.target = 1) ∧
    (∃ r, Alpha2.tapeSampleChannel realMath ⟨1, 0, 10, 0, 2000⟩ 44100 0 0
        (LinearSmoothedValue.init (1 / 2))
        ⟨⟨[0, 0], 0, 2, 1⟩, LowPassFilter.init, LinearSmoothedValue.init 100,
          LinearSmoothedValue.init 0, 500, 0, 0⟩ (1 / 2) = some r ∧
      r.1.silenceCounter = 0 ∧ r.1.feedbackFade.target = 1) :=
  have hwf : (⟨[0, 0], 0, 2, 1⟩ : CircularBuffer ℝ).WellFormed 1 :=
    ⟨by decide, rfl, rfl, by decide, rfl⟩
  have hx5 : ¬ |(1 / 2 : ℝ)| < 1 / 100000 := by
    rw [abs_of_pos (by norm_num)]; norm_num
  have hx6 : ¬ |(1 / 2 : ℝ)| < 1 / 1000000 := by
    rw [abs_of_pos (by norm_num)]; norm_num
  ⟨(loud_sample_resets_silence_detector realMath 44100 0 0 (1 / 2)
      (LinearSmoothedValue.init (1 / 2)) 1).1 _ _ hwf hx5,
    (loud_sample_resets_silence_detector realMath 44100 0 0 (1 / 2)
      (LinearSmoothedValue.init (1 / 2)) 1).2.1 _ _ _ _ 1 hwf hwf hx6,
    (loud_sample_resets_silence_detector realMath 44100 0 0 (1 / 2)
      (LinearSmoothedValue.init (1 / 2)) 1).2.2 _ _ hwf hx5⟩

/-- C18 (amended) at a concrete input: the processor prepared at 44100 Hz, a
block of one sample per channel, stored phases replaced by 1 and 2. -/
theorem lfo_restarts_every_block_witness :
    Source.processBlock realMath idleDelayLine (JuceOscillator.ops realMath) (fun _ => 0)
        (Source.defaultParams true false false)
        ((Source.prepareToPlay realMath idleDelayLine (JuceOscillator.ops realMath)
          (Source.defaultParams true false false) (Source.Processor.constructJuce realMath ())
          44100 512).withPhases 1 2) ([0], [0])
      = Source.processBlock realMath idleDelayLine (JuceOscillator.ops realMath) (fun _ => 0)
        (Source.defaultParams true false false)
        (Source.prepareToPlay realMath idleDelayLine (JuceOscillator.ops realMath)
          (Source.defaultParams true false false) (Source.Processor.constructJuce realMath ())
          44100 512) ([0], [0]) :=
  Source.lfo_restarts_every_block realMath idleDelayLine (JuceOscillator.ops realMath)
    (fun _ => 0) (Source.defaultParams true false false)
    (Source.prepareToPlay realMath idleDelayLine (JuceOscillator.ops realMath)
      (Source.defaultParams true false false) (Source.Processor.constructJuce realMath ())
      44100 512) ([0], [0])
    { (Source.prepareToPlay realMath idleDelayLine (JuceOscillator.ops realMath)
      (Source.defaultParams true false false) (Source.Processor.constructJuce realMath ())
      44100 512).wowLFO with phase := 1 }
    { (Source.prepareToPlay realMath idleDelayLine (JuceOscillator.ops realMath)
      (Source.defaultParams true false false) (Source.Processor.constructJuce realMath ())
      44100 512).flutterLFO with phase := 2 }
    rfl rfl rfl

/-- C16 (amended) at a concrete input: the processor prepared at 44100 Hz, 1002 silent samples on channel 0. -/
theorem silence_threshold_oldversion_witness :
    ∃ r, OldVersion.tapeLoop realMath idleOscillator OldVersion.scenarioParams 0
        (OldVersion.prepareToPlay idleOscillator OldVersion.scenarioParams
          (OldVersion.Processor.construct ()) 44100 512) (List.replicate 1002 0) = some r ∧
      (get2 r.1.channels 0).silenceCounter = ((List.replicate 1002 (0 : ℝ)).length : Int) ∧
      (get2 r.1.channels 0).feedbackFade.target
        = (if 1001 < (List.replicate 1002 (0 : ℝ)).length then 0 else 1) :=
  OldVersion.silence_threshold_oldversion realMath idleOscillator OldVersion.scenarioParams 0 17
    (OldVersion.prepareToPlay idleOscillator OldVersion.scenarioParams
      (OldVersion.Processor.construct ()) 44100 512) (List.replicate 1002 0)
    OldVersion.prepared_chanInit.1 OldVersion.prepared_chanInit.2.2.2.2.2.2.2.2.2.2.2.2.1
    (OldVersion.prepared_chanInit.2.2.2.2.2.2.2.2.2.2.2.2.2.2.1 (by norm_num)).2.1
    (by
      intro x hx
      rw [List.eq_of_mem_replicate hx]
      norm_num)

/-- C16 refuted as stated: on the processor prepared at 44100 Hz, after
`k = 1001 > 1000` consecutive silent samples on channel 0 the fade target is
still 1, not 0. -/
theorem silence_threshold_counterexample :
    ∃ r, OldVersion.tapeLoop realMath idleOscillator OldVersion.scenarioParams 0
        (OldVersion.prepareToPlay idleOscillator OldVersion.scenarioParams
          (OldVersion.Processor.construct ()) 44100 512) (List.replicate 1001 0) = some r ∧
      (1000 < (List.replicate 1001 (0 : ℝ)).length) ∧
      (get2 r.1.channels 0).feedbackFade.target = 1 ∧
      (get2 r.1.channels 0).feedbackFade.target ≠ 0 := by
  obtain ⟨r, hr, _, _, ht⟩ := OldVersion.tapeLoop_silent realMath idleOscillator
    OldVersion.scenarioParams 0 17 (List.replicate 1001 (0 : ℝ))
    (by
      intro x hx
      rw [List.eq_of_mem_replicate hx]
      norm_num) 0
    (OldVersion.prepareToPlay idleOscillator OldVersion.scenarioParams
      (OldVersion.Processor.construct ()) 44100 512)
    OldVersion.prepared_chanInit.1
    (by simpa using OldVersion.prepared_chanInit.2.2.2.2.2.2.2.2.2.2.2.2.1)
    (by simpa using (OldVersion.prepared_chanInit.2.2.2.2.2.2.2.2.2.2.2.2.2.2.1 (by norm_num)).2.1)
  have hlen : (List.replicate 1001 (0 : ℝ)).length = 1001 := List.length_replicate _ _
  rw [hlen] at ht
  rw [if_neg (by norm_num)] at ht
  exact ⟨r, hr, by rw [hlen]; norm_num, ht, by rw [ht]; exact one_ne_zero⟩

/-- C18 refuted as stated: on the processor prepared at 44100 Hz with the
default rates and tape delay on, the wow oscillator holds the phase `pi / 44100`
after a block of one sample, but the oscillator from which the next block draws
its first sample (after `setFrequency` and `reset`) holds the phase 0. -/
theorem lfo_restart_counterexample :
    ((Source.processBlock realMath idleDelayLine (JuceOscillator.ops realMath) (fun _ => 0)
        (Source.defaultParams true false false)
        (Source.prepareToPlay realMath idleDelayLine (JuceOscillator.ops realMath)
          (Source.defaultParams true false false) (Source.Processor.constructJuce realMath ())
          44100 512)
        ([0], [0])).1.wowLFO).phase = Real.pi / 44100 ∧
    ((JuceOscillator.ops realMath).reset ((JuceOscillator.ops realMath).setFrequency
      ((Source.processBlock realMath idleDelayLine (JuceOscillator.ops realMath) (fun _ => 0)
        (Source.defaultParams true false false)
        (Source.prepareToPlay realMath idleDelayLine (JuceOscillator.ops realMath)
          (Source.defaultParams true false false) (Source.Processor.constructJuce realMath ())
          44100 512)
        ([0], [0])).1.wowLFO) (1 / 2))).phase = 0 ∧
    Real.pi / 44100 ≠ 0 := by
  refine ⟨?_, rfl, ?_⟩
  · have ht : (Source.defaultParams true false false : Source.Params ℝ).tapeDelayOnOff = true := rfl
    have hr : (Source.defaultParams true false false : Source.Params ℝ).reverbOnOff = false := rfl
    have hp : (Source.defaultParams true false false : Source.Params ℝ).psychedelicMode = false := rfl
    unfold Source.processBlock
    simp only [ht, hr, hp, if_true, Bool.false_eq_true, if_false]
    unfold Source.tapeSection
    simp only [(Source.tapeLoop_lfos _ _ _ _ _ _ _ _).1, List.length_singleton]
    have hsr : ((JuceOscillator.ops realMath).setFrequency
        (Source.prepareToPlay realMath idleDelayLine (JuceOscillator.ops realMath)
          (Source.defaultParams true false false) (Source.Processor.constructJuce realMath ())
          44100 512).wowLFO
        (Source.defaultParams true false false).wowRate).sampleRate = (44100 : ℝ) := rfl
    have hft : ((JuceOscillator.ops realMath).setFrequency
        (Source.prepareToPlay realMath idleDelayLine (JuceOscillator.ops realMath)
          (Source.defaultParams true false false) (Source.Processor.constructJuce realMath ())
          44100 512).wowLFO
        (Source.defaultParams true false false).wowRate).frequency.target = (1 / 2 : ℝ) :=
      LinearSmoothedValue.setTargetValue_target _ _
    have hpi := Real.pi_pos
    rw [Source.lfo_phase_after_block _ (by rw [hsr]; norm_num)
      (by rw [hsr, hft]; positivity)
      (by rw [hsr, hft]; linarith), hsr, hft]
    ring
  · have := Real.pi_pos
    positivity

/-- C21 at a concrete input: length 4, write index 3, the calls write, read (delay 9), flush, write. -/
theorem calls_keep_invariant_witness :
    (∃ cb1, (⟨[10, 20, 30, 40], 3, 4, 3⟩ : CircularBuffer ℚ).calls
        [CircularBuffer.Call.write 5, CircularBuffer.Call.read 9, CircularBuffer.Call.flush,
          CircularBuffer.Call.write 6] = some cb1 ∧
      cb1.WellFormed 2 ∧ cb1.writeIndex < cb1.bufferLength ∧
      cb1.bufferLength = (⟨[10, 20, 30, 40], 3, 4, 3⟩ : CircularBuffer ℚ).bufferLength) :=
  (CircularBuffer.calls_keep_invariant ⟨[10, 20, 30, 40], 3, 4, 3⟩ 2 (by decide) _).1

/-- C22 at a concrete input: sample rate 44100, cutoff 4000. -/
theorem one_pole_coefficients_witness :
    (0 < (((⟨0, 0, 1, 0⟩ : Source.SimpleLowPassFilter ℝ).prepare 44100).setCutoff realMath 4000).a ∧
      (((⟨0, 0, 1, 0⟩ : Source.SimpleLowPassFilter ℝ).prepare 44100).setCutoff realMath 4000).a < 1) :=
  (Source.one_pole_coefficients ⟨0, 0, 1, 0⟩ 44100 4000 (by norm_num)).2.2.1

/-- The exact-arithmetic bound at a concrete input: the processor prepared at 44100 Hz, the inputs 3, -7 and 0.5 on channel 0. -/
theorem delay_buffer_stays_in_unit_instance :
    ∃ r, OldVersion.tapeLoop realMath idleOscillator OldVersion.scenarioParams 0
        (OldVersion.prepareToPlay idleOscillator OldVersion.scenarioParams
          (OldVersion.Processor.construct ()) 44100 512) [3, -7, 1 / 2] = some r ∧
      (get2 r.1.channels 0).delayBuffer.InUnit ∧ (∀ y ∈ r.2, -1 ≤ y ∧ y ≤ 1) ∧
      ∀ d y, (get2 r.1.channels 0).delayBuffer.readBuffer d = some y → -1 ≤ y ∧ y ≤ 1 :=
  OldVersion.delay_buffer_stays_in_unit realMath idleOscillator OldVersion.scenarioParams 0 17
    (OldVersion.prepareToPlay idleOscillator OldVersion.scenarioParams
      (OldVersion.Processor.construct ()) 44100 512) [3, -7, 1 / 2]
    OldVersion.prepared_chanInit.1 (CircularBuffer.flushBuffer_inUnit _)

/-- C24 at a concrete input: the processor prepared at 44100 Hz, psychedelic mode on (saturation 0.4), the inputs 1 and 2. -/
theorem wet_sample_below_one_witness :
    (0 : ℝ) ≤ (Source.defaultParams true false true : Source.Params ℝ).saturation ∧
    ∀ y ∈ Source.tapeWets realMath idleDelayLine (Source.defaultParams true false true) 0
        (Source.preparedReal (Source.defaultParams true false true)) [1, 2] [0, 0] [0, 0],
      |y| < 1 :=
  ⟨by show (0 : ℝ) ≤ 4 / 10; norm_num,
    (Source.wet_sample_below_one idleDelayLine (Source.defaultParams true false true) 0
      (Source.preparedReal (Source.defaultParams true false true)) [1, 2] [0, 0] [0, 0]
      ((⟨44100, 0, 1, 0⟩ : Source.SimpleLowPassFilter ℝ).prepare 44100) 4000
      (by show (0 : ℝ) ≤ 4 / 10; norm_num) rfl (by show (0 : ℝ) < 44100; norm_num)
      (by show |(0 : ℝ)| ≤ 1; norm_num)).1⟩

/-- C25 at a concrete input: the processor prepared at 44100 Hz with dry/wet 0.5, the block `([1, -1], [0.5, 0])`. -/
theorem tape_output_in_unit_witness :
    Source.InUnitRange
      (Source.processBlock realMath idleDelayLine idleOscillator (fun _ => 0)
        (Source.defaultParams true false false)
        (Source.preparedReal (Source.defaultParams true false false)) ([1, -1], [1 / 2, 0])).2 :=
  (Source.tape_output_in_unit idleDelayLine idleOscillator (fun _ => 0)
    (Source.defaultParams true false false)
    (Source.preparedReal (Source.defaultParams true false false)) ([1, -1], [1 / 2, 0]) (1 / 2)
    rfl rfl rfl ⟨rfl, rfl⟩ (by norm_num) (by norm_num)
    ⟨by show (0 : ℝ) < 44100; norm_num, by show |(0 : ℝ)| ≤ 1; norm_num⟩
    ⟨by show (0 : ℝ) < 44100; norm_num, by show |(0 : ℝ)| ≤ 1; norm_num⟩
    ⟨by
      intro x hx
      simp only [List.mem_cons, List.mem_singleton, List.not_mem_nil, or_false] at hx
      rcases hx with h | h <;> rw [h] <;> constructor <;> norm_num,
     by
      intro x hx
      simp only [List.mem_cons, List.mem_singleton, List.not_mem_nil, or_false] at hx
      rcases hx with h | h <;> rw [h] <;> constructor <;> norm_num⟩).1

/-- C26 at the failing input: prepared at 44100 Hz with dry/wet 0.5, then dry/wet
moved to 1: on the first sample of the next block the dry weight and the wet
weight sum to `1 + 1/440`, not to 1. -/
theorem mix_weights_sum_on_ramp_witness :
    (Broken.mixWeights
        (Broken.setTargets { (Broken.defaultParams : Broken.Params ℝ) with dryWet := 1 }
          (Broken.prepareToPlay idleOscillator Broken.defaultParams
            (OldVersion.Processor.construct ()) 44100 512)).smoothedDryWet).1
      + (Broken.mixWeights
        (Broken.setTargets { (Broken.defaultParams : Broken.Params ℝ) with dryWet := 1 }
          (Broken.prepareToPlay idleOscillator Broken.defaultParams
            (OldVersion.Processor.construct ()) 44100 512)).smoothedDryWet).2
      = 1 + 1 / 440 := by
  obtain ⟨k, r, hk, hr⟩ := Broken.prepared_buffersWellFormed Broken.defaultParams
    (OldVersion.Processor.construct () : OldVersion.Processor Unit ℝ).channels.1
  have h := (Broken.mix_weights_sum_on_ramp realMath
    { (Broken.defaultParams : Broken.Params ℝ) with dryWet := 1 } 50 44100
    (Broken.setTargets { (Broken.defaultParams : Broken.Params ℝ) with dryWet := 1 }
      (Broken.prepareToPlay idleOscillator Broken.defaultParams
        (OldVersion.Processor.construct ()) 44100 512))
    (Broken.channelPrepare Broken.defaultParams
      (OldVersion.Processor.construct () : OldVersion.Processor Unit ℝ).channels.1 44100)
    1 k r hk hr
    (by rw [Broken.retargeted_dryWet _ _ rfl]; norm_num)).1
  rw [h, Broken.retargeted_dryWet _ _ rfl]

/-- C27 (amended) at a concrete input: the default reverb level 0.3 in psychedelic mode. -/
theorem reverb_weights_range_witness :
    (Source.reverbMix (Source.defaultParams false true true)
        (Source.preparedReal (Source.defaultParams false true true))
      = 3 / 10 * (12 / 10)) :=
  ((Source.reverb_weights_range (Source.defaultParams false true true)
    (Source.preparedReal (Source.defaultParams false true true)) (3 / 10) ⟨rfl, rfl⟩
    (by norm_num) (by norm_num)).2 rfl).1

/-- C27 refuted as stated: with the in-range reverb level 1 and psychedelic mode
on, `reverbMix` is 1.2 (above 1) and the dry weight is -0.2 (below 0); the
input sample 1 leaves the reverb section as -0.2. -/
theorem reverb_weight_above_one_counterexample :
    ({ (Source.defaultParams false true true : Source.Params ℝ) with reverbLevel := 1 }).InRange ∧
    Source.reverbMix { (Source.defaultParams false true true : Source.Params ℝ) with reverbLevel := 1 }
        (Source.preparedReal
          { (Source.defaultParams false true true : Source.Params ℝ) with reverbLevel := 1 })
      = 12 / 10 ∧
    ¬ (Source.reverbMix
          { (Source.defaultParams false true true : Source.Params ℝ) with reverbLevel := 1 }
          (Source.preparedReal
            { (Source.defaultParams false true true : Source.Params ℝ) with reverbLevel := 1 })
        ≤ 1) ∧
    ¬ (0 ≤ 1 - Source.reverbMix
          { (Source.defaultParams false true true : Source.Params ℝ) with reverbLevel := 1 }
          (Source.preparedReal
            { (Source.defaultParams false true true : Source.Params ℝ) with reverbLevel := 1 })) ∧
    (Source.reverbSection idleDelayLine
        { (Source.defaultParams false true true : Source.Params ℝ) with reverbLevel := 1 }
        (Source.preparedReal
          { (Source.defaultParams false true true : Source.Params ℝ) with reverbLevel := 1 })
        ([1], [1])).2 = ([-(2 / 10)], [-(2 / 10)]) := by
  have hm : Source.reverbMix
      { (Source.defaultParams false true true : Source.Params ℝ) with reverbLevel := 1 }
      (Source.preparedReal
        { (Source.defaultParams false true true : Source.Params ℝ) with reverbLevel := 1 })
      = 12 / 10 := by
    show (1 : ℝ) * (12 / 10) = 12 / 10
    norm_num
  refine ⟨?_, hm, ?_, ?_, ?_⟩
  · simp only [Source.Params.InRange, Source.defaultParams, Source.delayTimeMaxMs]
    norm_num
  · rw [hm]; norm_num
  · rw [hm]; norm_num
  · rw [Source.reverbSection_uses_reverbMix, hm]
    simp only [Source.reverbLoop, idleDelayLine]
    norm_num

/-- C28 (amended) at a concrete input: 44100 Hz, request 2205, length 4096. -/
theorem reverb_tap_within_buffer_witness :
    (get2 (OldVersion.prepareToPlay idleOscillator OldVersion.scenarioParams
        (OldVersion.Processor.construct ()) (44100 : ℝ) 512).channels 0).reverbBuffer.bufferLength
        = 2 ^ Nat.clog 2 2205 ∧
      (OldVersion.prepareToPlay idleOscillator OldVersion.scenarioParams
          (OldVersion.Processor.construct ()) (44100 : ℝ) 512).reverbDelayMs
          * (OldVersion.prepareToPlay idleOscillator OldVersion.scenarioParams
              (OldVersion.Processor.construct ()) (44100 : ℝ) 512).sampleRate
          / 1000 = (44100 : ℝ) * (5 / 100) ∧
      (44100 : ℝ) * (5 / 100)
        ≤ (((get2 (OldVersion.prepareToPlay idleOscillator OldVersion.scenarioParams
            (OldVersion.Processor.construct ()) (44100 : ℝ) 512).channels
              0).reverbBuffer.bufferLength : Nat) : ℝ) - 1 ∧
      (get2 (OldVersion.prepareToPlay idleOscillator OldVersion.scenarioParams
          (OldVersion.Processor.construct ()) (44100 : ℝ) 512).channels
            0).reverbBuffer.clampedDelay ((44100 : ℝ) * (5 / 100)) = (44100 : ℝ) * (5 / 100) :=
  have hclog : Nat.clog 2 2205 = 12 :=
    le_antisymm ((Nat.le_pow_iff_clog_le (by decide)).mp (by norm_num))
      ((Nat.pow_lt_iff_lt_clog (by decide)).mp (by norm_num))
  OldVersion.reverb_tap_within_buffer idleOscillator OldVersion.scenarioParams ()
    (44100 : ℝ) 512 0 2205
    (by
      have := OldVersion.truncToInt_natCast 2205
      norm_num at this ⊢
      exact this)
    (by norm_num) (by norm_num) (by rw [hclog]; norm_num)

/-- C28 refuted as stated: at the sample rate 20480 the tap delay is 1024 samples
and the reverb buffer has the length 1024, so the tap exceeds `N - 1 = 1023` and
`readBuffer` clamps it to 1023. -/
theorem reverb_tap_clamped_counterexample :
    (0 : ℝ) < 20480 ∧
    (OldVersion.prepareToPlay idleOscillator OldVersion.scenarioParams
          (OldVersion.Processor.construct ()) (20480 : ℝ) 512).reverbDelayMs
        * (OldVersion.prepareToPlay idleOscillator OldVersion.scenarioParams
            (OldVersion.Processor.construct ()) (20480 : ℝ) 512).sampleRate / 1000 = 1024 ∧
    (OldVersion.prepareToPlay idleOscillator OldVersion.scenarioParams
        (OldVersion.Processor.construct ()) (20480 : ℝ) 512).channels.1.reverbBuffer.bufferLength
      = 1024 ∧
    ¬ ((1024 : ℝ) ≤ (((OldVersion.prepareToPlay idleOscillator OldVersion.scenarioParams
        (OldVersion.Processor.construct ()) (20480 : ℝ) 512).channels.1.reverbBuffer.bufferLength
          : Nat) : ℝ) - 1) ∧
    (OldVersion.prepareToPlay idleOscillator OldVersion.scenarioParams
        (OldVersion.Processor.construct ()) (20480 : ℝ) 512).channels.1.reverbBuffer.clampedDelay
        1024 = 1023 := by
  have hclog : Nat.clog 2 1024 = 10 :=
    le_antisymm ((Nat.le_pow_iff_clog_le (by decide)).mp (by norm_num))
      ((Nat.pow_lt_iff_lt_clog (by decide)).mp (by norm_num))
  have hm : truncToInt ((20480 : ℝ) * (5 / 100)) = ((1024 : Nat) : Int) := by
    have := OldVersion.truncToInt_natCast 1024
    norm_num at this ⊢
    exact this
  have hb := OldVersion.prepared_reverbBuffer OldVersion.scenarioParams
    (OldVersion.Processor.construct () : OldVersion.Processor Unit ℝ).channels.1 20480 1024 hm
    (by norm_num) (by norm_num)
  rw [hclog] at hb
  have hb2 : (OldVersion.prepareToPlay idleOscillator OldVersion.scenarioParams
      (OldVersion.Processor.construct ()) (20480 : ℝ) 512).channels.1.reverbBuffer
      = { buffer := List.replicate (2 ^ 10) 0, writeIndex := 0, bufferLength := 2 ^ 10,
          wrapMask := 2 ^ 10 - 1 } := hb
  have hwf : CircularBuffer.WellFormed
      ({ buffer := List.replicate (2 ^ 10) 0, writeIndex := 0, bufferLength := 2 ^ 10,
         wrapMask := 2 ^ 10 - 1 } : CircularBuffer ℝ) 10 :=
    ⟨by decide, rfl, rfl, by decide, List.length_replicate _ _⟩
  rw [hb2]
  refine ⟨by norm_num, ?_, by norm_num, ?_, ?_⟩
  · show (50 : ℝ) * 20480 / 1000 = 1024
    norm_num
  · norm_num
  · rw [hwf.clampedDelay_eq]
    unfold jlimit
    norm_num

/-- C29 at a concrete input: the processor prepared at 44100 Hz, channel 0 fed
`[1, 0]` in one run and `[-1, 3]` in the other, channel 1 fed `[0.5, 0.25]` in both. -/
theorem second_channel_independent_witness :
    ∃ r r1, OldVersion.processBlock realMath idleOscillator OldVersion.scenarioParams
        (OldVersion.prepareToPlay idleOscillator OldVersion.scenarioParams
          (OldVersion.Processor.construct ()) 44100 512) ([1, 0], [1 / 2, 1 / 4]) = some r ∧
      OldVersion.processBlock realMath idleOscillator OldVersion.scenarioParams
        (OldVersion.prepareToPlay idleOscillator OldVersion.scenarioParams
          (OldVersion.Processor.construct ()) 44100 512) ([-1, 3], [1 / 2, 1 / 4]) = some r1 ∧
      r.2.2 = r1.2.2 :=
  (OldVersion.second_channel_independent realMath idleOscillator OldVersion.scenarioParams
    (OldVersion.prepareToPlay idleOscillator OldVersion.scenarioParams
      (OldVersion.Processor.construct ()) 44100 512) [1, 0] [-1, 3] [1 / 2, 1 / 4] rfl).2
    (OldVersion.prepared_buffers_44100 _ _ _)

/-- C30 at a concrete input: sample rate 44100, cutoff 2000, the impulse `1, 0, 0, 0`. -/
theorem prepared_filter_sums_delayed_copy_witness :
    (LowPassFilter.run realMath 2000 (LowPassFilter.prepared 44100 2000) [1, 0, 0, 0]).1
      = List.zipWith (fun x d => jlimit (-1) 1 (x + d)) [1, 0, 0, 0] (0 :: 0 :: [1, 0, 0, 0]) :=
  (LowPassFilter.prepared_filter_sums_delayed_copy realMath (fun _ => rfl) 44100 2000
    (by norm_num) (by norm_num) [1, 0, 0, 0]).2.1

/-- C23 at the failing input: the flushed buffer of length `2 ^ 17` over the
rationals with the write index at 4410. -/
theorem read_index_rounds_to_length_witness :
    CircularBuffer.readBufferRounded binary32
        (⟨List.replicate (2 ^ 17) 0, 4410, 2 ^ 17, 2 ^ 17 - 1⟩ : CircularBuffer ℚ)
        (4410 + 1 / 512) = none :=
  (CircularBuffer.read_index_rounds_to_length
    (⟨List.replicate (2 ^ 17) 0, 4410, 2 ^ 17, 2 ^ 17 - 1⟩ : CircularBuffer ℚ)
    ⟨by decide, rfl, rfl, by decide, List.length_replicate _ _⟩ rfl).2.2.2.2.2

end WalrusDelay
